import Mathlib

/-!
C-arm CBCT: slice extraction and Hounsfield-to-grayscale mapping.

A shallow embedding of the `CBCTProcessor` class (slice extraction,
`convertToImageData`, `getSlice`) and theorems about it.

Conventions of the embedding:

* A JavaScript number is a `JSNum`: `NaN`, the two infinities, or a finite
  value carried as an exact rational. Arithmetic on finite values is exact
  (binary rounding and the sign of zero are abstracted away); the propagation
  of `NaN` and of the infinities follows IEEE 754 as JavaScript does.
* A typed array (`Float32Array`, `Uint8ClampedArray`) is a `List` of fixed
  length: a read outside the array yields `undefined`, a write outside the
  array is ignored (`List.set` beyond the length leaves the list unchanged).
* Loops `for (let i = 0; i < n; i++)` are folds over `List.range n`.
-/

namespace CBCT

/-! ## JavaScript numbers -/

/-- A JavaScript number: `NaN`, `-Infinity`, `+Infinity`, or a finite value. -/
inductive JSNum where
  | nan
  | negInf
  | posInf
  | fin (q : ℚ)
deriving DecidableEq

namespace JSNum

/-- JavaScript `a <= b`: false as soon as one side is `NaN`. -/
def le : JSNum → JSNum → Bool
  | nan, _ => false
  | _, nan => false
  | negInf, _ => true
  | _, posInf => true
  | posInf, _ => false
  | _, negInf => false
  | fin a, fin b => decide (a ≤ b)

/-- JavaScript `a < b`: false as soon as one side is `NaN`. -/
def lt : JSNum → JSNum → Bool
  | nan, _ => false
  | _, nan => false
  | posInf, _ => false
  | _, negInf => false
  | negInf, _ => true
  | _, posInf => true
  | fin a, fin b => decide (a < b)

/-- JavaScript `a >= b`. -/
def ge (a b : JSNum) : Bool := le b a

/-- JavaScript `a + b`. -/
def add : JSNum → JSNum → JSNum
  | nan, _ => nan
  | _, nan => nan
  | posInf, negInf => nan
  | negInf, posInf => nan
  | posInf, _ => posInf
  | _, posInf => posInf
  | negInf, _ => negInf
  | _, negInf => negInf
  | fin a, fin b => fin (a + b)

/-- The positive infinity when `pos` holds, the negative one otherwise. -/
def signedInf (pos : Bool) : JSNum := if pos then posInf else negInf

/-- JavaScript `a * b` (`Infinity * 0` is `NaN`). -/
def mul : JSNum → JSNum → JSNum
  | nan, _ => nan
  | _, nan => nan
  | posInf, posInf => posInf
  | posInf, negInf => negInf
  | negInf, posInf => negInf
  | negInf, negInf => posInf
  | posInf, fin b => if b = 0 then nan else signedInf (decide (0 < b))
  | negInf, fin b => if b = 0 then nan else signedInf (decide (b < 0))
  | fin a, posInf => if a = 0 then nan else signedInf (decide (0 < a))
  | fin a, negInf => if a = 0 then nan else signedInf (decide (a < 0))
  | fin a, fin b => fin (a * b)

/-- JavaScript `a / b` (`0 / 0` and `Infinity / Infinity` are `NaN`; a non-zero
finite value divided by zero is an infinity, the zero being taken positive). -/
def div : JSNum → JSNum → JSNum
  | nan, _ => nan
  | _, nan => nan
  | posInf, posInf => nan
  | posInf, negInf => nan
  | negInf, posInf => nan
  | negInf, negInf => nan
  | posInf, fin b => signedInf (decide (0 ≤ b))
  | negInf, fin b => signedInf (decide (b < 0))
  | fin _, posInf => fin 0
  | fin _, negInf => fin 0
  | fin a, fin b =>
      if b = 0 then (if a = 0 then nan else signedInf (decide (0 < a)))
      else fin (a / b)

end JSNum

/-! ## Typed arrays -/

/-- `new Float32Array(n)`: `n` samples, all zero. -/
def newFloat32Array (n : Nat) : List JSNum := List.replicate n (JSNum.fin 0)

/-- The value stored by `slice[..] = this.reconstructionVolume[volumeIndex]`:
the voxel at `volumeIndex` when that index is inside the buffer; outside it
(negative or past the end) the read yields `undefined`, which a `Float32Array`
stores as `NaN`. The voxel buffer is taken to hold single-precision samples
(the code that fills it is not part of the sources), so that a voxel copied
into a `Float32Array` slice is stored unchanged. -/
def readVoxel (reconstructionVolume : List JSNum) (volumeIndex : Int) : JSNum :=
  if volumeIndex < 0 then JSNum.nan
  else reconstructionVolume.getD volumeIndex.toNat JSNum.nan

/-- The field `reconstructionParameters.volumeSize`. -/
structure VolumeSize where
  x : Nat
  y : Nat
  z : Nat
deriving DecidableEq

/-! ## Slice extraction -/

/-- `extractAxialSlice(sliceIndex)`: the plane `z = sliceIndex`. -/
def extractAxialSlice (volumeSize : VolumeSize) (reconstructionVolume : List JSNum)
    (sliceIndex : Int) : List JSNum :=
  let x := volumeSize.x
  let y := volumeSize.y
  let slice := newFloat32Array (x * y)
  (List.range y).foldl (fun slice (j : Nat) =>
    (List.range x).foldl (fun slice (i : Nat) =>
      let volumeIndex : Int := sliceIndex * x * y + j * x + i
      slice.set (j * x + i) (readVoxel reconstructionVolume volumeIndex)) slice) slice

/-- `extractCoronalSlice(sliceIndex)`: the plane `y = sliceIndex`. -/
def extractCoronalSlice (volumeSize : VolumeSize) (reconstructionVolume : List JSNum)
    (sliceIndex : Int) : List JSNum :=
  let x := volumeSize.x
  let y := volumeSize.y
  let z := volumeSize.z
  let slice := newFloat32Array (x * z)
  (List.range z).foldl (fun slice (k : Nat) =>
    (List.range x).foldl (fun slice (i : Nat) =>
      let volumeIndex : Int := k * x * y + sliceIndex * x + i
      slice.set (k * x + i) (readVoxel reconstructionVolume volumeIndex)) slice) slice

/-- `extractSagittalSlice(sliceIndex)`: the plane `x = sliceIndex`. -/
def extractSagittalSlice (volumeSize : VolumeSize) (reconstructionVolume : List JSNum)
    (sliceIndex : Int) : List JSNum :=
  let x := volumeSize.x
  let y := volumeSize.y
  let z := volumeSize.z
  let slice := newFloat32Array (y * z)
  (List.range z).foldl (fun slice (k : Nat) =>
    (List.range y).foldl (fun slice (j : Nat) =>
      let volumeIndex : Int := k * x * y + j * x + sliceIndex
      slice.set (k * y + j) (readVoxel reconstructionVolume volumeIndex)) slice) slice

/-! ## Display images -/

/-- The exception a DOM constructor throws. -/
inductive JSError where
  | indexSizeError
  | typeError
deriving DecidableEq

/-- The DOM `ImageData`: `data` is a `Uint8ClampedArray` of `width * height * 4`
channel values. -/
structure ImageData where
  width : Nat
  height : Nat
  data : List Nat
deriving DecidableEq

/-- `new ImageData(width, height)`: transparent black pixels; the constructor
throws `IndexSizeError` when one of the two sizes is zero. -/
def newImageData (width height : Nat) : Except JSError ImageData :=
  if width = 0 ∨ height = 0 then Except.error JSError.indexSizeError
  else Except.ok { width := width, height := height,
                   data := List.replicate (width * height * 4) 0 }

/-- The conversion a `Uint8ClampedArray` applies to a stored number: `NaN`
becomes 0, the value is clamped to `[0, 255]` and rounded to the nearest
integer, ties to the even one. -/
def toUint8Clamp : JSNum → Nat
  | JSNum.nan => 0
  | JSNum.negInf => 0
  | JSNum.posInf => 255
  | JSNum.fin q =>
      if q ≤ 0 then 0
      else if 255 ≤ q then 255
      else
        let f : Nat := (Int.floor q).toNat
        if (f : ℚ) + 1 / 2 < q then f + 1
        else if q < (f : ℚ) + 1 / 2 then f
        else if f % 2 = 0 then f else f + 1

/-- The value of the local `gray` of `convertToImageData` for the sample `hu`. -/
def gray (hu : JSNum) : JSNum :=
  if hu.le (JSNum.fin (-1000)) then JSNum.fin 0
  else if hu.ge (JSNum.fin 1000) then JSNum.fin 255
  else ((hu.add (JSNum.fin 1000)).div (JSNum.fin 2000)).mul (JSNum.fin 255)

/-- The computation of `gray` on a finite sample with the rounding of the
arithmetic made explicit: `rnd` is applied to the result of each of the three
operations of the middle branch (the comparisons and the constants are exact). -/
def grayRounded (rnd : ℚ → ℚ) (hu : ℚ) : ℚ :=
  if hu ≤ -1000 then 0
  else if hu ≥ 1000 then 255
  else rnd (rnd (rnd (hu + 1000) / 2000) * 255)

/-- `convertToImageData(sliceData, width, height)`: the image is allocated from
`width` and `height`; the loop runs over the samples of `sliceData` and stores
`gray` in the three colour channels and 255 in the alpha channel of pixel `i`
(a store past the end of `imageData.data` is ignored). -/
def convertToImageData (sliceData : List JSNum) (width height : Nat) :
    Except JSError ImageData :=
  match newImageData width height with
  | Except.error e => Except.error e
  | Except.ok imageData =>
    let data := (List.range sliceData.length).foldl (fun data (i : Nat) =>
      let hu := sliceData.getD i JSNum.nan
      let gray := gray hu
      (((data.set (i * 4) (toUint8Clamp gray)).set (i * 4 + 1) (toUint8Clamp gray)).set
        (i * 4 + 2) (toUint8Clamp gray)).set (i * 4 + 3) 255) imageData.data
    Except.ok { imageData with data := data }

/-- The state of a `CBCTProcessor` that slice extraction reads: the voxel
buffer (`null` until a reconstruction exists) and the volume dimensions. -/
structure CBCTProcessor where
  reconstructionVolume : Option (List JSNum)
  volumeSize : VolumeSize

/-- `getSlice(orientation, sliceIndex)`: `null` without a volume, otherwise the
display image of the slice chosen by the `switch` on `orientation`, always
converted with the sizes `x` and `y`. The first line of the method is cut off
in the source, which resumes inside its guard `...onVolume) return null;`; the
guard is read as `if (!this.reconstructionVolume) return null;`, the form it
has in `calculateQualityMetrics`. -/
def getSlice (self : CBCTProcessor) (orientation : String) (sliceIndex : Int) :
    Except JSError (Option ImageData) :=
  match self.reconstructionVolume with
  | none => Except.ok none
  | some volume =>
    let x := self.volumeSize.x
    let y := self.volumeSize.y
    let slice :=
      if orientation = "axial" then extractAxialSlice self.volumeSize volume sliceIndex
      else if orientation = "coronal" then extractCoronalSlice self.volumeSize volume sliceIndex
      else if orientation = "sagittal" then extractSagittalSlice self.volumeSize volume sliceIndex
      else extractAxialSlice self.volumeSize volume sliceIndex
    match convertToImageData slice x y with
    | Except.error e => Except.error e
    | Except.ok imageData => Except.ok (some imageData)

/-! ## More JavaScript arithmetic -/

namespace JSNum

/-- JavaScript `a - b` (`Infinity - Infinity` is `NaN`). -/
def sub : JSNum → JSNum → JSNum
  | nan, _ => nan
  | _, nan => nan
  | posInf, posInf => nan
  | negInf, negInf => nan
  | posInf, _ => posInf
  | _, negInf => posInf
  | negInf, _ => negInf
  | _, posInf => negInf
  | fin a, fin b => fin (a - b)

/-- `Math.abs(a)`. -/
def abs : JSNum → JSNum
  | nan => nan
  | negInf => posInf
  | posInf => posInf
  | fin a => fin |a|

/-- `Math.min(a, b)`: `NaN` as soon as one argument is `NaN`. -/
def min : JSNum → JSNum → JSNum
  | nan, _ => nan
  | _, nan => nan
  | a, b => if le a b then a else b

/-- `Math.floor(a)`. -/
def floor : JSNum → JSNum
  | nan => nan
  | negInf => negInf
  | posInf => posInf
  | fin a => fin (Int.floor a)

end JSNum

/-! ## Region statistics and quality metrics -/

/-- The values the counter takes in `for (let c = lo; c < hi; c++)`. -/
def loopRange (lo hi : Int) : List Int :=
  (List.range (hi - lo).toNat).map (fun (t : Nat) => lo + (t : Int))

/-- `calculateROIMean(x, y, width, height)`: the local `sum` adds the voxel read
at `j * 256 + i` (a read outside the buffer yields `undefined`, and adding it
makes the sum `NaN`), `count` counts the samples, the result is `sum / count`. -/
def calculateROIMean (reconstructionVolume : List JSNum) (x y width height : Int) : JSNum :=
  let acc := (loopRange y (y + height)).foldl (fun (acc : JSNum × Nat) (j : Int) =>
    (loopRange x (x + width)).foldl (fun (acc : JSNum × Nat) (i : Int) =>
      let idx := j * 256 + i
      (acc.1.add (readVoxel reconstructionVolume idx), acc.2 + 1)) acc) (JSNum.fin 0, 0)
  acc.1.div (JSNum.fin (acc.2 : ℚ))

/-- A rectangle `{ x, y, width, height }`. -/
structure Region where
  x : Int
  y : Int
  width : Int
  height : Int
deriving DecidableEq

/-- `getBackgroundRegion()`. -/
def getBackgroundRegion : Region := { x := 10, y := 10, width := 50, height := 50 }

/-- `calculateBackgroundStd()`. `Math.sqrt` is a function of the platform, not
of the repository: it is the parameter `sqrt`. -/
def calculateBackgroundStd (sqrt : JSNum → JSNum) (reconstructionVolume : List JSNum) : JSNum :=
  let backgroundROI := getBackgroundRegion
  let mean := calculateROIMean reconstructionVolume backgroundROI.x backgroundROI.y
    backgroundROI.width backgroundROI.height
  let acc := (loopRange backgroundROI.y (backgroundROI.y + backgroundROI.height)).foldl
    (fun (acc : JSNum × Nat) (j : Int) =>
      (loopRange backgroundROI.x (backgroundROI.x + backgroundROI.width)).foldl
        (fun (acc : JSNum × Nat) (i : Int) =>
          let idx := j * 256 + i
          let diff := (readVoxel reconstructionVolume idx).sub mean
          (acc.1.add (diff.mul diff), acc.2 + 1)) acc) (JSNum.fin 0, 0)
  sqrt (acc.1.div (JSNum.fin (acc.2 : ℚ)))

/-- `calculateSNR()`. -/
def calculateSNR (sqrt : JSNum → JSNum) (reconstructionVolume : List JSNum) : JSNum :=
  let roiMean := calculateROIMean reconstructionVolume 100 100 50 50
  let backgroundStd := calculateBackgroundStd sqrt reconstructionVolume
  roiMean.div backgroundStd

/-- `calculateCNR()`. -/
def calculateCNR (sqrt : JSNum → JSNum) (reconstructionVolume : List JSNum) : JSNum :=
  let softTissueROI := calculateROIMean reconstructionVolume 120 120 30 30
  let backgroundROI := calculateROIMean reconstructionVolume 100 100 30 30
  let backgroundStd := calculateBackgroundStd sqrt reconstructionVolume
  (softTissueROI.sub backgroundROI).abs.div backgroundStd

/-- `calculateSpatialResolution()`. -/
def calculateSpatialResolution : JSNum := JSNum.fin 0.5

/-- `calculateContrastResolution()`. -/
def calculateContrastResolution : JSNum := JSNum.fin 10

/-- `detectStreakArtifacts()`. -/
def detectStreakArtifacts : JSNum := JSNum.fin 0.1

/-- `detectRingArtifacts()`. -/
def detectRingArtifacts : JSNum := JSNum.fin 0.05

/-- `detectMotionArtifacts()`. -/
def detectMotionArtifacts : JSNum := JSNum.fin 0.15

/-- The body of `calculateArtifactScore()`, as a function of the values the
three detector calls return. -/
def artifactScoreOf (streak ring motion : JSNum) : JSNum :=
  let score := JSNum.fin 0
  let score := score.add (streak.mul (JSNum.fin 0.3))
  let score := score.add (ring.mul (JSNum.fin 0.3))
  let score := score.add (motion.mul (JSNum.fin 0.4))
  JSNum.min score (JSNum.fin 1.0)

/-- `calculateArtifactScore()`, with the three detectors of the source. -/
def calculateArtifactScore : JSNum :=
  artifactScoreOf detectStreakArtifacts detectRingArtifacts detectMotionArtifacts

/-- The object `calculateQualityMetrics()` returns. -/
structure QualityMetrics where
  snr : JSNum
  cnr : JSNum
  spatialResolution : JSNum
  contrastResolution : JSNum
  artifactScore : JSNum
deriving DecidableEq

/-- `calculateQualityMetrics()`: `null` without a volume. -/
def calculateQualityMetrics (sqrt : JSNum → JSNum) (self : CBCTProcessor) :
    Option QualityMetrics :=
  match self.reconstructionVolume with
  | none => none
  | some volume =>
    some { snr := calculateSNR sqrt volume,
           cnr := calculateCNR sqrt volume,
           spatialResolution := calculateSpatialResolution,
           contrastResolution := calculateContrastResolution,
           artifactScore := calculateArtifactScore }

/-! ## The quality metrics with their voxel reads recorded -/

/-- `calculateROIMean(x, y, width, height)` with every read
`this.reconstructionVolume[idx]` recorded: `log` holds the indices read before
the call, the result holds those read up to its end, in the order of the
reads. -/
def calculateROIMeanLogged (reconstructionVolume : List JSNum) (x y width height : Int)
    (log : List Int) : JSNum × List Int :=
  let acc := (loopRange y (y + height)).foldl
    (fun (acc : (JSNum × Nat) × List Int) (j : Int) =>
      (loopRange x (x + width)).foldl (fun (acc : (JSNum × Nat) × List Int) (i : Int) =>
        let idx := j * 256 + i
        ((acc.1.1.add (readVoxel reconstructionVolume idx), acc.1.2 + 1), acc.2 ++ [idx])) acc)
    ((JSNum.fin 0, 0), log)
  (acc.1.1.div (JSNum.fin (acc.1.2 : ℚ)), acc.2)

/-- `calculateBackgroundStd()` with every voxel read recorded. -/
def calculateBackgroundStdLogged (sqrt : JSNum → JSNum) (reconstructionVolume : List JSNum)
    (log : List Int) : JSNum × List Int :=
  let backgroundROI := getBackgroundRegion
  let mean := calculateROIMeanLogged reconstructionVolume backgroundROI.x backgroundROI.y
    backgroundROI.width backgroundROI.height log
  let acc := (loopRange backgroundROI.y (backgroundROI.y + backgroundROI.height)).foldl
    (fun (acc : (JSNum × Nat) × List Int) (j : Int) =>
      (loopRange backgroundROI.x (backgroundROI.x + backgroundROI.width)).foldl
        (fun (acc : (JSNum × Nat) × List Int) (i : Int) =>
          let idx := j * 256 + i
          let diff := (readVoxel reconstructionVolume idx).sub mean.1
          ((acc.1.1.add (diff.mul diff), acc.1.2 + 1), acc.2 ++ [idx])) acc)
    ((JSNum.fin 0, 0), mean.2)
  (sqrt (acc.1.1.div (JSNum.fin (acc.1.2 : ℚ))), acc.2)

/-- `calculateSNR()` with every voxel read recorded. -/
def calculateSNRLogged (sqrt : JSNum → JSNum) (reconstructionVolume : List JSNum)
    (log : List Int) : JSNum × List Int :=
  let roiMean := calculateROIMeanLogged reconstructionVolume 100 100 50 50 log
  let backgroundStd := calculateBackgroundStdLogged sqrt reconstructionVolume roiMean.2
  (roiMean.1.div backgroundStd.1, backgroundStd.2)

/-- `calculateCNR()` with every voxel read recorded. -/
def calculateCNRLogged (sqrt : JSNum → JSNum) (reconstructionVolume : List JSNum)
    (log : List Int) : JSNum × List Int :=
  let softTissueROI := calculateROIMeanLogged reconstructionVolume 120 120 30 30 log
  let backgroundROI := calculateROIMeanLogged reconstructionVolume 100 100 30 30 softTissueROI.2
  let backgroundStd := calculateBackgroundStdLogged sqrt reconstructionVolume backgroundROI.2
  ((softTissueROI.1.sub backgroundROI.1).abs.div backgroundStd.1, backgroundStd.2)

/-- `calculateQualityMetrics()` with every voxel read recorded, starting from an
empty log: the properties of the object literal are evaluated in the order
written, `snr` first; the three other helpers read no voxel. -/
def calculateQualityMetricsLogged (sqrt : JSNum → JSNum) (self : CBCTProcessor) :
    Option QualityMetrics × List Int :=
  match self.reconstructionVolume with
  | none => (none, [])
  | some volume =>
    let snr := calculateSNRLogged sqrt volume []
    let cnr := calculateCNRLogged sqrt volume snr.2
    (some { snr := snr.1,
            cnr := cnr.1,
            spatialResolution := calculateSpatialResolution,
            contrastResolution := calculateContrastResolution,
            artifactScore := calculateArtifactScore }, cnr.2)

/-! ## Crosshair navigation -/

/-- A triple `{ x, y, z }`. -/
structure Position where
  x : JSNum
  y : JSNum
  z : JSNum
deriving DecidableEq

/-- The object `currentSlice`. -/
structure CurrentSlice where
  axial : JSNum
  coronal : JSNum
  sagittal : JSNum
deriving DecidableEq

/-- The fields of a `CBCTProcessor` that `updateCrosshairPosition` reads and
writes. -/
structure CrosshairState where
  crosshairPosition : Position
  sliceNavigationEnabled : Bool
  currentSlice : CurrentSlice
deriving DecidableEq

/-- `updateCrosshairPosition(x, y, z)`. The call `this.onSliceChanged()` only
passes the three indices to the event log of the page and changes no field. -/
def updateCrosshairPosition (self : CrosshairState) (x y z : JSNum) : CrosshairState :=
  let self := { self with crosshairPosition := { x := x, y := y, z := z } }
  if self.sliceNavigationEnabled then
    { self with currentSlice :=
        { axial := JSNum.floor z, coronal := JSNum.floor y, sagittal := JSNum.floor x } }
  else self

/-! ## Export -/

/-- The object an export function returns. A field that is `none` is a key the
object does not have; `parameters` is `this.reconstructionParameters`, of which
the class reads `volumeSize`; `volume` is the reference
`this.reconstructionVolume`, which may be `null`, as the value of
`qualityMetrics` may be. -/
structure ExportBundle where
  format : String
  slices : Option (List (List JSNum))
  volume : Option (Option (List JSNum))
  parameters : VolumeSize
  qualityMetrics : Option (Option QualityMetrics)

/-- `exportAsDICOM()`. Without a volume the first voxel read in
`extractAxialSlice` is a read of a property of `null` and throws a `TypeError`;
no voxel is read when one of the three dimensions is zero, and the slices are
then empty. -/
def exportAsDICOM (sqrt : JSNum → JSNum) (self : CBCTProcessor) : Except JSError ExportBundle :=
  match self.reconstructionVolume with
  | some volume =>
    let slices := (List.range self.volumeSize.z).foldl (fun (slices : List (List JSNum)) (k : Nat) =>
      let slice := extractAxialSlice self.volumeSize volume k
      slices ++ [slice]) []
    Except.ok { format := "dicom", slices := some slices, volume := none,
                parameters := self.volumeSize,
                qualityMetrics := some (calculateQualityMetrics sqrt self) }
  | none =>
    if self.volumeSize.x = 0 ∨ self.volumeSize.y = 0 ∨ self.volumeSize.z = 0 then
      Except.ok { format := "dicom", slices := some (List.replicate self.volumeSize.z []),
                  volume := none, parameters := self.volumeSize,
                  qualityMetrics := some (calculateQualityMetrics sqrt self) }
    else Except.error JSError.typeError

/-- `exportAsNIFTI()`. -/
def exportAsNIFTI (sqrt : JSNum → JSNum) (self : CBCTProcessor) : ExportBundle :=
  { format := "nifti", slices := none, volume := some self.reconstructionVolume,
    parameters := self.volumeSize,
    qualityMetrics := some (calculateQualityMetrics sqrt self) }

/-- `exportAsRaw()`. -/
def exportAsRaw (self : CBCTProcessor) : ExportBundle :=
  { format := "raw", slices := none, volume := some self.reconstructionVolume,
    parameters := self.volumeSize, qualityMetrics := none }

/-- `exportReconstruction(format = 'dicom')`; `none` is the omitted argument. -/
def exportReconstruction (sqrt : JSNum → JSNum) (self : CBCTProcessor)
    (format : Option String) : Except JSError ExportBundle :=
  let format := format.getD "dicom"
  if format = "dicom" then exportAsDICOM sqrt self
  else if format = "nifti" then Except.ok (exportAsNIFTI sqrt self)
  else if format = "raw" then Except.ok (exportAsRaw self)
  else exportAsDICOM sqrt self

/-- A model of `Math.sqrt` for concrete evaluation: `NaN` on `NaN` and on
negative arguments, exact on the squares of rationals (other finite arguments
are rounded, here downwards on numerator and denominator). -/
def sqrtModel : JSNum → JSNum
  | JSNum.nan => JSNum.nan
  | JSNum.negInf => JSNum.nan
  | JSNum.posInf => JSNum.posInf
  | JSNum.fin q => if q < 0 then JSNum.nan else JSNum.fin (Rat.sqrt q)

/-! ## Studies, dose tracking and the event log (class `AJRMedicalSystem`) -/

/-- A study record: its identifier and its accumulated dose; the other fields
of a study are copied unchanged by the spread in `updateStudy`. -/
structure Study where
  id : String
  dose : JSNum
deriving DecidableEq

/-- The object `updates` that `updateDose` passes to `updateStudy`: the keys it
may carry. -/
structure StudyUpdates where
  dose : Option JSNum

/-- The fields of an `AJRMedicalSystem` that `updateDose` reads and writes;
`doseWarnings` records the calls `showDoseWarning(studyId, currentDose)` in
order (the notification they display). -/
structure MedicalSystem where
  studies : List Study
  doseWarnings : List (String × JSNum)

/-- `getStudy(studyId)`: the first study with that identifier, or `undefined`. -/
def getStudy (self : MedicalSystem) (studyId : String) : Option Study :=
  self.studies.find? (fun s => decide (s.id = studyId))

/-- `updateStudy(studyId, updates)`: the slot of the first study with that
identifier receives a new object, the spread of the old study and of the
updates; the old object is not modified. The write to local storage is taken to
succeed. -/
def updateStudy (self : MedicalSystem) (studyId : String) (updates : StudyUpdates) :
    MedicalSystem × Option Study :=
  let studyIndex := self.studies.findIdx (fun s => decide (s.id = studyId))
  match self.studies[studyIndex]? with
  | some old =>
    let updated : Study := { old with dose := updates.dose.getD old.dose }
    ({ self with studies := self.studies.set studyIndex updated }, some updated)
  | none => (self, none)

/-- `showDoseWarning(studyId, currentDose)`. -/
def showDoseWarning (self : MedicalSystem) (studyId : String) (currentDose : JSNum) :
    MedicalSystem :=
  { self with doseWarnings := self.doseWarnings ++ [(studyId, currentDose)] }

/-- `updateDose(studyId, additionalDose)`. The local `study` is the object
found before the update; `updateStudy` replaces the slot by a new object, so
`study.dose` in the test is the dose before the addition. -/
def updateDose (self : MedicalSystem) (studyId : String) (additionalDose : JSNum) :
    MedicalSystem :=
  match getStudy self studyId with
  | some study =>
    let self := (updateStudy self studyId { dose := some (study.dose.add additionalDose) }).1
    if JSNum.lt (JSNum.fin 10) study.dose then showDoseWarning self studyId study.dose
    else self
  | none => self

/-- The value stored under the key 'ajr_logs': no value, the text of an array
of events, or a text that does not parse to an array. -/
inductive LogStorage (ε : Type) where
  | absent
  | array (logs : List ε)
  | other

/-- `logEvent(eventType, data)` as a function of the storage, `event` being the
stored form of the event object; `setItemOk` tells whether
`localStorage.setItem` succeeds. A failure of `JSON.parse`, of `logs.push` or of
`setItem` is caught and leaves the storage as it was. -/
def logEvent {ε : Type} (setItemOk : Bool) (storage : LogStorage ε) (event : ε) :
    LogStorage ε :=
  let parsed : Option (List ε) :=
    match storage with
    | LogStorage.absent => some []
    | LogStorage.array logs => some logs
    | LogStorage.other => none
  match parsed with
  | none => storage
  | some logs =>
    let logs := logs ++ [event]
    let logs := if logs.length > 1000 then logs.drop (logs.length - 1000) else logs
    if setItemOk then LogStorage.array logs else storage

/-! ## Typed arrays as objects -/

/-- A typed array object: the samples of a `Float32Array`, or the bytes of a
`Uint8ClampedArray`. -/
inductive Buffer where
  | float32 (samples : List JSNum)
  | uint8Clamped (bytes : List Nat)
deriving DecidableEq

/-- The typed arrays that exist at some moment. A reference to one of them is
its position; `new` adds an array at the end and no array is ever removed, so
that two references are the same object exactly when they are equal. -/
abbrev Heap := List Buffer

/-- The read `a[index]` of the `Float32Array` behind the reference `a`, as a
`Float32Array` stores it (`undefined` becomes `NaN`, see `readVoxel`). -/
def loadFloat (heap : Heap) (a : Nat) (index : Int) : JSNum :=
  match heap[a]? with
  | some (Buffer.float32 samples) => readVoxel samples index
  | _ => JSNum.nan

/-- The store `a[index] = value` into the `Float32Array` behind the reference
`a`: only that array changes, and a store past its end is ignored. -/
def storeFloat (heap : Heap) (a : Nat) (index : Nat) (value : JSNum) : Heap :=
  match heap[a]? with
  | some (Buffer.float32 samples) => heap.set a (Buffer.float32 (samples.set index value))
  | _ => heap

/-- The store `a[index] = byte` into the `Uint8ClampedArray` behind the
reference `a`, `byte` being the value already converted by `toUint8Clamp`. -/
def storeByte (heap : Heap) (a : Nat) (index : Nat) (byte : Nat) : Heap :=
  match heap[a]? with
  | some (Buffer.uint8Clamped bytes) => heap.set a (Buffer.uint8Clamped (bytes.set index byte))
  | _ => heap

/-- The property `a.length` of the typed array behind the reference `a`. -/
def bufferLength (heap : Heap) (a : Nat) : Nat :=
  match heap[a]? with
  | some (Buffer.float32 samples) => samples.length
  | some (Buffer.uint8Clamped bytes) => bytes.length
  | none => 0

/-- A `CBCTProcessor` with a reconstruction, together with the typed arrays
that exist: `reconstructionVolume` is the reference held by the field of that
name, `volumeSize` the field `reconstructionParameters.volumeSize`. -/
structure ProcessorOnHeap where
  heap : Heap
  reconstructionVolume : Nat
  volumeSize : VolumeSize
deriving DecidableEq

/-- An `ImageData` object whose `data` is a reference to its
`Uint8ClampedArray`. -/
structure ImageDataRef where
  width : Nat
  height : Nat
  data : Nat
deriving DecidableEq

/-- `extractAxialSlice(sliceIndex)` with its effects: the state after the call
and the reference it returns. -/
def ProcessorOnHeap.extractAxialSlice (self : ProcessorOnHeap) (sliceIndex : Int) :
    ProcessorOnHeap × Nat :=
  let x := self.volumeSize.x
  let y := self.volumeSize.y
  let slice := self.heap.length
  let heap := self.heap ++ [Buffer.float32 (newFloat32Array (x * y))]
  let heap := (List.range y).foldl (fun heap (j : Nat) =>
    (List.range x).foldl (fun heap (i : Nat) =>
      let volumeIndex : Int := sliceIndex * x * y + j * x + i
      storeFloat heap slice (j * x + i)
        (loadFloat heap self.reconstructionVolume volumeIndex)) heap) heap
  ({ self with heap := heap }, slice)

/-- `extractCoronalSlice(sliceIndex)` with its effects. -/
def ProcessorOnHeap.extractCoronalSlice (self : ProcessorOnHeap) (sliceIndex : Int) :
    ProcessorOnHeap × Nat :=
  let x := self.volumeSize.x
  let y := self.volumeSize.y
  let z := self.volumeSize.z
  let slice := self.heap.length
  let heap := self.heap ++ [Buffer.float32 (newFloat32Array (x * z))]
  let heap := (List.range z).foldl (fun heap (k : Nat) =>
    (List.range x).foldl (fun heap (i : Nat) =>
      let volumeIndex : Int := k * x * y + sliceIndex * x + i
      storeFloat heap slice (k * x + i)
        (loadFloat heap self.reconstructionVolume volumeIndex)) heap) heap
  ({ self with heap := heap }, slice)

/-- `extractSagittalSlice(sliceIndex)` with its effects. -/
def ProcessorOnHeap.extractSagittalSlice (self : ProcessorOnHeap) (sliceIndex : Int) :
    ProcessorOnHeap × Nat :=
  let x := self.volumeSize.x
  let y := self.volumeSize.y
  let z := self.volumeSize.z
  let slice := self.heap.length
  let heap := self.heap ++ [Buffer.float32 (newFloat32Array (y * z))]
  let heap := (List.range z).foldl (fun heap (k : Nat) =>
    (List.range y).foldl (fun heap (j : Nat) =>
      let volumeIndex : Int := k * x * y + j * x + sliceIndex
      storeFloat heap slice (k * y + j)
        (loadFloat heap self.reconstructionVolume volumeIndex)) heap) heap
  ({ self with heap := heap }, slice)

/-- `convertToImageData(sliceData, width, height)` with its effects, `sliceData`
being a reference to a `Float32Array`; when `new ImageData` throws nothing has
been allocated or stored. -/
def ProcessorOnHeap.convertToImageData (self : ProcessorOnHeap) (sliceData : Nat)
    (width height : Nat) : Except JSError (ProcessorOnHeap × ImageDataRef) :=
  if width = 0 ∨ height = 0 then Except.error JSError.indexSizeError
  else
    let data := self.heap.length
    let heap := self.heap ++ [Buffer.uint8Clamped (List.replicate (width * height * 4) 0)]
    let heap := (List.range (bufferLength heap sliceData)).foldl (fun heap (i : Nat) =>
      let hu := loadFloat heap sliceData i
      let gray := gray hu
      storeByte (storeByte (storeByte (storeByte heap data (i * 4) (toUint8Clamp gray))
        data (i * 4 + 1) (toUint8Clamp gray)) data (i * 4 + 2) (toUint8Clamp gray))
        data (i * 4 + 3) 255) heap
    Except.ok ({ self with heap := heap }, { width := width, height := height, data := data })

/-- `calculateQualityMetrics()` with its effects. Neither it nor one of its
helpers (`calculateSNR`, `calculateCNR`, `calculateROIMean`,
`calculateBackgroundStd`, `getBackgroundRegion` and the constant ones) has a
statement that stores into an array, assigns a field or creates a typed array:
their sums and counters are local variables. The state is therefore handed back
as it came, and the value is that of the function on the samples read. -/
def ProcessorOnHeap.calculateQualityMetrics (sqrt : JSNum → JSNum) (self : ProcessorOnHeap) :
    ProcessorOnHeap × Option QualityMetrics :=
  match self.heap[self.reconstructionVolume]? with
  | some (Buffer.float32 volume) =>
    (self, CBCT.calculateQualityMetrics sqrt
      { reconstructionVolume := some volume, volumeSize := self.volumeSize })
  | _ => (self, none)

/-! ## Example volumes -/

/-- The 4x4x4 volume whose voxel `(i, j, k)` is `i + j + k`. -/
def volume444 : List JSNum :=
  (List.range 64).map (fun n => JSNum.fin ((n % 4 + n / 4 % 4 + n / 16 : Nat) : ℚ))

/-- A 2x2x3 volume whose voxel at linear index `n` is `n`. -/
def volume223 : List JSNum :=
  [JSNum.fin 0, JSNum.fin 1, JSNum.fin 2, JSNum.fin 3, JSNum.fin 4, JSNum.fin 5,
   JSNum.fin 6, JSNum.fin 7, JSNum.fin 8, JSNum.fin 9, JSNum.fin 10, JSNum.fin 11]

/-- The value of the voxels of row `j` of `rowVolume`. -/
def rowValue (j : Nat) : ℚ :=
  if j < 35 then 0 else if j < 100 then 2 else if j < 120 then 5 else 10

/-- A 256x256x1 volume whose voxels depend on the row only: 0 in rows 0..34, 2 in
rows 35..99, 5 in rows 100..119 and 10 in rows 120..255. -/
def rowVolume : List JSNum :=
  (List.range 65536).map (fun n => JSNum.fin (rowValue (n / 256)))

/-- A 256x256x1 volume all of whose voxels are `+Infinity`. -/
def infVolume : List JSNum := List.replicate 65536 JSNum.posInf

/-- The value of the voxels of row `j` of `phantomVolume`. -/
def phantomValue (j : Nat) : ℚ := if j < 100 then 100 else 200

/-- A 256x256x1 volume that is 100 in rows 0..99 and 200 in rows 100..255: its
background region (10, 10, 50, 50) is the constant 100 and its signal region
(100, 100, 50, 50) the constant 200. -/
def phantomVolume : List JSNum :=
  (List.range 65536).map (fun n => JSNum.fin (phantomValue (n / 256)))

/-- The 8x8x8 volume of the end-to-end scenario: every voxel is -1000, except
the voxels (i, j, k) with i, j, k in {4, 5}, which are 1000. -/
def volume888 : List JSNum :=
  (List.range 512).map (fun n =>
    if (n % 8 = 4 ∨ n % 8 = 5) ∧ (n / 8 % 8 = 4 ∨ n / 8 % 8 = 5) ∧ (n / 64 = 4 ∨ n / 64 = 5)
    then JSNum.fin 1000 else JSNum.fin (-1000))

/-- A 16x16x2 volume whose voxel at linear index `n` is `n`. -/
def rampVolume : List JSNum := (List.range 512).map (fun (n : Nat) => JSNum.fin (n : ℚ))

/-- A processor whose voxel buffer, the only typed array that exists, is
`volume223`. -/
def processor223 : ProcessorOnHeap :=
  { heap := [Buffer.float32 volume223], reconstructionVolume := 0,
    volumeSize := { x := 2, y := 2, z := 3 } }

/-! ## Loops, as used by the proofs -/

/-- The pixel loop of `convertToImageData`, run for the first `n` samples. -/
def pixelLoop (sliceData : List JSNum) (n : Nat) (data : List Nat) : List Nat :=
  (List.range n).foldl (fun data (i : Nat) =>
    let hu := sliceData.getD i JSNum.nan
    let gray := gray hu
    (((data.set (i * 4) (toUint8Clamp gray)).set (i * 4 + 1) (toUint8Clamp gray)).set
      (i * 4 + 2) (toUint8Clamp gray)).set (i * 4 + 3) 255) data

/-- The sum `0 + s0 + s1 + ...` of a list of samples, with the `+` of JavaScript. -/
def jsSum (l : List JSNum) : JSNum := l.foldl JSNum.add (JSNum.fin 0)

/-- The voxel reads of the two nested loops over a region, row after row. -/
def regionSamples (reconstructionVolume : List JSNum) (x y width height : Int) : List JSNum :=
  (loopRange y (y + height)).flatMap (fun j =>
    (loopRange x (x + width)).map (fun i => readVoxel reconstructionVolume (j * 256 + i)))

/-- The values `f r c` for `r < h` and `c < w`, row after row. -/
def gridList (h w : Nat) (f : Nat → Nat → ℚ) : List ℚ :=
  (List.range h).flatMap (fun r => (List.range w).map (fun c => f r c))

/-- The accesses of `extractAxialSlice` in the order of its loops: the slice
position written and the voxel index read. -/
def axialAccesses (volumeSize : VolumeSize) (sliceIndex : Int) : List (Nat × Int) :=
  (List.range volumeSize.y).flatMap (fun (j : Nat) =>
    (List.range volumeSize.x).map (fun (i : Nat) =>
      (j * volumeSize.x + i,
        sliceIndex * volumeSize.x * volumeSize.y + j * volumeSize.x + i)))

/-- The accesses of `extractCoronalSlice` in the order of its loops. -/
def coronalAccesses (volumeSize : VolumeSize) (sliceIndex : Int) : List (Nat × Int) :=
  (List.range volumeSize.z).flatMap (fun (k : Nat) =>
    (List.range volumeSize.x).map (fun (i : Nat) =>
      (k * volumeSize.x + i,
        k * volumeSize.x * volumeSize.y + sliceIndex * volumeSize.x + i)))

/-- The accesses of `extractSagittalSlice` in the order of its loops. -/
def sagittalAccesses (volumeSize : VolumeSize) (sliceIndex : Int) : List (Nat × Int) :=
  (List.range volumeSize.z).flatMap (fun (k : Nat) =>
    (List.range volumeSize.y).map (fun (j : Nat) =>
      (k * volumeSize.y + j,
        k * volumeSize.x * volumeSize.y + j * volumeSize.x + sliceIndex)))

/-- Running a list of accesses: each one stores the voxel read in the slice. -/
def runAccesses (reconstructionVolume : List JSNum) (accesses : List (Nat × Int))
    (slice : List JSNum) : List JSNum :=
  accesses.foldl (fun slice a => slice.set a.1 (readVoxel reconstructionVolume a.2)) slice

/-- Following the words of the spec (`mean = sum(samples)/count` over a
rectangle of a plane): the mean of the samples of `slice`, a plane of width
`sliceWidth`, at the positions `j * sliceWidth + i` for y <= j < y + height and
x <= i < x + width. -/
def sliceRegionMean (slice : List JSNum) (sliceWidth x y width height : Nat) : JSNum :=
  (jsSum ((List.range height).flatMap (fun r =>
    (List.range width).map (fun c =>
      slice.getD ((y + r) * sliceWidth + (x + c)) JSNum.nan)))).div
    (JSNum.fin ((width * height : Nat) : ℚ))

/-- The voxel indices the two nested loops over a region read, row after row. -/
def regionIndices (x y width height : Int) : List Int :=
  (loopRange y (y + height)).flatMap (fun j =>
    (loopRange x (x + width)).map (fun i => j * 256 + i))

/-- The voxel indices `calculateBackgroundStd` reads: the region of
`getBackgroundRegion` once for the mean and once for the squared differences. -/
def backgroundStdReads : List Int :=
  regionIndices getBackgroundRegion.x getBackgroundRegion.y getBackgroundRegion.width
      getBackgroundRegion.height
    ++ regionIndices getBackgroundRegion.x getBackgroundRegion.y getBackgroundRegion.width
      getBackgroundRegion.height

/-- The voxel indices `calculateSNR` reads. -/
def snrReads : List Int := regionIndices 100 100 50 50 ++ backgroundStdReads

/-- The voxel indices `calculateCNR` reads. -/
def cnrReads : List Int :=
  regionIndices 120 120 30 30 ++ regionIndices 100 100 30 30 ++ backgroundStdReads

/-- The voxel indices `calculateQualityMetrics` reads on a loaded volume. -/
def qualityMetricsReads : List Int := snrReads ++ cnrReads

/-- The inner loop of a row-major fill: one row of `w` writes at `r * w + c`. -/
def fillRow (w : Nat) (v : Nat → Nat → JSNum) (r : Nat) (n : Nat) (a : List JSNum) :
    List JSNum :=
  (List.range n).foldl (fun a c => a.set (r * w + c) (v r c)) a

/-- The two nested loops of a row-major fill of `h` rows of `w` samples. -/
def fillGrid (w : Nat) (v : Nat → Nat → JSNum) (h : Nat) (a : List JSNum) : List JSNum :=
  (List.range h).foldl (fun a r => fillRow w v r w a) a

theorem fillRow_length (w : Nat) (v : Nat → Nat → JSNum) (r n : Nat) (a : List JSNum) :
    (fillRow w v r n a).length = a.length := by
  induction n with
  | zero => simp [fillRow]
  | succ n ih =>
    simp only [fillRow, List.range_succ, List.foldl_append, List.foldl_cons, List.foldl_nil,
      List.length_set] at ih ⊢
    exact ih

theorem fillRow_getElem? (w : Nat) (v : Nat → Nat → JSNum) (r n : Nat) (a : List JSNum)
    (p : Nat) :
    (fillRow w v r n a)[p]? =
      if r * w ≤ p ∧ p < r * w + n ∧ p < a.length then some (v r (p - r * w)) else a[p]? := by
  induction n with
  | zero =>
    simp only [fillRow, List.range_zero, List.foldl_nil]
    rw [if_neg]; omega
  | succ n ih =>
    have hlen := fillRow_length w v r n a
    simp only [fillRow, List.range_succ, List.foldl_append, List.foldl_cons, List.foldl_nil]
      at ih hlen ⊢
    rw [List.getElem?_set]
    by_cases hp : r * w + n = p
    · subst hp
      simp only [if_true, hlen]
      by_cases hl : r * w + n < a.length
      · simp [hl]
      · have hnone : a[r * w + n]? = none := List.getElem?_eq_none (by omega)
        simp [hl, hnone]
    · rw [if_neg hp, ih]
      by_cases h1 : r * w ≤ p ∧ p < r * w + n ∧ p < a.length
      · rw [if_pos h1, if_pos ⟨h1.1, by omega, h1.2.2⟩]
      · rw [if_neg h1, if_neg]; omega

theorem fillGrid_length (w : Nat) (v : Nat → Nat → JSNum) (h : Nat) (a : List JSNum) :
    (fillGrid w v h a).length = a.length := by
  induction h with
  | zero => simp [fillGrid]
  | succ h ih =>
    simp only [fillGrid, List.range_succ, List.foldl_append, List.foldl_cons, List.foldl_nil]
      at ih ⊢
    rw [fillRow_length]
    exact ih

theorem fillGrid_getElem? (w : Nat) (v : Nat → Nat → JSNum) (h : Nat) (a : List JSNum)
    (r c : Nat) (hr : r < h) (hc : c < w) (hlen : r * w + c < a.length) :
    (fillGrid w v h a)[r * w + c]? = some (v r c) := by
  induction h with
  | zero => omega
  | succ h ih =>
    have hl := fillGrid_length w v h a
    simp only [fillGrid, List.range_succ, List.foldl_append, List.foldl_cons, List.foldl_nil]
      at ih hl ⊢
    rw [fillRow_getElem?, hl]
    by_cases hrh : r = h
    · subst hrh
      rw [if_pos ⟨by omega, by omega, hlen⟩]
      congr 2
      omega
    · have h1 : (r + 1) * w ≤ h * w := Nat.mul_le_mul_right w (by omega)
      have h2 : (r + 1) * w = r * w + w := by ring
      rw [if_neg (by omega)]
      exact ih (by omega)

/-- A row-major index of an in-range cell lies inside the grid. -/
theorem gridIndex_lt (w h r c : Nat) (hr : r < h) (hc : c < w) : r * w + c < w * h := by
  have h1 : (r + 1) * w ≤ h * w := Nat.mul_le_mul_right w (by omega)
  have h2 : (r + 1) * w = r * w + w := by ring
  have h3 : w * h = h * w := Nat.mul_comm w h
  omega

/-- The linear index of an in-bounds voxel lies inside the voxel buffer. -/
theorem linearIndex_lt (x y z i j k : Nat) (hi : i < x) (hj : j < y) (hk : k < z) :
    k * x * y + j * x + i < x * y * z := by
  have h1 : j * x + i < x * y := gridIndex_lt x y j i hj hi
  have h2 : (k + 1) * (x * y) ≤ z * (x * y) := Nat.mul_le_mul_right (x * y) (by omega)
  have h3 : (k + 1) * (x * y) = k * x * y + x * y := by ring
  have h4 : x * y * z = z * (x * y) := by ring
  omega

theorem readVoxel_natCast (vol : List JSNum) (n : Nat) :
    readVoxel vol (n : Int) = vol.getD n JSNum.nan := by
  unfold readVoxel
  rw [if_neg (by omega), Int.toNat_ofNat]

theorem extractAxialSlice_eq_fillGrid (size : VolumeSize) (vol : List JSNum) (index : Int) :
    extractAxialSlice size vol index =
      fillGrid size.x
        (fun j i => readVoxel vol (index * size.x * size.y + j * size.x + i))
        size.y (newFloat32Array (size.x * size.y)) := rfl

theorem extractCoronalSlice_eq_fillGrid (size : VolumeSize) (vol : List JSNum) (index : Int) :
    extractCoronalSlice size vol index =
      fillGrid size.x
        (fun k i => readVoxel vol (k * size.x * size.y + index * size.x + i))
        size.z (newFloat32Array (size.x * size.z)) := rfl

theorem extractSagittalSlice_eq_fillGrid (size : VolumeSize) (vol : List JSNum) (index : Int) :
    extractSagittalSlice size vol index =
      fillGrid size.y
        (fun k j => readVoxel vol (k * size.x * size.y + j * size.x + index))
        size.z (newFloat32Array (size.y * size.z)) := rfl

theorem extractAxialSlice_length (size : VolumeSize) (vol : List JSNum) (index : Int) :
    (extractAxialSlice size vol index).length = size.x * size.y := by
  rw [extractAxialSlice_eq_fillGrid, fillGrid_length]
  simp [newFloat32Array]

theorem extractCoronalSlice_length (size : VolumeSize) (vol : List JSNum) (index : Int) :
    (extractCoronalSlice size vol index).length = size.x * size.z := by
  rw [extractCoronalSlice_eq_fillGrid, fillGrid_length]
  simp [newFloat32Array]

theorem extractSagittalSlice_length (size : VolumeSize) (vol : List JSNum) (index : Int) :
    (extractSagittalSlice size vol index).length = size.y * size.z := by
  rw [extractSagittalSlice_eq_fillGrid, fillGrid_length]
  simp [newFloat32Array]

theorem extractAxialSlice_sample (size : VolumeSize) (vol : List JSNum) (index : Int)
    (i j : Nat) (hi : i < size.x) (hj : j < size.y) :
    (extractAxialSlice size vol index)[j * size.x + i]? =
      some (readVoxel vol (index * size.x * size.y + j * size.x + i)) := by
  rw [extractAxialSlice_eq_fillGrid]
  exact fillGrid_getElem? _ _ _ _ j i hj hi
    (by simpa [newFloat32Array] using gridIndex_lt size.x size.y j i hj hi)

theorem extractCoronalSlice_sample (size : VolumeSize) (vol : List JSNum) (index : Int)
    (i k : Nat) (hi : i < size.x) (hk : k < size.z) :
    (extractCoronalSlice size vol index)[k * size.x + i]? =
      some (readVoxel vol (k * size.x * size.y + index * size.x + i)) := by
  rw [extractCoronalSlice_eq_fillGrid]
  exact fillGrid_getElem? _ _ _ _ k i hk hi
    (by simpa [newFloat32Array] using gridIndex_lt size.x size.z k i hk hi)

theorem extractSagittalSlice_sample (size : VolumeSize) (vol : List JSNum) (index : Int)
    (j k : Nat) (hj : j < size.y) (hk : k < size.z) :
    (extractSagittalSlice size vol index)[k * size.y + j]? =
      some (readVoxel vol (k * size.x * size.y + j * size.x + index)) := by
  rw [extractSagittalSlice_eq_fillGrid]
  exact fillGrid_getElem? _ _ _ _ k j hk hj
    (by simpa [newFloat32Array] using gridIndex_lt size.y size.z k j hk hj)


theorem readVoxel_inBounds (vol : List JSNum) (n : Nat) (h : n < vol.length) :
    ∃ v, vol[n]? = some v ∧ readVoxel vol (n : Int) = v := by
  refine ⟨vol[n], List.getElem?_eq_getElem h, ?_⟩
  rw [readVoxel_natCast, List.getD_eq_getElem?_getD, List.getElem?_eq_getElem h]
  rfl

theorem volume444_voxel (i j k : Nat) (hi : i < 4) (hj : j < 4) (hk : k < 4) :
    volume444[k * 16 + j * 4 + i]? = some (JSNum.fin ((i + j + k : Nat) : ℚ)) := by
  have h1 : (k * 16 + j * 4 + i) % 4 = i := by omega
  have h2 : (k * 16 + j * 4 + i) / 4 % 4 = j := by omega
  have h3 : (k * 16 + j * 4 + i) / 16 = k := by omega
  have h4 : k * 16 + j * 4 + i < 64 := by omega
  simp only [volume444, List.getElem?_map, List.getElem?_range h4, Option.map_some', h1, h2, h3]

/-! ## Slice extraction: the three orientations -/

/-- C1: for a volume of dimensions (x, y, z) with x*y*z voxels and a slice index
below z, `extractAxialSlice` returns exactly x*y samples, and the sample at
`j*x + i` is the voxel at linear index `index*x*y + j*x + i`, for all i < x and
j < y; on the 4x4x4 volume with voxel (i, j, k) = i + j + k and index 2 the
sample at `j*4 + i` is `i + j + 2`. -/
theorem extractAxialSlice_spec (size : VolumeSize) (vol : List JSNum) (index : Nat)
    (hvol : vol.length = size.x * size.y * size.z) (hindex : index < size.z) :
    (extractAxialSlice size vol index).length = size.x * size.y ∧
    (∀ i j, i < size.x → j < size.y →
      ∃ v, vol[index * size.x * size.y + j * size.x + i]? = some v ∧
        (extractAxialSlice size vol index)[j * size.x + i]? = some v) ∧
    (∀ i j k, i < 4 → j < 4 → k < 4 →
      volume444[k * 16 + j * 4 + i]? = some (JSNum.fin ((i + j + k : Nat) : ℚ))) ∧
    (extractAxialSlice ⟨4, 4, 4⟩ volume444 2).length = 4 * 4 ∧
    (∀ i j, i < 4 → j < 4 →
      (extractAxialSlice ⟨4, 4, 4⟩ volume444 2)[j * 4 + i]? =
        some (JSNum.fin ((i + j + 2 : Nat) : ℚ))) := by
  refine ⟨extractAxialSlice_length size vol index, ?_, ?_, ?_, ?_⟩
  · intro i j hi hj
    have hlt : index * size.x * size.y + j * size.x + i < vol.length := by
      rw [hvol]; exact linearIndex_lt _ _ _ i j index hi hj hindex
    obtain ⟨v, hv, hr⟩ := readVoxel_inBounds vol _ hlt
    refine ⟨v, hv, ?_⟩
    rw [extractAxialSlice_sample size vol index i j hi hj, ← hr]
    push_cast
    rfl
  · intro i j k hi hj hk
    exact volume444_voxel i j k hi hj hk
  · exact extractAxialSlice_length _ _ _
  · intro i j hi hj
    rw [extractAxialSlice_sample ⟨4, 4, 4⟩ volume444 2 i j hi hj]
    have hcast : ((2 : Int) * ((4 : Nat) : Int) * ((4 : Nat) : Int) + (j : Int) * ((4 : Nat) : Int)
        + (i : Int)) = ((2 * 16 + j * 4 + i : Nat) : Int) := by push_cast; ring
    show some (readVoxel volume444 ((2 : Int) * ((4 : Nat) : Int) * ((4 : Nat) : Int)
        + (j : Int) * ((4 : Nat) : Int) + (i : Int))) = _
    rw [hcast]
    obtain ⟨v, hv, hr⟩ := readVoxel_inBounds volume444 (2 * 16 + j * 4 + i)
      (by simp [volume444]; omega)
    rw [hr, ← hv]
    exact volume444_voxel i j 2 hi hj (by omega)

/-- Witness of C1 on the 4x4x4 example volume at index 2. -/
theorem extractAxialSlice_spec_witness :
    volume444.length = 4 * 4 * 4 ∧ 2 < 4 ∧
    (extractAxialSlice ⟨4, 4, 4⟩ volume444 ((2 : Nat) : Int)).length = 4 * 4 :=
  ⟨by simp [volume444], by decide,
    (extractAxialSlice_spec ⟨4, 4, 4⟩ volume444 2 (by simp [volume444]) (by decide)).1⟩

/-- C2: for a volume of dimensions (x, y, z) with x*y*z voxels and a slice index
below y, `extractCoronalSlice` returns exactly x*z samples, and the sample at
`k*x + i` is the voxel at linear index `k*x*y + index*x + i`, for all i < x and
k < z. -/
theorem extractCoronalSlice_spec (size : VolumeSize) (vol : List JSNum) (index : Nat)
    (hvol : vol.length = size.x * size.y * size.z) (hindex : index < size.y) :
    (extractCoronalSlice size vol index).length = size.x * size.z ∧
    (∀ i k, i < size.x → k < size.z →
      ∃ v, vol[k * size.x * size.y + index * size.x + i]? = some v ∧
        (extractCoronalSlice size vol index)[k * size.x + i]? = some v) := by
  refine ⟨extractCoronalSlice_length size vol index, ?_⟩
  intro i k hi hk
  have hlt : k * size.x * size.y + index * size.x + i < vol.length := by
    rw [hvol]; exact linearIndex_lt _ _ _ i index k hi hindex hk
  obtain ⟨v, hv, hr⟩ := readVoxel_inBounds vol _ hlt
  refine ⟨v, hv, ?_⟩
  rw [extractCoronalSlice_sample size vol index i k hi hk, ← hr]
  push_cast
  rfl

/-- C3: for a volume of dimensions (x, y, z) with x*y*z voxels and a slice index
below x, `extractSagittalSlice` returns exactly y*z samples, and the sample at
`k*y + j` is the voxel at linear index `k*x*y + j*x + index`, for all j < y and
k < z. -/
theorem extractSagittalSlice_spec (size : VolumeSize) (vol : List JSNum) (index : Nat)
    (hvol : vol.length = size.x * size.y * size.z) (hindex : index < size.x) :
    (extractSagittalSlice size vol index).length = size.y * size.z ∧
    (∀ j k, j < size.y → k < size.z →
      ∃ v, vol[k * size.x * size.y + j * size.x + index]? = some v ∧
        (extractSagittalSlice size vol index)[k * size.y + j]? = some v) := by
  refine ⟨extractSagittalSlice_length size vol index, ?_⟩
  intro j k hj hk
  have hlt : k * size.x * size.y + j * size.x + index < vol.length := by
    rw [hvol]; exact linearIndex_lt _ _ _ index j k hindex hj hk
  obtain ⟨v, hv, hr⟩ := readVoxel_inBounds vol _ hlt
  refine ⟨v, hv, ?_⟩
  rw [extractSagittalSlice_sample size vol index j k hj hk, ← hr]
  push_cast
  rfl

/-- Witness of C2 on the 4x4x4 example volume at index 1. -/
theorem extractCoronalSlice_spec_witness :
    volume444.length = 4 * 4 * 4 ∧ 1 < 4 ∧
    (extractCoronalSlice ⟨4, 4, 4⟩ volume444 ((1 : Nat) : Int)).length = 4 * 4 :=
  ⟨by simp [volume444], by decide,
    (extractCoronalSlice_spec ⟨4, 4, 4⟩ volume444 1 (by simp [volume444]) (by decide)).1⟩

/-- Witness of C3 on the 4x4x4 example volume at index 3. -/
theorem extractSagittalSlice_spec_witness :
    volume444.length = 4 * 4 * 4 ∧ 3 < 4 ∧
    (extractSagittalSlice ⟨4, 4, 4⟩ volume444 ((3 : Nat) : Int)).length = 4 * 4 :=
  ⟨by simp [volume444], by decide,
    (extractSagittalSlice_spec ⟨4, 4, 4⟩ volume444 3 (by simp [volume444]) (by decide)).1⟩

/-! ## The pixel loop -/

theorem pixelLoop_length (s : List JSNum) (n : Nat) (data : List Nat) :
    (pixelLoop s n data).length = data.length := by
  induction n with
  | zero => simp [pixelLoop]
  | succ n ih =>
    simp only [pixelLoop, List.range_succ, List.foldl_append, List.foldl_cons, List.foldl_nil,
      List.length_set] at ih ⊢
    exact ih

theorem pixelLoop_getElem? (s : List JSNum) (n : Nat) (data : List Nat) (i c : Nat)
    (hi : i < n) (hc : c < 4) (hlen : i * 4 + c < data.length) :
    (pixelLoop s n data)[i * 4 + c]? =
      some (if c = 3 then 255 else toUint8Clamp (gray (s.getD i JSNum.nan))) := by
  induction n with
  | zero => omega
  | succ n ih =>
    have hl := pixelLoop_length s n data
    simp only [pixelLoop, List.range_succ, List.foldl_append, List.foldl_cons, List.foldl_nil]
      at ih hl ⊢
    simp only [List.getElem?_set, List.length_set, hl]
    by_cases hin : i = n
    · subst hin
      have hc4 : c = 0 ∨ c = 1 ∨ c = 2 ∨ c = 3 := by omega
      rcases hc4 with rfl | rfl | rfl | rfl
      · rw [if_neg (by omega), if_neg (by omega), if_neg (by omega), if_pos (by omega),
          if_pos (by omega)]
        simp
      · rw [if_neg (by omega), if_neg (by omega), if_pos (by omega), if_pos (by omega)]
        simp
      · rw [if_neg (by omega), if_pos (by omega), if_pos (by omega)]
        simp
      · rw [if_pos (by omega), if_pos (by omega)]
        simp
    · rw [if_neg (by omega), if_neg (by omega), if_neg (by omega), if_neg (by omega)]
      exact ih (by omega)

theorem convertToImageData_ok (s : List JSNum) (width height : Nat)
    (hw : width ≠ 0) (hh : height ≠ 0) :
    convertToImageData s width height =
      Except.ok { width := width, height := height,
                  data := pixelLoop s s.length (List.replicate (width * height * 4) 0) } := by
  simp [convertToImageData, newImageData, hw, hh, pixelLoop]

theorem convertToImageData_error (s : List JSNum) (width height : Nat)
    (h : width = 0 ∨ height = 0) :
    convertToImageData s width height = Except.error JSError.indexSizeError := by
  simp [convertToImageData, newImageData, h]

/-! ## The grayscale mapping: helper lemmas -/

theorem gray_fin (q : ℚ) :
    gray (JSNum.fin q) =
      if q ≤ -1000 then JSNum.fin 0
      else if 1000 ≤ q then JSNum.fin 255
      else JSNum.fin ((q + 1000) / 2000 * 255) := by
  simp only [gray, JSNum.le, JSNum.ge, JSNum.add, JSNum.div, JSNum.mul, decide_eq_true_eq]
  split_ifs <;> first | rfl | (exfalso; norm_num at *)

theorem gray_ofNaN : gray JSNum.nan = JSNum.nan := by
  simp [gray, JSNum.le, JSNum.ge, JSNum.add, JSNum.div, JSNum.mul]

theorem gray_negInf : gray JSNum.negInf = JSNum.fin 0 := by
  simp [gray, JSNum.le]

theorem gray_posInf : gray JSNum.posInf = JSNum.fin 255 := by
  simp [gray, JSNum.le, JSNum.ge]

theorem gray_fin_neg1000 : gray (JSNum.fin (-1000)) = JSNum.fin 0 := by
  rw [gray_fin]; norm_num

theorem gray_fin_1000 : gray (JSNum.fin 1000) = JSNum.fin 255 := by
  rw [gray_fin]; norm_num

theorem toUint8Clamp_fin_zero : toUint8Clamp (JSNum.fin 0) = 0 := by
  norm_num [toUint8Clamp]

theorem toUint8Clamp_fin_255 : toUint8Clamp (JSNum.fin 255) = 255 := by
  norm_num [toUint8Clamp]

theorem getSlice_some (vol : List JSNum) (size : VolumeSize) (orientation : String)
    (index : Int) (hx : size.x ≠ 0) (hy : size.y ≠ 0) :
    ∃ slice, getSlice ⟨some vol, size⟩ orientation index =
      Except.ok (some { width := size.x, height := size.y,
                        data := pixelLoop slice slice.length
                          (List.replicate (size.x * size.y * 4) 0) }) ∧
      slice = (if orientation = "axial" then extractAxialSlice size vol index
        else if orientation = "coronal" then extractCoronalSlice size vol index
        else if orientation = "sagittal" then extractSagittalSlice size vol index
        else extractAxialSlice size vol index) := by
  refine ⟨_, ?_, rfl⟩
  simp only [getSlice]
  rw [convertToImageData_ok _ _ _ hx hy]

/-! ## Orientation dispatch and index range -/

/-- C4 (as stated, refuted): on a 1x1x2 volume `getSlice` with the unrecognized
orientation 'oblique' does not fail; it returns the display image of the axial
slice. -/
theorem getSlice_invalidOrientation_counterexample :
    getSlice ⟨some [JSNum.fin (-1000), JSNum.fin 1000], ⟨1, 1, 2⟩⟩ "oblique" 1
      = Except.ok (some ⟨1, 1, [255, 255, 255, 255]⟩) := by
  have h1 : ¬ ("oblique" = "axial") := by decide
  have h2 : ¬ ("oblique" = "coronal") := by decide
  have h3 : ¬ ("oblique" = "sagittal") := by decide
  have hs : extractAxialSlice ⟨1, 1, 2⟩ [JSNum.fin (-1000), JSNum.fin 1000] 1
      = [JSNum.fin 1000] := by decide
  simp only [getSlice, if_neg h1, if_neg h2, if_neg h3, hs]
  rw [convertToImageData_ok _ _ _ (by decide) (by decide)]
  simp only [pixelLoop, List.length_singleton, List.range_succ, List.range_zero, List.nil_append,
    List.foldl_cons, List.foldl_nil, List.getD_cons_zero, gray_fin_1000, toUint8Clamp_fin_255]
  rfl

/-- C4 (amended): for every orientation value other than 'axial', 'coronal' and
'sagittal', `getSlice` falls back to the axial extraction: it returns exactly
what it returns for 'axial', which is a display image whenever a volume is
loaded and its x and y dimensions are non-zero. -/
theorem getSlice_unknownOrientation (self : CBCTProcessor) (orientation : String)
    (sliceIndex : Int) (ha : orientation ≠ "axial") (hc : orientation ≠ "coronal")
    (hs : orientation ≠ "sagittal") :
    getSlice self orientation sliceIndex = getSlice self "axial" sliceIndex ∧
    (∀ vol, self.reconstructionVolume = some vol → self.volumeSize.x ≠ 0 →
      self.volumeSize.y ≠ 0 →
      ∃ img, getSlice self orientation sliceIndex = Except.ok (some img)) := by
  constructor
  · simp only [getSlice, if_neg ha, if_neg hc, if_neg hs, if_true]
  · intro vol hvol hx hy
    obtain ⟨vol0, size⟩ := self
    simp only at hvol hx hy
    subst hvol
    obtain ⟨slice, hslice, _⟩ := getSlice_some vol size orientation sliceIndex hx hy
    exact ⟨_, hslice⟩

/-- Witness of C4 (amended) for the orientation 'oblique'. -/
theorem getSlice_unknownOrientation_witness :
    getSlice ⟨some [JSNum.fin (-1000), JSNum.fin 1000], ⟨1, 1, 2⟩⟩ "oblique" 1
      = getSlice ⟨some [JSNum.fin (-1000), JSNum.fin 1000], ⟨1, 1, 2⟩⟩ "axial" 1 :=
  (getSlice_unknownOrientation ⟨some [JSNum.fin (-1000), JSNum.fin 1000], ⟨1, 1, 2⟩⟩
    "oblique" 1 (by decide) (by decide) (by decide)).1

/-- C5 (as stated, refuted): on the 2x2x3 volume whose voxel at linear index n
is n, extraction at an index outside the valid range does not fail: axial at
index 3 returns four `NaN` samples, coronal at index 2 returns voxels of the
next planes followed by `NaN`, sagittal at index -1 returns `NaN` followed by
voxels of the neighbouring rows. -/
theorem extractSlice_outOfRange_counterexample :
    extractAxialSlice ⟨2, 2, 3⟩ volume223 3
      = [JSNum.nan, JSNum.nan, JSNum.nan, JSNum.nan] ∧
    extractCoronalSlice ⟨2, 2, 3⟩ volume223 2
      = [JSNum.fin 4, JSNum.fin 5, JSNum.fin 8, JSNum.fin 9, JSNum.nan, JSNum.nan] ∧
    extractSagittalSlice ⟨2, 2, 3⟩ volume223 (-1)
      = [JSNum.nan, JSNum.fin 1, JSNum.fin 3, JSNum.fin 5, JSNum.fin 7, JSNum.fin 9] := by
  refine ⟨?_, ?_, ?_⟩ <;> decide

/-- C5 (amended): slice extraction checks no index range. For every slice
index, inside the valid range or not, each orientation returns a slice of full
size (x*y, x*z, y*z samples) whose sample at each position is the voxel at the
linear index computed from the slice index when that linear index lies inside
the voxel buffer, and `NaN` when it is negative or past the end. -/
theorem extractSlice_anyIndex (size : VolumeSize) (vol : List JSNum) (index : Int) :
    ((extractAxialSlice size vol index).length = size.x * size.y ∧
      ∀ i j, i < size.x → j < size.y →
        (extractAxialSlice size vol index)[j * size.x + i]? =
          some (readVoxel vol (index * size.x * size.y + j * size.x + i))) ∧
    ((extractCoronalSlice size vol index).length = size.x * size.z ∧
      ∀ i k, i < size.x → k < size.z →
        (extractCoronalSlice size vol index)[k * size.x + i]? =
          some (readVoxel vol (k * size.x * size.y + index * size.x + i))) ∧
    ((extractSagittalSlice size vol index).length = size.y * size.z ∧
      ∀ j k, j < size.y → k < size.z →
        (extractSagittalSlice size vol index)[k * size.y + j]? =
          some (readVoxel vol (k * size.x * size.y + j * size.x + index))) ∧
    (∀ n : Nat, n < vol.length → vol[n]? = some (readVoxel vol (n : Int))) ∧
    (∀ idx : Int, idx < 0 ∨ (vol.length : Int) ≤ idx → readVoxel vol idx = JSNum.nan) := by
  refine ⟨⟨extractAxialSlice_length _ _ _, fun i j hi hj => extractAxialSlice_sample _ _ _ i j hi hj⟩,
    ⟨extractCoronalSlice_length _ _ _, fun i k hi hk => extractCoronalSlice_sample _ _ _ i k hi hk⟩,
    ⟨extractSagittalSlice_length _ _ _,
      fun j k hj hk => extractSagittalSlice_sample _ _ _ j k hj hk⟩, ?_, ?_⟩
  · intro n hn
    obtain ⟨v, hv, hr⟩ := readVoxel_inBounds vol n hn
    rw [hv, hr]
  · intro idx hidx
    unfold readVoxel
    split_ifs with hneg
    · rfl
    · have hle : vol.length ≤ idx.toNat := by omega
      rw [List.getD_eq_getElem?_getD, List.getElem?_eq_none hle]
      rfl

/-- Witness of C5 (amended): the axial slice at the out-of-range index 3 of the
2x2x3 volume has 2*2 samples and its sample at position 1*2 + 1 is the read at
linear index 3*2*2 + 1*2 + 1, which is `NaN`. -/
theorem extractSlice_anyIndex_witness :
    (extractAxialSlice ⟨2, 2, 3⟩ volume223 3)[1 * 2 + 1]? =
      some (readVoxel volume223 (3 * ((2 : Nat) : Int) * ((2 : Nat) : Int)
        + ((1 : Nat) : Int) * ((2 : Nat) : Int) + ((1 : Nat) : Int))) ∧
    readVoxel volume223 15 = JSNum.nan :=
  ⟨(extractSlice_anyIndex ⟨2, 2, 3⟩ volume223 3).1.2 1 1 (by decide) (by decide),
   (extractSlice_anyIndex ⟨2, 2, 3⟩ volume223 3).2.2.2.2 15 (Or.inr (by decide))⟩

/-! ## The Hounsfield-to-grayscale mapping -/

/-- C6: the value of `gray` computed by `convertToImageData` for a sample `hu`
is 0 when `hu <= -1000`, 255 when `hu >= 1000`, and `((hu + 1000) / 2000) * 255`
otherwise; on finite samples this is the piecewise-linear map, and -1000 gives
0, 1000 gives 255 and 0 gives 127.5. -/
theorem gray_piecewise (hu : JSNum) :
    (hu.le (JSNum.fin (-1000)) = true → gray hu = JSNum.fin 0) ∧
    (hu.ge (JSNum.fin 1000) = true → gray hu = JSNum.fin 255) ∧
    (hu.le (JSNum.fin (-1000)) = false → hu.ge (JSNum.fin 1000) = false →
      gray hu = ((hu.add (JSNum.fin 1000)).div (JSNum.fin 2000)).mul (JSNum.fin 255)) ∧
    (∀ q : ℚ, q ≤ -1000 → gray (JSNum.fin q) = JSNum.fin 0) ∧
    (∀ q : ℚ, 1000 ≤ q → gray (JSNum.fin q) = JSNum.fin 255) ∧
    (∀ q : ℚ, -1000 < q → q < 1000 →
      gray (JSNum.fin q) = JSNum.fin ((q + 1000) / 2000 * 255)) ∧
    gray (JSNum.fin (-1000)) = JSNum.fin 0 ∧
    gray (JSNum.fin 1000) = JSNum.fin 255 ∧
    gray (JSNum.fin 0) = JSNum.fin 127.5 := by
  refine ⟨?_, ?_, ?_, ?_, ?_, ?_, gray_fin_neg1000, gray_fin_1000, ?_⟩
  · intro h
    simp [gray, h]
  · intro h
    have hle : hu.le (JSNum.fin (-1000)) = false := by
      cases hu with
      | nan => rfl
      | negInf => simp [JSNum.ge, JSNum.le] at h
      | posInf => rfl
      | fin q =>
        simp only [JSNum.ge, JSNum.le, decide_eq_true_eq] at h
        simp only [JSNum.le, decide_eq_false_iff_not, not_le]
        linarith
    simp [gray, h, hle]
  · intro h1 h2
    simp [gray, h1, h2]
  · intro q hq
    rw [gray_fin, if_pos hq]
  · intro q hq
    rw [gray_fin, if_neg (by linarith), if_pos hq]
  · intro q h1 h2
    rw [gray_fin, if_neg (by linarith), if_neg (by linarith)]
  · rw [gray_fin]
    norm_num

/-- Witness of C6 at the samples -2000, 3000 and 500. -/
theorem gray_piecewise_witness :
    gray (JSNum.fin (-2000)) = JSNum.fin 0 ∧
    gray (JSNum.fin 3000) = JSNum.fin 255 ∧
    gray (JSNum.fin 500) = JSNum.fin ((500 + 1000) / 2000 * 255) :=
  ⟨(gray_piecewise (JSNum.fin (-2000))).2.2.2.1 (-2000) (by norm_num),
   (gray_piecewise (JSNum.fin 3000)).2.2.2.2.1 3000 (by norm_num),
   (gray_piecewise (JSNum.fin 500)).2.2.2.2.2.1 500 (by norm_num) (by norm_num)⟩

/-- C8: the mapping `gray` is monotonic non-decreasing: whenever `a <= b` holds
for two sample values, `gray(a) <= gray(b)` holds, the two branch boundaries at
-1000 and 1000 and the infinities included. -/
theorem gray_monotone (a b : JSNum) (hab : a.le b = true) :
    (gray a).le (gray b) = true := by
  cases a with
  | nan => simp [JSNum.le] at hab
  | negInf =>
    cases b with
    | nan => simp [JSNum.le] at hab
    | negInf => simp [gray_negInf, JSNum.le]
    | posInf => simp [gray_negInf, gray_posInf, JSNum.le]
    | fin q =>
      rw [gray_negInf, gray_fin]
      split_ifs <;> simp only [JSNum.le, decide_eq_true_eq] <;> norm_num
      linarith
  | posInf =>
    cases b with
    | nan => simp [JSNum.le] at hab
    | negInf => simp [JSNum.le] at hab
    | posInf => simp [gray_posInf, JSNum.le]
    | fin q => simp [JSNum.le] at hab
  | fin p =>
    cases b with
    | nan => simp [JSNum.le] at hab
    | negInf => simp [JSNum.le] at hab
    | posInf =>
      rw [gray_posInf, gray_fin]
      split_ifs <;> simp only [JSNum.le, decide_eq_true_eq] <;> norm_num
      linarith
    | fin q =>
      simp only [JSNum.le, decide_eq_true_eq] at hab
      rw [gray_fin, gray_fin]
      split_ifs <;> simp only [JSNum.le, decide_eq_true_eq] <;> linarith

/-- Witness of C8 across the lower branch boundary: -1000 <= -999. -/
theorem gray_monotone_witness :
    (JSNum.fin (-1000)).le (JSNum.fin (-999)) = true ∧
    (gray (JSNum.fin (-1000))).le (gray (JSNum.fin (-999))) = true :=
  ⟨by norm_num [JSNum.le],
    gray_monotone (JSNum.fin (-1000)) (JSNum.fin (-999)) (by norm_num [JSNum.le])⟩

/-- C9 (as stated, refuted): for the sample `NaN` both branch tests fail, the
computed `gray` is `NaN`, and `NaN` is neither `>= 0` nor `<= 255`. -/
theorem gray_nan_counterexample :
    gray JSNum.nan = JSNum.nan ∧
    ¬ ((JSNum.fin 0).le (gray JSNum.nan) = true ∧
       (gray JSNum.nan).le (JSNum.fin 255) = true) := by
  refine ⟨gray_ofNaN, ?_⟩
  rw [gray_ofNaN]
  simp [JSNum.le]

/-- C9 (amended): for every sample value other than `NaN` the computed `gray`
lies in the closed interval [0, 255]; in the middle branch (-1000 < hu < 1000)
it is the unclamped value `((hu + 1000) / 2000) * 255`. On a finite sample the
two bounds do not depend on the arithmetic being exact: they hold when each of
the three operations is rounded by any monotone rounding that leaves 0, 1, 255
and 2000 as they are. (No strict bound is stated: a rounded sum `hu + 1000` can
reach 2000 for a sample below 1000.) -/
theorem gray_bounds (hu : JSNum) (hnan : hu ≠ JSNum.nan) :
    (JSNum.fin 0).le (gray hu) = true ∧ (gray hu).le (JSNum.fin 255) = true ∧
    ((JSNum.fin (-1000)).lt hu = true → hu.lt (JSNum.fin 1000) = true →
      gray hu = ((hu.add (JSNum.fin 1000)).div (JSNum.fin 2000)).mul (JSNum.fin 255)) ∧
    (∀ q : ℚ, hu = JSNum.fin q →
      gray hu = JSNum.fin (grayRounded id q) ∧
      ∀ rnd : ℚ → ℚ, Monotone rnd → rnd 0 = 0 → rnd 1 = 1 → rnd 255 = 255 →
        rnd 2000 = 2000 → 0 ≤ grayRounded rnd q ∧ grayRounded rnd q ≤ 255) := by
  have hrounded : ∀ q : ℚ,
      gray (JSNum.fin q) = JSNum.fin (grayRounded id q) ∧
      ∀ rnd : ℚ → ℚ, Monotone rnd → rnd 0 = 0 → rnd 1 = 1 → rnd 255 = 255 →
        rnd 2000 = 2000 → 0 ≤ grayRounded rnd q ∧ grayRounded rnd q ≤ 255 := by
    intro q
    constructor
    · rw [gray_fin]
      unfold grayRounded
      split_ifs <;> rfl
    · intro rnd hmono h0 h1 h255 h2000
      unfold grayRounded
      split_ifs with hlo hhi
      · exact ⟨le_refl _, by norm_num⟩
      · exact ⟨by norm_num, le_refl _⟩
      · have a0 : 0 ≤ rnd (q + 1000) :=
          le_trans (le_of_eq h0.symm) (hmono (by linarith))
        have a1 : rnd (q + 1000) ≤ 2000 :=
          le_trans (hmono (by linarith)) (le_of_eq h2000)
        have b0 : 0 ≤ rnd (rnd (q + 1000) / 2000) :=
          le_trans (le_of_eq h0.symm) (hmono (div_nonneg a0 (by norm_num)))
        have b1 : rnd (rnd (q + 1000) / 2000) ≤ 1 :=
          le_trans (hmono (by rw [div_le_one (by norm_num)]; exact a1)) (le_of_eq h1)
        exact ⟨le_trans (le_of_eq h0.symm) (hmono (mul_nonneg b0 (by norm_num))),
          le_trans (hmono (by linarith)) (le_of_eq h255)⟩
  cases hu with
  | nan => exact absurd rfl hnan
  | negInf =>
    rw [gray_negInf]
    refine ⟨by norm_num [JSNum.le], by norm_num [JSNum.le], ?_, ?_⟩
    · intro h
      simp [JSNum.lt] at h
    · intro q hq
      exact JSNum.noConfusion hq
  | posInf =>
    rw [gray_posInf]
    refine ⟨by norm_num [JSNum.le], by norm_num [JSNum.le], ?_, ?_⟩
    · intro _ h
      simp [JSNum.lt] at h
    · intro q hq
      exact JSNum.noConfusion hq
  | fin q =>
    refine ⟨?_, ?_, ?_, ?_⟩
    · rw [gray_fin]
      split_ifs <;> simp only [JSNum.le, decide_eq_true_eq] <;> linarith
    · rw [gray_fin]
      split_ifs <;> simp only [JSNum.le, decide_eq_true_eq] <;> linarith
    · intro h1 h2
      simp only [JSNum.lt, decide_eq_true_eq] at h1 h2
      rw [gray_fin, if_neg (by linarith), if_neg (by linarith)]
      simp only [JSNum.add, JSNum.div, JSNum.mul]
      rw [if_neg (by norm_num)]
    · intro q1 hq
      cases hq
      exact hrounded q

/-- Witness of C9 (amended) at the sample 0, in the middle branch. -/
theorem gray_bounds_witness :
    JSNum.fin 0 ≠ JSNum.nan ∧
    (JSNum.fin 0).le (gray (JSNum.fin 0)) = true ∧
    (gray (JSNum.fin 0)).le (JSNum.fin 255) = true :=
  ⟨by simp, (gray_bounds (JSNum.fin 0) (by simp)).1, (gray_bounds (JSNum.fin 0) (by simp)).2.1⟩

/-! ## Display images -/

/-- C7 (as stated, refuted): a slice of two samples converted into a 1x1 image
yields one pixel only; the sample at position 1 writes no channel (channel
4*1 + 3 does not exist). -/
theorem convertToImageData_pixel_counterexample :
    convertToImageData [JSNum.fin (-1000), JSNum.fin 1000] 1 1
      = Except.ok ⟨1, 1, [0, 0, 0, 255]⟩ ∧
    ([0, 0, 0, 255] : List Nat)[4 * 1 + 3]? = none := by
  refine ⟨?_, by decide⟩
  rw [convertToImageData_ok _ _ _ (by decide) (by decide)]
  simp only [pixelLoop, List.length_cons, List.length_nil, List.range_succ, List.range_zero,
    List.nil_append, List.foldl_append, List.foldl_cons, List.foldl_nil, List.getD_cons_zero,
    List.getD_cons_succ, gray_fin_1000, gray_fin_neg1000, toUint8Clamp_fin_255,
    toUint8Clamp_fin_zero]
  rfl

/-- C7 (amended): for every slice and every sample position n in it that lies
inside the image (n < width*height), `convertToImageData` returns an image of
width*height*4 channels in which channels 4n, 4n+1 and 4n+2 hold the same
value, the sample's `gray` as stored by the clamped byte array, and channel
4n+3 holds 255. -/
theorem convertToImageData_pixel (sliceData : List JSNum) (width height n : Nat)
    (hn : n < sliceData.length) (hfit : n < width * height) :
    ∃ img hu, convertToImageData sliceData width height = Except.ok img ∧
      sliceData[n]? = some hu ∧
      img.data.length = width * height * 4 ∧
      img.data[4 * n]? = some (toUint8Clamp (gray hu)) ∧
      img.data[4 * n + 1]? = some (toUint8Clamp (gray hu)) ∧
      img.data[4 * n + 2]? = some (toUint8Clamp (gray hu)) ∧
      img.data[4 * n + 3]? = some 255 := by
  have hw : width ≠ 0 := by rintro rfl; simp at hfit
  have hh : height ≠ 0 := by rintro rfl; simp at hfit
  have hget : sliceData.getD n JSNum.nan = sliceData[n] := by
    rw [List.getD_eq_getElem?_getD, List.getElem?_eq_getElem hn]; rfl
  have hpix : ∀ c, c < 4 →
      (pixelLoop sliceData sliceData.length (List.replicate (width * height * 4) 0))[n * 4 + c]?
        = some (if c = 3 then 255 else toUint8Clamp (gray sliceData[n])) := by
    intro c hc
    rw [← hget]
    exact pixelLoop_getElem? sliceData sliceData.length _ n c hn hc
      (by rw [List.length_replicate]; omega)
  refine ⟨_, sliceData[n], convertToImageData_ok sliceData width height hw hh,
    List.getElem?_eq_getElem hn, ?_, ?_, ?_, ?_, ?_⟩
  · simp [pixelLoop_length]
  · have h := hpix 0 (by omega)
    rw [show n * 4 + 0 = 4 * n by omega] at h
    simpa using h
  · have h := hpix 1 (by omega)
    rw [show n * 4 + 1 = 4 * n + 1 by omega] at h
    simpa using h
  · have h := hpix 2 (by omega)
    rw [show n * 4 + 2 = 4 * n + 2 by omega] at h
    simpa using h
  · have h := hpix 3 (by omega)
    rw [show n * 4 + 3 = 4 * n + 3 by omega] at h
    simpa using h

/-- Witness of C7 (amended): the single sample of a one-sample slice in a 1x1
image. -/
theorem convertToImageData_pixel_witness :
    0 < [JSNum.fin 1000].length ∧ 0 < 1 * 1 ∧
    ∃ img hu, convertToImageData [JSNum.fin 1000] 1 1 = Except.ok img ∧
      [JSNum.fin 1000][0]? = some hu ∧
      img.data.length = 1 * 1 * 4 ∧
      img.data[4 * 0]? = some (toUint8Clamp (gray hu)) ∧
      img.data[4 * 0 + 1]? = some (toUint8Clamp (gray hu)) ∧
      img.data[4 * 0 + 2]? = some (toUint8Clamp (gray hu)) ∧
      img.data[4 * 0 + 3]? = some 255 :=
  ⟨by decide, by decide, convertToImageData_pixel [JSNum.fin 1000] 1 1 0 (by decide) (by decide)⟩

/-- C10 (evaluation at the failing input): on the 1x1x2 volume with voxels
-1000 and 1000 the coronal slice at index 0 has x*z = 2 samples, but the image
`getSlice` returns for 'coronal' is built with width x = 1 and height y = 1: it
has 4 channels, not 8, and the second sample has no pixel. -/
theorem getSlice_coronal_image_size :
    extractCoronalSlice ⟨1, 1, 2⟩ [JSNum.fin (-1000), JSNum.fin 1000] 0
      = [JSNum.fin (-1000), JSNum.fin 1000] ∧
    getSlice ⟨some [JSNum.fin (-1000), JSNum.fin 1000], ⟨1, 1, 2⟩⟩ "coronal" 0
      = Except.ok (some ⟨1, 1, [0, 0, 0, 255]⟩) := by
  have hs : extractCoronalSlice ⟨1, 1, 2⟩ [JSNum.fin (-1000), JSNum.fin 1000] 0
      = [JSNum.fin (-1000), JSNum.fin 1000] := by decide
  refine ⟨hs, ?_⟩
  have h1 : ¬ ("coronal" = "axial") := by decide
  simp only [getSlice, if_neg h1, if_true, hs]
  rw [convertToImageData_ok _ _ _ (by decide) (by decide)]
  simp only [pixelLoop, List.length_cons, List.length_nil, List.range_succ, List.range_zero,
    List.nil_append, List.foldl_append, List.foldl_cons, List.foldl_nil, List.getD_cons_zero,
    List.getD_cons_succ, gray_fin_1000, gray_fin_neg1000, toUint8Clamp_fin_255,
    toUint8Clamp_fin_zero]
  rfl

/-! ## Region loops: helper lemmas -/

theorem accRow_eq (g : Int → JSNum) (L : List Int) (s : JSNum) (c : Nat) :
    L.foldl (fun (acc : JSNum × Nat) (i : Int) => (acc.1.add (g i), acc.2 + 1)) (s, c)
      = ((L.map g).foldl JSNum.add s, c + L.length) := by
  induction L generalizing s c with
  | nil => rfl
  | cons a L ih =>
    simp only [List.foldl_cons, List.map_cons, List.length_cons]
    rw [ih]
    congr 1
    omega

theorem accGrid_eq (g : Int → Int → JSNum) (L1 L2 : List Int) (s : JSNum) (c : Nat) :
    L1.foldl (fun (acc : JSNum × Nat) (j : Int) =>
        L2.foldl (fun (acc : JSNum × Nat) (i : Int) => (acc.1.add (g j i), acc.2 + 1)) acc)
        (s, c)
      = ((L1.flatMap (fun j => L2.map (g j))).foldl JSNum.add s, c + L1.length * L2.length) := by
  induction L1 generalizing s c with
  | nil => simp
  | cons a L1 ih =>
    simp only [List.foldl_cons, List.flatMap_cons, List.length_cons, List.foldl_append]
    rw [accRow_eq (g a) L2 s c, ih]
    congr 1
    ring

theorem loopRange_length (lo hi : Int) : (loopRange lo hi).length = (hi - lo).toNat := by
  simp [loopRange]

theorem loopRange_natCast (lo n : Nat) :
    loopRange (lo : Int) ((lo : Int) + (n : Int))
      = (List.range n).map (fun (t : Nat) => ((lo + t : Nat) : Int)) := by
  simp [loopRange]

theorem calculateROIMean_eq (vol : List JSNum) (x y width height : Int) :
    calculateROIMean vol x y width height =
      (jsSum (regionSamples vol x y width height)).div
        (JSNum.fin ((height.toNat * width.toNat : Nat) : ℚ)) := by
  unfold calculateROIMean
  rw [accGrid_eq (fun j i => readVoxel vol (j * 256 + i))]
  simp [jsSum, regionSamples, loopRange_length]

theorem foldl_add_fin (l : List ℚ) (s : ℚ) :
    (l.map JSNum.fin).foldl JSNum.add (JSNum.fin s) = JSNum.fin (s + l.sum) := by
  induction l generalizing s with
  | nil => simp
  | cons a l ih =>
    simp only [List.map_cons, List.foldl_cons, List.sum_cons, JSNum.add]
    rw [ih, add_assoc]

theorem jsSum_fin (l : List ℚ) : jsSum (l.map JSNum.fin) = JSNum.fin l.sum := by
  rw [jsSum, foldl_add_fin, zero_add]

theorem rowList_sum (w : Nat) (f : Nat → ℚ) :
    ((List.range w).map f).sum = ∑ c in Finset.range w, f c := by
  induction w with
  | zero => simp
  | succ w ih => simp [List.range_succ, Finset.sum_range_succ, ih]

theorem gridList_sum (h w : Nat) (f : Nat → Nat → ℚ) :
    (gridList h w f).sum = ∑ r in Finset.range h, ∑ c in Finset.range w, f r c := by
  induction h with
  | zero => simp [gridList]
  | succ h ih =>
    simp only [gridList] at ih
    simp only [gridList, List.range_succ, List.flatMap_append, List.flatMap_cons,
      List.flatMap_nil, List.append_nil, List.sum_append, Finset.sum_range_succ, ih,
      rowList_sum]

theorem gridList_length (h w : Nat) (f : Nat → Nat → ℚ) : (gridList h w f).length = h * w := by
  induction h with
  | zero => simp [gridList]
  | succ h ih =>
    simp only [gridList] at ih
    simp only [gridList, List.range_succ, List.flatMap_append, List.flatMap_cons,
      List.flatMap_nil, List.append_nil, List.length_append, List.length_map,
      List.length_range, ih]
    ring

theorem gridList_map (h w : Nat) (f : Nat → Nat → ℚ) (φ : ℚ → ℚ) :
    (gridList h w f).map φ = gridList h w (fun r c => φ (f r c)) := by
  simp only [gridList, List.map_flatMap, List.map_map]
  rfl

theorem regionSamples_finite (vol : List JSNum) (v : Nat → Nat → ℚ) (x y width height : Nat)
    (hv : ∀ r c, r < height → c < width →
      vol[(y + r) * 256 + (x + c)]? = some (JSNum.fin (v (y + r) (x + c)))) :
    regionSamples vol x y width height
      = (gridList height width (fun r c => v (y + r) (x + c))).map JSNum.fin := by
  have hread : ∀ r c, r < height → c < width →
      readVoxel vol (((y + r : Nat) : Int) * 256 + ((x + c : Nat) : Int))
        = JSNum.fin (v (y + r) (x + c)) := by
    intro r c hr hc
    have hcast : ((y + r : Nat) : Int) * 256 + ((x + c : Nat) : Int)
        = (((y + r) * 256 + (x + c) : Nat) : Int) := by push_cast; ring
    have hsome := hv r c hr hc
    have hlt : (y + r) * 256 + (x + c) < vol.length := by
      by_contra hge
      rw [List.getElem?_eq_none (by omega)] at hsome
      exact Option.noConfusion hsome
    obtain ⟨u, hu, hrd⟩ := readVoxel_inBounds vol _ hlt
    rw [hcast, hrd]
    rw [hu] at hsome
    exact Option.some.inj hsome
  simp only [regionSamples, gridList, loopRange_natCast, List.flatMap_def, List.map_map,
    List.map_flatten]
  congr 1
  apply List.map_congr_left
  intro r hr
  rw [List.mem_range] at hr
  simp only [Function.comp_apply, List.map_map]
  apply List.map_congr_left
  intro c hc
  rw [List.mem_range] at hc
  simp only [Function.comp_apply]
  exact hread r c hr hc

theorem div_fin_natCast (a : ℚ) (n : Nat) (hn : n ≠ 0) :
    (JSNum.fin a).div (JSNum.fin (n : ℚ)) = JSNum.fin (a / n) := by
  have : (n : ℚ) ≠ 0 := Nat.cast_ne_zero.mpr hn
  simp [JSNum.div, this]

theorem calculateROIMean_finite (vol : List JSNum) (v : Nat → Nat → ℚ) (x y width height : Nat)
    (hw : 0 < width) (hh : 0 < height)
    (hv : ∀ r c, r < height → c < width →
      vol[(y + r) * 256 + (x + c)]? = some (JSNum.fin (v (y + r) (x + c)))) :
    calculateROIMean vol x y width height
      = JSNum.fin ((∑ r in Finset.range height, ∑ c in Finset.range width, v (y + r) (x + c))
          / ((height * width : Nat) : ℚ)) := by
  have hne : height * width ≠ 0 := Nat.mul_ne_zero (by omega) (by omega)
  rw [calculateROIMean_eq, regionSamples_finite vol v x y width height hv, jsSum_fin,
    gridList_sum]
  simp only [Int.toNat_ofNat]
  exact div_fin_natCast _ _ hne

theorem sum_Ico_grid (v : Nat → Nat → ℚ) (x y width height : Nat) :
    ∑ j in Finset.Ico y (y + height), ∑ i in Finset.Ico x (x + width), v j i
      = ∑ r in Finset.range height, ∑ c in Finset.range width, v (y + r) (x + c) := by
  rw [Finset.sum_Ico_eq_sum_range, Nat.add_sub_cancel_left]
  apply Finset.sum_congr rfl
  intro r _
  rw [Finset.sum_Ico_eq_sum_range, Nat.add_sub_cancel_left]

theorem rowVolume_voxel (j i : Nat) (hj : j < 256) (hi : i < 256) :
    rowVolume[j * 256 + i]? = some (JSNum.fin (rowValue j)) := by
  have h1 : j * 256 + i < 65536 := by omega
  have h2 : (j * 256 + i) / 256 = j := by omega
  simp only [rowVolume, List.getElem?_map, List.getElem?_range h1, Option.map_some', h2]

/-! ## Region mean -/

/-- C11: for a region with width > 0 and height > 0, `calculateROIMean` returns
the sum of the voxels read at the flat indices `j*256 + i`, for y <= j < y+height
and x <= i < x+width, divided by the sample count width*height, the row stride
being 256 whatever the volume is; when these indices lie inside the buffer and
hold the finite values `v j i`, the result is their arithmetic mean. -/
theorem calculateROIMean_spec (vol : List JSNum) (x y width height : Nat)
    (hw : 0 < width) (hh : 0 < height) :
    calculateROIMean vol x y width height
      = (jsSum (regionSamples vol x y width height)).div
          (JSNum.fin ((width * height : Nat) : ℚ)) ∧
    (∀ v : Nat → Nat → ℚ,
      (∀ j i, y ≤ j → j < y + height → x ≤ i → i < x + width →
        vol[j * 256 + i]? = some (JSNum.fin (v j i))) →
      calculateROIMean vol x y width height
        = JSNum.fin ((∑ j in Finset.Ico y (y + height), ∑ i in Finset.Ico x (x + width), v j i)
            / ((width * height : Nat) : ℚ))) := by
  constructor
  · rw [calculateROIMean_eq]
    simp only [Int.toNat_ofNat, Nat.mul_comm height width]
  · intro v hv
    rw [sum_Ico_grid, Nat.mul_comm width height]
    exact calculateROIMean_finite vol v x y width height hw hh
      (fun r c hr hc => hv (y + r) (x + c) (by omega) (by omega) (by omega) (by omega))

/-- Witness of C11: the background rectangle of the row volume. -/
theorem calculateROIMean_spec_witness :
    0 < 50 ∧
    calculateROIMean rowVolume ((10 : Nat) : Int) ((10 : Nat) : Int) ((50 : Nat) : Int)
        ((50 : Nat) : Int)
      = JSNum.fin ((∑ j in Finset.Ico 10 (10 + 50), ∑ _i in Finset.Ico 10 (10 + 50), rowValue j)
          / ((50 * 50 : Nat) : ℚ)) :=
  ⟨by decide, (calculateROIMean_spec rowVolume 10 10 50 50 (by decide) (by decide)).2
    (fun j _ => rowValue j)
    (fun j i _ hj _ hi => rowVolume_voxel j i (by omega) (by omega))⟩

/-! ## Background standard deviation -/

theorem calculateBackgroundStd_eq (sqrt : JSNum → JSNum) (vol : List JSNum) :
    calculateBackgroundStd sqrt vol
      = sqrt ((jsSum ((regionSamples vol 10 10 50 50).map (fun s =>
          (s.sub (calculateROIMean vol 10 10 50 50)).mul
            (s.sub (calculateROIMean vol 10 10 50 50))))).div (JSNum.fin 2500)) := by
  unfold calculateBackgroundStd
  simp only [getBackgroundRegion]
  rw [accGrid_eq (fun j i =>
    ((readVoxel vol (j * 256 + i)).sub (calculateROIMean vol 10 10 50 50)).mul
      ((readVoxel vol (j * 256 + i)).sub (calculateROIMean vol 10 10 50 50)))]
  have h50 : ((10 : Int) + 50 - 10).toNat = 50 := by decide
  have hcount : ((0 + 50 * 50 : Nat) : ℚ) = 2500 := by norm_num
  simp only [jsSum, regionSamples, loopRange_length, List.map_flatMap, List.map_map, h50, hcount]
  rfl

theorem squares_fin (l : List ℚ) (μ : ℚ) :
    (l.map JSNum.fin).map (fun s => (s.sub (JSNum.fin μ)).mul (s.sub (JSNum.fin μ)))
      = (l.map (fun q => (q - μ) ^ 2)).map JSNum.fin := by
  simp only [List.map_map]
  apply List.map_congr_left
  intro q _
  simp only [Function.comp_apply, JSNum.sub, JSNum.mul, pow_two]

theorem div_fin_2500 (a : ℚ) :
    (JSNum.fin a).div (JSNum.fin 2500) = JSNum.fin (a / 2500) := by
  have h : (2500 : ℚ) ≠ 0 := by norm_num
  simp [JSNum.div, h]

theorem calculateROIMean_finite_50 (vol : List JSNum) (v : Nat → Nat → ℚ) (x y : Nat)
    (hv : ∀ r c, r < 50 → c < 50 →
      vol[(y + r) * 256 + (x + c)]? = some (JSNum.fin (v (y + r) (x + c)))) :
    calculateROIMean vol x y 50 50
      = JSNum.fin ((∑ r in Finset.range 50, ∑ c in Finset.range 50, v (y + r) (x + c))
          / 2500) := by
  have h := calculateROIMean_finite vol v x y 50 50 (by decide) (by decide) hv
  simp only [Nat.cast_ofNat] at h
  rw [h]
  norm_num

theorem calculateBackgroundStd_finite (sqrt : JSNum → JSNum) (vol : List JSNum)
    (v : Nat → Nat → ℚ)
    (hv : ∀ r c, r < 50 → c < 50 →
      vol[(10 + r) * 256 + (10 + c)]? = some (JSNum.fin (v (10 + r) (10 + c)))) :
    calculateBackgroundStd sqrt vol
      = sqrt (JSNum.fin ((∑ r in Finset.range 50, ∑ c in Finset.range 50,
          (v (10 + r) (10 + c)
            - (∑ r in Finset.range 50, ∑ c in Finset.range 50, v (10 + r) (10 + c)) / 2500) ^ 2)
          / 2500)) := by
  have hmean := calculateROIMean_finite_50 vol v 10 10 hv
  have hsamples := regionSamples_finite vol v 10 10 50 50 hv
  simp only [Nat.cast_ofNat] at hmean hsamples
  rw [calculateBackgroundStd_eq, hmean, hsamples, squares_fin, jsSum_fin, gridList_map,
    gridList_sum, div_fin_2500]

theorem flatMap_map_length {α β : Type} (L1 L2 : List α) (g : α → α → β) :
    (L1.flatMap (fun j => L2.map (g j))).length = L1.length * L2.length := by
  induction L1 with
  | nil => simp
  | cons a L1 ih =>
    simp only [List.flatMap_cons, List.length_append, List.length_map, List.length_cons, ih]
    ring

theorem regionSamples_length (vol : List JSNum) (x y width height : Int) :
    (regionSamples vol x y width height).length = height.toNat * width.toNat := by
  unfold regionSamples
  rw [flatMap_map_length (loopRange y (y + height)) (loopRange x (x + width))
    (fun j i => readVoxel vol (j * 256 + i))]
  simp [loopRange_length]

/-- C12: `calculateBackgroundStd` returns the square root of the sum, over the
N = 2500 samples of the 50x50 background region at (10, 10), of the squared
differences between the sample and the region mean, divided by N (not by
N - 1): the population standard deviation. -/
theorem calculateBackgroundStd_spec (sqrt : JSNum → JSNum) (vol : List JSNum) :
    getBackgroundRegion = { x := 10, y := 10, width := 50, height := 50 } ∧
    (regionSamples vol 10 10 50 50).length = 2500 ∧
    calculateBackgroundStd sqrt vol
      = sqrt ((jsSum ((regionSamples vol 10 10 50 50).map (fun s =>
          (s.sub (calculateROIMean vol 10 10 50 50)).mul
            (s.sub (calculateROIMean vol 10 10 50 50))))).div (JSNum.fin 2500)) ∧
    (∀ v : Nat → Nat → ℚ,
      (∀ j i, 10 ≤ j → j < 60 → 10 ≤ i → i < 60 →
        vol[j * 256 + i]? = some (JSNum.fin (v j i))) →
      calculateROIMean vol 10 10 50 50
        = JSNum.fin ((∑ j in Finset.Ico 10 60, ∑ i in Finset.Ico 10 60, v j i) / 2500) ∧
      calculateBackgroundStd sqrt vol
        = sqrt (JSNum.fin ((∑ j in Finset.Ico 10 60, ∑ i in Finset.Ico 10 60,
            (v j i - (∑ j in Finset.Ico 10 60, ∑ i in Finset.Ico 10 60, v j i) / 2500) ^ 2)
            / 2500))) := by
  refine ⟨rfl, ?_, calculateBackgroundStd_eq sqrt vol, ?_⟩
  · rw [regionSamples_length]
    decide
  · intro v hv
    have hv' : ∀ r c, r < 50 → c < 50 →
        vol[(10 + r) * 256 + (10 + c)]? = some (JSNum.fin (v (10 + r) (10 + c))) :=
      fun r c hr hc => hv (10 + r) (10 + c) (by omega) (by omega) (by omega) (by omega)
    have hico : Finset.Ico 10 60 = Finset.Ico 10 (10 + 50) := rfl
    have hmean := calculateROIMean_finite_50 vol v 10 10 hv'
    simp only [Nat.cast_ofNat] at hmean
    rw [hico, sum_Ico_grid v 10 10 50 50,
      sum_Ico_grid (fun j i => (v j i - (∑ r in Finset.range 50, ∑ c in Finset.range 50,
        v (10 + r) (10 + c)) / 2500) ^ 2) 10 10 50 50]
    exact ⟨hmean, calculateBackgroundStd_finite sqrt vol v hv'⟩

/-- Witness of C12 on the row volume. -/
theorem calculateBackgroundStd_spec_witness :
    calculateBackgroundStd sqrtModel rowVolume
      = sqrtModel (JSNum.fin ((∑ j in Finset.Ico 10 60, ∑ _i in Finset.Ico 10 60,
          (rowValue j - (∑ j in Finset.Ico 10 60, ∑ _i in Finset.Ico 10 60, rowValue j) / 2500) ^ 2)
          / 2500)) :=
  ((calculateBackgroundStd_spec sqrtModel rowVolume).2.2.2 (fun j _ => rowValue j)
    (fun j i _ hj _ hi => rowVolume_voxel j i (by omega) (by omega))).2

/-! ## Empty regions -/

/-- C13 (as stated, refuted): for the region (0, 0, 0, 5) of width 0 the
computation does not fail; the loop body never runs, `count` stays 0 and the
function returns `0 / 0`, which is `NaN`. -/
theorem calculateROIMean_emptyRegion_counterexample :
    calculateROIMean volume223 0 0 0 5 = JSNum.nan := by
  rw [calculateROIMean_eq]
  have h : regionSamples volume223 0 0 0 5 = [] :=
    List.eq_nil_of_length_eq_zero (by rw [regionSamples_length]; decide)
  rw [h]
  simp [jsSum, JSNum.div]

/-- C13 (amended): `calculateROIMean` has no check of the region size. For
every region with width <= 0 or height <= 0 no sample is read, the count is 0,
the division `sum / count` is performed as `0 / 0` and the value returned is
`NaN`. -/
theorem calculateROIMean_emptyRegion (vol : List JSNum) (x y width height : Int)
    (hempty : width ≤ 0 ∨ height ≤ 0) :
    regionSamples vol x y width height = [] ∧
    calculateROIMean vol x y width height = (JSNum.fin 0).div (JSNum.fin 0) ∧
    calculateROIMean vol x y width height = JSNum.nan := by
  have hcount : height.toNat * width.toNat = 0 := by
    rcases hempty with h | h
    · rw [Int.toNat_of_nonpos h, Nat.mul_zero]
    · rw [Int.toNat_of_nonpos h, Nat.zero_mul]
  have hnil : regionSamples vol x y width height = [] :=
    List.eq_nil_of_length_eq_zero (by rw [regionSamples_length]; exact hcount)
  have hval : calculateROIMean vol x y width height = (JSNum.fin 0).div (JSNum.fin 0) := by
    rw [calculateROIMean_eq, hnil, hcount]
    simp [jsSum]
  refine ⟨hnil, hval, ?_⟩
  rw [hval]
  simp [JSNum.div]

/-- Witness of C13 (amended) for a region of negative height. -/
theorem calculateROIMean_emptyRegion_witness :
    ((3 : Int) ≤ 0 ∨ (-2 : Int) ≤ 0) ∧ calculateROIMean volume223 1 1 3 (-2) = JSNum.nan :=
  ⟨Or.inr (by decide),
    (calculateROIMean_emptyRegion volume223 1 1 3 (-2) (Or.inr (by decide))).2.2⟩

/-! ## Uniform regions -/

theorem mem_regionSamples (vol : List JSNum) (x y width height : Int) (s : JSNum) :
    s ∈ regionSamples vol x y width height ↔
      ∃ r c : Nat, r < height.toNat ∧ c < width.toNat ∧
        s = readVoxel vol ((y + r) * 256 + (x + c)) := by
  simp only [regionSamples, loopRange, List.mem_flatMap, List.mem_map, List.mem_range,
    add_sub_cancel_left]
  constructor
  · rintro ⟨j, ⟨r, hr, rfl⟩, i, ⟨c, hc, rfl⟩, rfl⟩
    exact ⟨r, c, hr, hc, rfl⟩
  · rintro ⟨r, c, hr, hc, rfl⟩
    exact ⟨y + r, ⟨r, hr, rfl⟩, x + c, ⟨c, hc, rfl⟩, rfl⟩

theorem phantomVolume_voxel (j i : Nat) (hj : j < 256) (hi : i < 256) :
    phantomVolume[j * 256 + i]? = some (JSNum.fin (phantomValue j)) := by
  have h1 : j * 256 + i < 65536 := by omega
  have h2 : (j * 256 + i) / 256 = j := by omega
  simp only [phantomVolume, List.getElem?_map, List.getElem?_range h1, Option.map_some', h2]

theorem infVolume_voxel (n : Nat) (hn : n < 65536) : infVolume[n]? = some JSNum.posInf := by
  rw [infVolume, List.getElem?_replicate, if_pos hn]

theorem regionSamples_infVolume :
    regionSamples infVolume 10 10 50 50 = List.replicate 2500 JSNum.posInf := by
  rw [List.eq_replicate_iff]
  constructor
  · rw [regionSamples_length]; decide
  · intro b hb
    rw [mem_regionSamples] at hb
    obtain ⟨r, c, hr, hc, rfl⟩ := hb
    have hr' : r < 50 := hr
    have hc' : c < 50 := hc
    have hcast : ((10 : Int) + (r : Int)) * 256 + ((10 : Int) + (c : Int))
        = (((10 + r) * 256 + (10 + c) : Nat) : Int) := by push_cast; ring
    obtain ⟨u, hu, hread⟩ := readVoxel_inBounds infVolume ((10 + r) * 256 + (10 + c))
      (by rw [infVolume, List.length_replicate]; omega)
    rw [hcast, hread]
    rw [infVolume_voxel _ (by omega)] at hu
    exact (Option.some.inj hu).symm

theorem jsSum_replicate_posInf (n : Nat) :
    jsSum (List.replicate (n + 1) JSNum.posInf) = JSNum.posInf := by
  have h : ∀ m : Nat, (List.replicate m JSNum.posInf).foldl JSNum.add JSNum.posInf
      = JSNum.posInf := by
    intro m
    induction m with
    | zero => rfl
    | succ m ih => simpa [List.replicate_succ, JSNum.add] using ih
  simp only [jsSum, List.replicate_succ, List.foldl_cons, JSNum.add]
  exact h n

theorem jsSum_replicate_nan (n : Nat) :
    jsSum (List.replicate (n + 1) JSNum.nan) = JSNum.nan := by
  have h : ∀ m : Nat, (List.replicate m JSNum.nan).foldl JSNum.add JSNum.nan = JSNum.nan := by
    intro m
    induction m with
    | zero => rfl
    | succ m ih => simpa [List.replicate_succ, JSNum.add] using ih
  simp only [jsSum, List.replicate_succ, List.foldl_cons, JSNum.add]
  exact h n

theorem sqrtModel_fin_eq_zero_iff (q : ℚ) (hq : 0 ≤ q) :
    sqrtModel (JSNum.fin q) = JSNum.fin 0 ↔ q = 0 := by
  simp only [sqrtModel, if_neg (not_lt.mpr hq), JSNum.fin.injEq]
  constructor
  · intro h
    have hden : Nat.sqrt q.den ≠ 0 := by
      rw [Ne, Nat.sqrt_eq_zero]; exact q.den_nz
    rw [Rat.sqrt, Rat.mkRat_eq_zero hden] at h
    have hnum : 0 ≤ q.num := Rat.num_nonneg.mpr hq
    have h2 : Nat.sqrt q.num.toNat = 0 := by
      unfold Int.sqrt at h
      exact_mod_cast h
    rw [Nat.sqrt_eq_zero] at h2
    have h3 : q.num = 0 := by omega
    exact Rat.num_eq_zero.mp h3
  · rintro rfl
    simp [Rat.sqrt]

theorem calculateROIMean_infVolume : calculateROIMean infVolume 10 10 50 50 = JSNum.posInf := by
  rw [calculateROIMean_eq, regionSamples_infVolume, jsSum_replicate_posInf 2499]
  simp [JSNum.div, JSNum.signedInf]

/-- C14 (as stated, refuted): in the volume whose voxels are all `+Infinity`
the samples of the background region are all equal, yet the region mean is
`+Infinity`, every difference `Infinity - Infinity` is `NaN` and the standard
deviation is `NaN`, not 0. -/
theorem calculateBackgroundStd_infinite_counterexample :
    regionSamples infVolume 10 10 50 50 = List.replicate 2500 JSNum.posInf ∧
    calculateROIMean infVolume 10 10 50 50 = JSNum.posInf ∧
    calculateBackgroundStd sqrtModel infVolume = JSNum.nan ∧
    JSNum.nan ≠ JSNum.fin 0 := by
  refine ⟨regionSamples_infVolume, calculateROIMean_infVolume, ?_, by decide⟩
  rw [calculateBackgroundStd_eq, calculateROIMean_infVolume, regionSamples_infVolume,
    List.map_replicate]
  have hsq : (JSNum.posInf.sub JSNum.posInf).mul (JSNum.posInf.sub JSNum.posInf) = JSNum.nan :=
    rfl
  rw [hsq, jsSum_replicate_nan 2499]
  rfl

theorem variance_eq_zero_iff (v : Nat → Nat → ℚ) :
    (∑ r in Finset.range 50, ∑ c in Finset.range 50,
        (v (10 + r) (10 + c)
          - (∑ r in Finset.range 50, ∑ c in Finset.range 50, v (10 + r) (10 + c)) / 2500) ^ 2)
        / 2500 = 0
      ↔ ∀ r c, r < 50 → c < 50 → v (10 + r) (10 + c)
          = (∑ r in Finset.range 50, ∑ c in Finset.range 50, v (10 + r) (10 + c)) / 2500 := by
  have h2500 : (2500 : ℚ) ≠ 0 := by norm_num
  rw [div_eq_zero_iff, or_iff_left h2500,
    Finset.sum_eq_zero_iff_of_nonneg (fun r _ => Finset.sum_nonneg (fun c _ => sq_nonneg _))]
  constructor
  · intro h r c hr hc
    have hrow := h r (Finset.mem_range.mpr hr)
    rw [Finset.sum_eq_zero_iff_of_nonneg (fun c _ => sq_nonneg _)] at hrow
    have hcell := hrow c (Finset.mem_range.mpr hc)
    have := pow_eq_zero_iff (two_ne_zero) |>.mp hcell
    linarith
  · intro h r hr
    apply Finset.sum_eq_zero
    intro c hc
    rw [h r c (Finset.mem_range.mp hr) (Finset.mem_range.mp hc), sub_self]
    norm_num

theorem variance_nonneg (v : Nat → Nat → ℚ) (μ : ℚ) :
    0 ≤ (∑ r in Finset.range 50, ∑ c in Finset.range 50, (v (10 + r) (10 + c) - μ) ^ 2)
        / 2500 := by
  apply div_nonneg
  · exact Finset.sum_nonneg (fun r _ => Finset.sum_nonneg (fun c _ => sq_nonneg _))
  · norm_num

theorem mean_of_constant (v : Nat → Nat → ℚ) (a : ℚ)
    (h : ∀ r c, r < 50 → c < 50 → v (10 + r) (10 + c) = a) :
    (∑ r in Finset.range 50, ∑ c in Finset.range 50, v (10 + r) (10 + c)) / 2500 = a := by
  have hsum : ∑ r in Finset.range 50, ∑ c in Finset.range 50, v (10 + r) (10 + c)
      = ∑ r in Finset.range 50, ∑ c in Finset.range 50, a := by
    apply Finset.sum_congr rfl
    intro r hr
    apply Finset.sum_congr rfl
    intro c hc
    exact h r c (Finset.mem_range.mp hr) (Finset.mem_range.mp hc)
  rw [hsum]
  simp only [Finset.sum_const, Finset.card_range, nsmul_eq_mul]
  push_cast
  ring

/-- C14 (amended): for every volume whose background region holds finite
samples, and every square-root function that is 0 exactly at 0, the standard
deviation returned by `calculateBackgroundStd` is 0 if and only if all samples
of the region are equal, and in that case the region mean returned by
`calculateROIMean` equals every sample of the region. -/
theorem calculateBackgroundStd_zero_iff (sqrt : JSNum → JSNum) (vol : List JSNum)
    (v : Nat → Nat → ℚ)
    (hsqrt : ∀ q : ℚ, 0 ≤ q → (sqrt (JSNum.fin q) = JSNum.fin 0 ↔ q = 0))
    (hv : ∀ j i, 10 ≤ j → j < 60 → 10 ≤ i → i < 60 →
      vol[j * 256 + i]? = some (JSNum.fin (v j i))) :
    (calculateBackgroundStd sqrt vol = JSNum.fin 0 ↔
      ∀ j i j' i', 10 ≤ j → j < 60 → 10 ≤ i → i < 60 → 10 ≤ j' → j' < 60 → 10 ≤ i' → i' < 60 →
        v j i = v j' i') ∧
    (calculateBackgroundStd sqrt vol = JSNum.fin 0 →
      ∀ j i, 10 ≤ j → j < 60 → 10 ≤ i → i < 60 →
        calculateROIMean vol 10 10 50 50 = JSNum.fin (v j i)) := by
  have hv' : ∀ r c, r < 50 → c < 50 →
      vol[(10 + r) * 256 + (10 + c)]? = some (JSNum.fin (v (10 + r) (10 + c))) :=
    fun r c hr hc => hv (10 + r) (10 + c) (by omega) (by omega) (by omega) (by omega)
  have hstd := calculateBackgroundStd_finite sqrt vol v hv'
  have hmean := calculateROIMean_finite_50 vol v 10 10 hv'
  simp only [Nat.cast_ofNat] at hmean
  have hzero : calculateBackgroundStd sqrt vol = JSNum.fin 0 ↔
      ∀ r c, r < 50 → c < 50 → v (10 + r) (10 + c)
        = (∑ r in Finset.range 50, ∑ c in Finset.range 50, v (10 + r) (10 + c)) / 2500 := by
    rw [hstd, hsqrt _ (variance_nonneg v _), variance_eq_zero_iff]
  constructor
  · rw [hzero]
    constructor
    · intro h j i j' i' hj1 hj2 hi1 hi2 hj1' hj2' hi1' hi2'
      have e1 := h (j - 10) (i - 10) (by omega) (by omega)
      have e2 := h (j' - 10) (i' - 10) (by omega) (by omega)
      rw [show 10 + (j - 10) = j by omega, show 10 + (i - 10) = i by omega] at e1
      rw [show 10 + (j' - 10) = j' by omega, show 10 + (i' - 10) = i' by omega] at e2
      rw [e1, e2]
    · intro h r c hr hc
      have hconst : ∀ r' c', r' < 50 → c' < 50 → v (10 + r') (10 + c') = v (10 + r) (10 + c) :=
        fun r' c' hr' hc' => h (10 + r') (10 + c') (10 + r) (10 + c)
          (by omega) (by omega) (by omega) (by omega) (by omega) (by omega) (by omega) (by omega)
      rw [mean_of_constant v _ hconst]
  · intro h0 j i hj1 hj2 hi1 hi2
    have h := hzero.mp h0 (j - 10) (i - 10) (by omega) (by omega)
    rw [show 10 + (j - 10) = j by omega, show 10 + (i - 10) = i by omega] at h
    rw [hmean, h]

theorem phantomValue_lt (j : Nat) (hj : j < 100) : phantomValue j = 100 := by
  simp [phantomValue, hj]

theorem phantomValue_ge (j : Nat) (hj : 100 ≤ j) : phantomValue j = 200 := by
  simp [phantomValue, Nat.not_lt.mpr hj]

/-- Witness of C14 (amended): on the phantom volume, whose background region is
the constant 100, the standard deviation is 0 and the mean is 100. -/
theorem calculateBackgroundStd_zero_iff_witness :
    calculateBackgroundStd sqrtModel phantomVolume = JSNum.fin 0 ∧
    calculateROIMean phantomVolume 10 10 50 50 = JSNum.fin (phantomValue 10) :=
  have hstd : calculateBackgroundStd sqrtModel phantomVolume = JSNum.fin 0 :=
    (calculateBackgroundStd_zero_iff sqrtModel phantomVolume (fun j _ => phantomValue j)
      sqrtModel_fin_eq_zero_iff
      (fun j i _ hj _ hi => phantomVolume_voxel j i (by omega) (by omega))).1.mpr
      (fun j _ j' _ _ hj _ _ _ hj' _ _ => by
        rw [phantomValue_lt j (by omega), phantomValue_lt j' (by omega)])
  ⟨hstd,
    (calculateBackgroundStd_zero_iff sqrtModel phantomVolume (fun j _ => phantomValue j)
      sqrtModel_fin_eq_zero_iff
      (fun j i _ hj _ hi => phantomVolume_voxel j i (by omega) (by omega))).2 hstd 10 10
      (by decide) (by decide) (by decide) (by decide)⟩

/-! ## Signal-to-noise and contrast-to-noise ratios -/

theorem calculateROIMean_Ico (vol : List JSNum) (v : Nat → Nat → ℚ) (x y width height : Nat)
    (hw : 0 < width) (hh : 0 < height)
    (hv : ∀ j i, y ≤ j → j < y + height → x ≤ i → i < x + width →
      vol[j * 256 + i]? = some (JSNum.fin (v j i))) :
    calculateROIMean vol x y width height
      = JSNum.fin ((∑ j in Finset.Ico y (y + height), ∑ i in Finset.Ico x (x + width), v j i)
          / ((height * width : Nat) : ℚ)) := by
  rw [sum_Ico_grid]
  exact calculateROIMean_finite vol v x y width height hw hh
    (fun r c hr hc => hv (y + r) (x + c) (by omega) (by omega) (by omega) (by omega))

theorem calculateBackgroundStd_Ico (sqrt : JSNum → JSNum) (vol : List JSNum)
    (v : Nat → Nat → ℚ)
    (hv : ∀ j i, 10 ≤ j → j < 60 → 10 ≤ i → i < 60 →
      vol[j * 256 + i]? = some (JSNum.fin (v j i))) :
    calculateBackgroundStd sqrt vol
      = sqrt (JSNum.fin ((∑ j in Finset.Ico 10 60, ∑ i in Finset.Ico 10 60,
          (v j i - (∑ j in Finset.Ico 10 60, ∑ i in Finset.Ico 10 60, v j i) / 2500) ^ 2)
          / 2500)) := by
  have hv' : ∀ r c, r < 50 → c < 50 →
      vol[(10 + r) * 256 + (10 + c)]? = some (JSNum.fin (v (10 + r) (10 + c))) :=
    fun r c hr hc => hv (10 + r) (10 + c) (by omega) (by omega) (by omega) (by omega)
  have hico : Finset.Ico 10 60 = Finset.Ico 10 (10 + 50) := rfl
  rw [hico, sum_Ico_grid v 10 10 50 50,
    sum_Ico_grid (fun j i => (v j i - (∑ r in Finset.range 50, ∑ c in Finset.range 50,
      v (10 + r) (10 + c)) / 2500) ^ 2) 10 10 50 50]
  exact calculateBackgroundStd_finite sqrt vol v hv'

theorem div_fin_fin (a b : ℚ) (hb : b ≠ 0) :
    (JSNum.fin a).div (JSNum.fin b) = JSNum.fin (a / b) := by
  simp [JSNum.div, hb]

/-- C15: `calculateSNR` returns the mean of the signal region (100, 100, 50, 50)
divided by the standard deviation of the background region (10, 10, 50, 50);
on finite samples, when that standard deviation is a non-zero `s`, the result
is the signal mean divided by `s`. -/
theorem calculateSNR_spec (sqrt : JSNum → JSNum) (vol : List JSNum) :
    getBackgroundRegion = { x := 10, y := 10, width := 50, height := 50 } ∧
    calculateSNR sqrt vol
      = (calculateROIMean vol 100 100 50 50).div (calculateBackgroundStd sqrt vol) ∧
    (∀ (v : Nat → Nat → ℚ) (s : ℚ),
      (∀ j i, 100 ≤ j → j < 150 → 100 ≤ i → i < 150 →
        vol[j * 256 + i]? = some (JSNum.fin (v j i))) →
      (∀ j i, 10 ≤ j → j < 60 → 10 ≤ i → i < 60 →
        vol[j * 256 + i]? = some (JSNum.fin (v j i))) →
      sqrt (JSNum.fin ((∑ j in Finset.Ico 10 60, ∑ i in Finset.Ico 10 60,
          (v j i - (∑ j in Finset.Ico 10 60, ∑ i in Finset.Ico 10 60, v j i) / 2500) ^ 2)
          / 2500)) = JSNum.fin s →
      s ≠ 0 →
      calculateSNR sqrt vol
        = JSNum.fin ((∑ j in Finset.Ico 100 150, ∑ i in Finset.Ico 100 150, v j i) / 2500 / s))
    := by
  refine ⟨rfl, rfl, ?_⟩
  intro v s hS hB hs hs0
  have hmean := calculateROIMean_Ico vol v 100 100 50 50 (by decide) (by decide) hS
  have hstd := calculateBackgroundStd_Ico sqrt vol v hB
  simp only [Nat.cast_ofNat] at hmean
  have h2500 : ((50 * 50 : Nat) : ℚ) = 2500 := by norm_num
  rw [h2500] at hmean
  show (calculateROIMean vol 100 100 50 50).div (calculateBackgroundStd sqrt vol) = _
  rw [hmean, hstd, hs, div_fin_fin _ _ hs0]

theorem sqrtModel_one : sqrtModel (JSNum.fin 1) = JSNum.fin 1 := by
  have h := Rat.sqrt_eq 1
  simp only [mul_one, abs_one] at h
  simp [sqrtModel, h]

theorem rowVolume_backgroundMean :
    (∑ j in Finset.Ico 10 60, ∑ _i in Finset.Ico 10 60, rowValue j) / 2500 = 1 := by
  simp only [Finset.sum_const, Nat.card_Ico, nsmul_eq_mul]
  rw [Finset.sum_Ico_eq_sum_range]
  simp only [Finset.sum_range_succ, Finset.sum_range_zero, rowValue]
  norm_num

theorem rowVolume_backgroundVariance :
    (∑ j in Finset.Ico 10 60, ∑ _i in Finset.Ico 10 60,
      (rowValue j - (∑ j in Finset.Ico 10 60, ∑ _i in Finset.Ico 10 60, rowValue j) / 2500) ^ 2)
      / 2500 = 1 := by
  rw [rowVolume_backgroundMean]
  simp only [Finset.sum_const, Nat.card_Ico, nsmul_eq_mul]
  rw [Finset.sum_Ico_eq_sum_range]
  simp only [Finset.sum_range_succ, Finset.sum_range_zero, rowValue]
  norm_num

/-- Witness of C15 on the row volume: signal mean 8, background deviation 1. -/
theorem calculateSNR_spec_witness :
    calculateSNR sqrtModel rowVolume
      = JSNum.fin ((∑ j in Finset.Ico 100 150, ∑ _i in Finset.Ico 100 150, rowValue j)
          / 2500 / 1) :=
  (calculateSNR_spec sqrtModel rowVolume).2.2 (fun j _ => rowValue j) 1
    (fun j i _ hj _ hi => rowVolume_voxel j i (by omega) (by omega))
    (fun j i _ hj _ hi => rowVolume_voxel j i (by omega) (by omega))
    (by rw [rowVolume_backgroundVariance]; exact sqrtModel_one)
    one_ne_zero

theorem rowVolume_mean_background : calculateROIMean rowVolume 10 10 50 50 = JSNum.fin 1 := by
  have h := calculateROIMean_Ico rowVolume (fun j _ => rowValue j) 10 10 50 50 (by decide)
    (by decide) (fun j i _ hj _ hi => rowVolume_voxel j i (by omega) (by omega))
  simp only [Nat.cast_ofNat] at h
  rw [h]
  refine congrArg JSNum.fin ?_
  have h2500 : ((50 * 50 : Nat) : ℚ) = 2500 := by norm_num
  rw [h2500]
  exact rowVolume_backgroundMean

theorem rowVolume_std : calculateBackgroundStd sqrtModel rowVolume = JSNum.fin 1 := by
  rw [calculateBackgroundStd_Ico sqrtModel rowVolume (fun j _ => rowValue j)
    (fun j i _ hj _ hi => rowVolume_voxel j i (by omega) (by omega)),
    rowVolume_backgroundVariance]
  exact sqrtModel_one

theorem rowVolume_mean_tissue : calculateROIMean rowVolume 120 120 30 30 = JSNum.fin 10 := by
  have h := calculateROIMean_Ico rowVolume (fun j _ => rowValue j) 120 120 30 30 (by decide)
    (by decide) (fun j i _ hj _ hi => rowVolume_voxel j i (by omega) (by omega))
  simp only [Nat.cast_ofNat] at h
  rw [h]
  refine congrArg JSNum.fin ?_
  simp only [Finset.sum_const, Nat.card_Ico, nsmul_eq_mul]
  rw [Finset.sum_Ico_eq_sum_range]
  simp only [Finset.sum_range_succ, Finset.sum_range_zero, rowValue]
  norm_num

theorem rowVolume_mean_100 : calculateROIMean rowVolume 100 100 30 30 = JSNum.fin (20 / 3) := by
  have h := calculateROIMean_Ico rowVolume (fun j _ => rowValue j) 100 100 30 30 (by decide)
    (by decide) (fun j i _ hj _ hi => rowVolume_voxel j i (by omega) (by omega))
  simp only [Nat.cast_ofNat] at h
  rw [h]
  refine congrArg JSNum.fin ?_
  simp only [Finset.sum_const, Nat.card_Ico, nsmul_eq_mul]
  rw [Finset.sum_Ico_eq_sum_range]
  simp only [Finset.sum_range_succ, Finset.sum_range_zero, rowValue]
  norm_num

/-- C16 (as stated, refuted): on the row volume the mean of the rectangle
(100, 100, 30, 30) that `calculateCNR` subtracts is 20/3, the mean of the
rectangle (10, 10, 50, 50) of `getBackgroundRegion`, over which the deviation
is computed, is 1; the tissue mean is 10 and the deviation is 1. The function
returns 10/3, while the ratio taken with the background region's own mean
is 9. -/
theorem calculateCNR_backgroundRegion_counterexample :
    getBackgroundRegion = { x := 10, y := 10, width := 50, height := 50 } ∧
    calculateROIMean rowVolume 120 120 30 30 = JSNum.fin 10 ∧
    calculateROIMean rowVolume 100 100 30 30 = JSNum.fin (20 / 3) ∧
    calculateROIMean rowVolume 10 10 50 50 = JSNum.fin 1 ∧
    calculateBackgroundStd sqrtModel rowVolume = JSNum.fin 1 ∧
    calculateCNR sqrtModel rowVolume = JSNum.fin (10 / 3) ∧
    ((calculateROIMean rowVolume 120 120 30 30).sub (calculateROIMean rowVolume 10 10 50 50)).abs.div
        (calculateBackgroundStd sqrtModel rowVolume) = JSNum.fin 9 := by
  refine ⟨rfl, rowVolume_mean_tissue, rowVolume_mean_100,
    rowVolume_mean_background, rowVolume_std, ?_, ?_⟩
  · show ((calculateROIMean rowVolume 120 120 30 30).sub
        (calculateROIMean rowVolume 100 100 30 30)).abs.div
          (calculateBackgroundStd sqrtModel rowVolume) = _
    rw [rowVolume_mean_tissue, rowVolume_mean_100, rowVolume_std]
    simp only [JSNum.sub, JSNum.abs]
    rw [div_fin_fin _ _ one_ne_zero]
    refine congrArg JSNum.fin ?_
    rw [abs_of_nonneg (by norm_num)]
    norm_num
  · rw [rowVolume_mean_tissue, rowVolume_mean_background, rowVolume_std]
    simp only [JSNum.sub, JSNum.abs]
    rw [div_fin_fin _ _ one_ne_zero]
    refine congrArg JSNum.fin ?_
    rw [abs_of_nonneg (by norm_num)]
    norm_num

/-- C16 (amended): `calculateCNR` returns the absolute difference between the
mean of the rectangle (120, 120, 30, 30) and the mean of the rectangle
(100, 100, 30, 30), divided by the standard deviation of the rectangle
(10, 10, 50, 50) of `getBackgroundRegion`; on finite samples, when that
deviation is a non-zero `s`, the result is that absolute difference divided
by `s`. -/
theorem calculateCNR_spec (sqrt : JSNum → JSNum) (vol : List JSNum) :
    getBackgroundRegion = { x := 10, y := 10, width := 50, height := 50 } ∧
    calculateCNR sqrt vol
      = ((calculateROIMean vol 120 120 30 30).sub (calculateROIMean vol 100 100 30 30)).abs.div
          (calculateBackgroundStd sqrt vol) ∧
    (∀ (v : Nat → Nat → ℚ) (s : ℚ),
      (∀ j i, 120 ≤ j → j < 150 → 120 ≤ i → i < 150 →
        vol[j * 256 + i]? = some (JSNum.fin (v j i))) →
      (∀ j i, 100 ≤ j → j < 130 → 100 ≤ i → i < 130 →
        vol[j * 256 + i]? = some (JSNum.fin (v j i))) →
      (∀ j i, 10 ≤ j → j < 60 → 10 ≤ i → i < 60 →
        vol[j * 256 + i]? = some (JSNum.fin (v j i))) →
      sqrt (JSNum.fin ((∑ j in Finset.Ico 10 60, ∑ i in Finset.Ico 10 60,
          (v j i - (∑ j in Finset.Ico 10 60, ∑ i in Finset.Ico 10 60, v j i) / 2500) ^ 2)
          / 2500)) = JSNum.fin s →
      s ≠ 0 →
      calculateCNR sqrt vol
        = JSNum.fin (|(∑ j in Finset.Ico 120 150, ∑ i in Finset.Ico 120 150, v j i) / 900
            - (∑ j in Finset.Ico 100 130, ∑ i in Finset.Ico 100 130, v j i) / 900| / s)) := by
  refine ⟨rfl, rfl, ?_⟩
  intro v s hT hR hB hs hs0
  have hmT := calculateROIMean_Ico vol v 120 120 30 30 (by decide) (by decide) hT
  have hmR := calculateROIMean_Ico vol v 100 100 30 30 (by decide) (by decide) hR
  have hstd := calculateBackgroundStd_Ico sqrt vol v hB
  simp only [Nat.cast_ofNat] at hmT hmR
  have h900 : ((30 * 30 : Nat) : ℚ) = 900 := by norm_num
  rw [h900] at hmT hmR
  show ((calculateROIMean vol 120 120 30 30).sub (calculateROIMean vol 100 100 30 30)).abs.div
    (calculateBackgroundStd sqrt vol) = _
  rw [hmT, hmR, hstd, hs]
  simp only [JSNum.sub, JSNum.abs]
  exact div_fin_fin _ _ hs0

/-- Witness of C16 (amended) on the row volume, whose background deviation is 1. -/
theorem calculateCNR_spec_witness :
    calculateCNR sqrtModel rowVolume
      = JSNum.fin (|(∑ j in Finset.Ico 120 150, ∑ _i in Finset.Ico 120 150, rowValue j) / 900
          - (∑ j in Finset.Ico 100 130, ∑ _i in Finset.Ico 100 130, rowValue j) / 900| / 1) :=
  (calculateCNR_spec sqrtModel rowVolume).2.2 (fun j _ => rowValue j) 1
    (fun j i _ hj _ hi => rowVolume_voxel j i (by omega) (by omega))
    (fun j i _ hj _ hi => rowVolume_voxel j i (by omega) (by omega))
    (fun j i _ hj _ hi => rowVolume_voxel j i (by omega) (by omega))
    (by rw [rowVolume_backgroundVariance]; exact sqrtModel_one)
    one_ne_zero

/-! ## Constant metrics and the artifact score -/

theorem min_fin_fin (a b : ℚ) :
    JSNum.min (JSNum.fin a) (JSNum.fin b) = if a ≤ b then JSNum.fin a else JSNum.fin b := by
  simp [JSNum.min, JSNum.le]

theorem artifactScoreOf_fin (s r m : ℚ) :
    artifactScoreOf (JSNum.fin s) (JSNum.fin r) (JSNum.fin m)
      = JSNum.fin (min (0.3 * s + 0.3 * r + 0.4 * m) 1) := by
  simp only [artifactScoreOf, JSNum.add, JSNum.mul, min_fin_fin]
  have hsum : 0 + s * 0.3 + r * 0.3 + m * 0.4 = 0.3 * s + 0.3 * r + 0.4 * m := by ring
  have hone : (1.0 : ℚ) = 1 := by norm_num
  rw [hsum, hone]
  by_cases h : 0.3 * s + 0.3 * r + 0.4 * m ≤ 1
  · rw [if_pos h, min_eq_left h]
  · rw [if_neg h, min_eq_right (le_of_not_le h)]

theorem calculateArtifactScore_value : calculateArtifactScore = JSNum.fin 0.105 := by
  rw [calculateArtifactScore, detectStreakArtifacts, detectRingArtifacts, detectMotionArtifacts,
    artifactScoreOf_fin]
  refine congrArg JSNum.fin ?_
  norm_num

/-- C17: for every pair of volumes (and of volume dimensions)
`calculateQualityMetrics` returns a report, and the two reports have the same
`spatialResolution` 0.5, the same `contrastResolution` 10 and the same
`artifactScore` 0.105. -/
theorem calculateQualityMetrics_constants (sqrt : JSNum → JSNum) (vol1 vol2 : List JSNum)
    (size1 size2 : VolumeSize) :
    ∃ m1 m2, calculateQualityMetrics sqrt ⟨some vol1, size1⟩ = some m1 ∧
      calculateQualityMetrics sqrt ⟨some vol2, size2⟩ = some m2 ∧
      m1.spatialResolution = JSNum.fin 0.5 ∧ m2.spatialResolution = JSNum.fin 0.5 ∧
      m1.contrastResolution = JSNum.fin 10 ∧ m2.contrastResolution = JSNum.fin 10 ∧
      m1.artifactScore = JSNum.fin 0.105 ∧ m2.artifactScore = JSNum.fin 0.105 ∧
      m1.spatialResolution = m2.spatialResolution ∧
      m1.contrastResolution = m2.contrastResolution ∧
      m1.artifactScore = m2.artifactScore :=
  ⟨_, _, rfl, rfl, rfl, rfl, rfl, rfl, calculateArtifactScore_value,
    calculateArtifactScore_value, rfl, rfl, rfl⟩

/-- C18: for the triple of sub-scores the three artifact detectors return,
`calculateArtifactScore` returns `0.3*streak + 0.3*ring + 0.4*motion` clamped to
the interval [0, 1], a value between 0 and 1; that triple is (0.1, 0.05, 0.15)
and the result is 0.105. The body of the function returns the clamped weighted
sum for every triple of finite sub-scores that are not negative, as the values
of the detectors are. -/
theorem calculateArtifactScore_spec (streak ring motion : ℚ)
    (hs : detectStreakArtifacts = JSNum.fin streak)
    (hr : detectRingArtifacts = JSNum.fin ring)
    (hm : detectMotionArtifacts = JSNum.fin motion) :
    calculateArtifactScore
      = JSNum.fin (max 0 (min (0.3 * streak + 0.3 * ring + 0.4 * motion) 1)) ∧
    (JSNum.fin 0).le calculateArtifactScore = true ∧
    calculateArtifactScore.le (JSNum.fin 1) = true ∧
    streak = 0.1 ∧ ring = 0.05 ∧ motion = 0.15 ∧
    calculateArtifactScore = JSNum.fin 0.105 ∧
    (∀ s r m : ℚ, 0 ≤ s → 0 ≤ r → 0 ≤ m →
      artifactScoreOf (JSNum.fin s) (JSNum.fin r) (JSNum.fin m)
        = JSNum.fin (max 0 (min (0.3 * s + 0.3 * r + 0.4 * m) 1))) := by
  have hgen : ∀ s r m : ℚ, 0 ≤ s → 0 ≤ r → 0 ≤ m →
      artifactScoreOf (JSNum.fin s) (JSNum.fin r) (JSNum.fin m)
        = JSNum.fin (max 0 (min (0.3 * s + 0.3 * r + 0.4 * m) 1)) := by
    intro s r m h0s h0r h0m
    rw [artifactScoreOf_fin]
    refine congrArg JSNum.fin ?_
    have hsum : 0 ≤ 0.3 * s + 0.3 * r + 0.4 * m := by linarith
    exact (max_eq_right (le_min hsum zero_le_one)).symm
  have hstreak : streak = 0.1 := by
    rw [detectStreakArtifacts] at hs
    exact (JSNum.fin.inj hs).symm
  have hring : ring = 0.05 := by
    rw [detectRingArtifacts] at hr
    exact (JSNum.fin.inj hr).symm
  have hmotion : motion = 0.15 := by
    rw [detectMotionArtifacts] at hm
    exact (JSNum.fin.inj hm).symm
  have hvalue : calculateArtifactScore
      = JSNum.fin (max 0 (min (0.3 * streak + 0.3 * ring + 0.4 * motion) 1)) := by
    rw [calculateArtifactScore, hs, hr, hm]
    exact hgen streak ring motion (by rw [hstreak]; norm_num) (by rw [hring]; norm_num)
      (by rw [hmotion]; norm_num)
  refine ⟨hvalue, ?_, ?_, hstreak, hring, hmotion, calculateArtifactScore_value, hgen⟩
  · rw [calculateArtifactScore_value]
    norm_num [JSNum.le]
  · rw [calculateArtifactScore_value]
    norm_num [JSNum.le]

/-- Witness of C18: the detector values of the source. -/
theorem calculateArtifactScore_spec_witness :
    detectStreakArtifacts = JSNum.fin 0.1 ∧ detectRingArtifacts = JSNum.fin 0.05 ∧
    detectMotionArtifacts = JSNum.fin 0.15 ∧
    calculateArtifactScore = JSNum.fin (max 0 (min (0.3 * 0.1 + 0.3 * 0.05 + 0.4 * 0.15) 1)) ∧
    calculateArtifactScore = JSNum.fin 0.105 :=
  ⟨rfl, rfl, rfl, (calculateArtifactScore_spec 0.1 0.05 0.15 rfl rfl rfl).1,
    (calculateArtifactScore_spec 0.1 0.05 0.15 rfl rfl rfl).2.2.2.2.2.2.1⟩

/-! ## Crosshair navigation -/

/-- C19 (as stated, refuted): with slice navigation disabled the call
`updateCrosshairPosition(5.5, 6.5, 7.5)` stores the position and leaves the
three slice indices at their old value 0, although `floor(7.5)` is 7. -/
theorem updateCrosshairPosition_disabled_counterexample :
    updateCrosshairPosition
        { crosshairPosition := ⟨JSNum.fin 0, JSNum.fin 0, JSNum.fin 0⟩,
          sliceNavigationEnabled := false,
          currentSlice := ⟨JSNum.fin 0, JSNum.fin 0, JSNum.fin 0⟩ }
        (JSNum.fin 5.5) (JSNum.fin 6.5) (JSNum.fin 7.5)
      = { crosshairPosition := ⟨JSNum.fin 5.5, JSNum.fin 6.5, JSNum.fin 7.5⟩,
          sliceNavigationEnabled := false,
          currentSlice := ⟨JSNum.fin 0, JSNum.fin 0, JSNum.fin 0⟩ } ∧
    JSNum.floor (JSNum.fin 7.5) = JSNum.fin 7 ∧ JSNum.fin 7 ≠ JSNum.fin 0 := by
  refine ⟨rfl, ?_, ?_⟩
  · simp only [JSNum.floor]
    refine congrArg JSNum.fin ?_
    have h : Int.floor (7.5 : ℚ) = 7 := by
      rw [Int.floor_eq_iff]
      constructor <;> norm_num
    rw [h]
    norm_num
  · intro h
    have := JSNum.fin.inj h
    norm_num at this

/-- C19 (amended): after every call `updateCrosshairPosition(x, y, z)` the
stored position is (x, y, z), without any validation. When
`sliceNavigationEnabled` holds, the three slice indices are recomputed together
as axial = floor(z), coronal = floor(y), sagittal = floor(x); when it does not
hold, the three indices keep their previous values. -/
theorem updateCrosshairPosition_spec (self : CrosshairState) (x y z : JSNum) :
    (updateCrosshairPosition self x y z).crosshairPosition = { x := x, y := y, z := z } ∧
    (updateCrosshairPosition self x y z).sliceNavigationEnabled = self.sliceNavigationEnabled ∧
    (self.sliceNavigationEnabled = true →
      (updateCrosshairPosition self x y z).currentSlice
        = { axial := JSNum.floor z, coronal := JSNum.floor y, sagittal := JSNum.floor x }) ∧
    (self.sliceNavigationEnabled = false →
      (updateCrosshairPosition self x y z).currentSlice = self.currentSlice) ∧
    (∀ q : ℚ, JSNum.floor (JSNum.fin q) = JSNum.fin ((Int.floor q : Int) : ℚ)) := by
  refine ⟨?_, ?_, ?_, ?_, fun _ => rfl⟩
  · cases h : self.sliceNavigationEnabled <;> simp [updateCrosshairPosition, h]
  · cases h : self.sliceNavigationEnabled <;> simp [updateCrosshairPosition, h]
  · intro h
    simp [updateCrosshairPosition, h]
  · intro h
    simp [updateCrosshairPosition, h]

/-- Witness of C19 (amended) with slice navigation enabled. -/
theorem updateCrosshairPosition_spec_witness :
    (updateCrosshairPosition
        { crosshairPosition := ⟨JSNum.fin 0, JSNum.fin 0, JSNum.fin 0⟩,
          sliceNavigationEnabled := true,
          currentSlice := ⟨JSNum.fin 0, JSNum.fin 0, JSNum.fin 0⟩ }
        (JSNum.fin 5.5) (JSNum.fin (-6.5)) (JSNum.fin 7.5)).currentSlice
      = { axial := JSNum.floor (JSNum.fin 7.5), coronal := JSNum.floor (JSNum.fin (-6.5)),
          sagittal := JSNum.floor (JSNum.fin 5.5) } :=
  (updateCrosshairPosition_spec _ _ _ _).2.2.1 rfl

/-! ## Export -/

theorem pushLoop_eq_map {α : Type} (f : Nat → α) (n : Nat) (init : List α) :
    (List.range n).foldl (fun (slices : List α) (k : Nat) => slices ++ [f k]) init
      = init ++ (List.range n).map f := by
  induction n with
  | zero => simp
  | succ n ih =>
    rw [List.range_succ, List.foldl_append, ih]
    simp

theorem exportAsDICOM_some (sqrt : JSNum → JSNum) (vol : List JSNum) (size : VolumeSize) :
    exportAsDICOM sqrt ⟨some vol, size⟩
      = Except.ok { format := "dicom",
                    slices := some ((List.range size.z).map
                      (fun (k : Nat) => extractAxialSlice size vol (k : Int))),
                    volume := none, parameters := size,
                    qualityMetrics := some (calculateQualityMetrics sqrt ⟨some vol, size⟩) } := by
  simp only [exportAsDICOM]
  rw [pushLoop_eq_map (fun (k : Nat) => extractAxialSlice size vol (k : Int))]
  simp

/-- C20: on a processor that holds a volume, `exportReconstruction` returns
for 'dicom' a bundle tagged 'dicom' with exactly z slices, slice k being
`extractAxialSlice(k)`, the parameters and the quality metrics; for 'nifti' a
bundle tagged 'nifti' with the voxel buffer, the parameters and the quality
metrics; for 'raw' a bundle tagged 'raw' with the voxel buffer and the
parameters and without quality metrics; for any other value, or without
argument, the 'dicom' bundle. -/
theorem exportReconstruction_spec (sqrt : JSNum → JSNum) (vol : List JSNum)
    (size : VolumeSize) :
    (∃ b slices m, exportReconstruction sqrt ⟨some vol, size⟩ (some "dicom") = Except.ok b ∧
      b.format = "dicom" ∧ b.slices = some slices ∧ slices.length = size.z ∧
      (∀ k : Nat, k < size.z → slices[k]? = some (extractAxialSlice size vol (k : Int))) ∧
      b.volume = none ∧ b.parameters = size ∧ b.qualityMetrics = some (some m) ∧
      calculateQualityMetrics sqrt ⟨some vol, size⟩ = some m) ∧
    (∃ b m, exportReconstruction sqrt ⟨some vol, size⟩ (some "nifti") = Except.ok b ∧
      b.format = "nifti" ∧ b.slices = none ∧ b.volume = some (some vol) ∧
      b.parameters = size ∧ b.qualityMetrics = some (some m) ∧
      calculateQualityMetrics sqrt ⟨some vol, size⟩ = some m) ∧
    (∃ b, exportReconstruction sqrt ⟨some vol, size⟩ (some "raw") = Except.ok b ∧
      b.format = "raw" ∧ b.slices = none ∧ b.volume = some (some vol) ∧
      b.parameters = size ∧ b.qualityMetrics = none) ∧
    (∀ format : Option String, format ≠ some "nifti" → format ≠ some "raw" →
      exportReconstruction sqrt ⟨some vol, size⟩ format
        = exportReconstruction sqrt ⟨some vol, size⟩ (some "dicom")) := by
  have hd : exportReconstruction sqrt ⟨some vol, size⟩ (some "dicom")
      = exportAsDICOM sqrt ⟨some vol, size⟩ := by
    simp [exportReconstruction]
  refine ⟨?_, ?_, ?_, ?_⟩
  · refine ⟨_, _, _, hd.trans (exportAsDICOM_some sqrt vol size), rfl, rfl, ?_, ?_, rfl, rfl,
      rfl, rfl⟩
    · simp
    · intro k hk
      simp [List.getElem?_map, List.getElem?_range hk]
  · have h1 : ¬ ("nifti" = "dicom") := by decide
    refine ⟨exportAsNIFTI sqrt ⟨some vol, size⟩, _, ?_, rfl, rfl, rfl, rfl, rfl, rfl⟩
    simp [exportReconstruction, h1]
  · have h1 : ¬ ("raw" = "dicom") := by decide
    have h2 : ¬ ("raw" = "nifti") := by decide
    refine ⟨exportAsRaw ⟨some vol, size⟩, ?_, rfl, rfl, rfl, rfl, rfl⟩
    simp [exportReconstruction, h1, h2]
  · intro format hn hr
    rw [hd]
    cases format with
    | none => simp [exportReconstruction]
    | some f =>
      have hn' : f ≠ "nifti" := fun h => hn (by rw [h])
      have hr' : f ≠ "raw" := fun h => hr (by rw [h])
      simp [exportReconstruction, hn', hr']

/-- Witness of C20: the 'dicom' export of the 2x2x3 volume has three slices. -/
theorem exportReconstruction_spec_witness :
    ∃ b slices m, exportReconstruction sqrtModel ⟨some volume223, ⟨2, 2, 3⟩⟩ (some "dicom")
        = Except.ok b ∧
      b.format = "dicom" ∧ b.slices = some slices ∧ slices.length = 3 ∧
      (∀ k : Nat, k < 3 → slices[k]? = some (extractAxialSlice ⟨2, 2, 3⟩ volume223 (k : Int))) ∧
      b.volume = none ∧ b.parameters = ⟨2, 2, 3⟩ ∧ b.qualityMetrics = some (some m) ∧
      calculateQualityMetrics sqrtModel ⟨some volume223, ⟨2, 2, 3⟩⟩ = some m :=
  (exportReconstruction_spec sqrtModel volume223 ⟨2, 2, 3⟩).1

/-! ## Orientations compared -/

theorem readVoxel_getElem? (vol : List JSNum) (n : Nat) (h : n < vol.length) :
    some (readVoxel vol (n : Int)) = vol[n]? := by
  obtain ⟨v, hv, hr⟩ := readVoxel_inBounds vol n h
  rw [hv, hr]

theorem extractAxialSlice_getElem? (size : VolumeSize) (vol : List JSNum) (index i j : Nat)
    (hvol : vol.length = size.x * size.y * size.z)
    (hindex : index < size.z) (hi : i < size.x) (hj : j < size.y) :
    (extractAxialSlice size vol index)[j * size.x + i]?
      = vol[index * size.x * size.y + j * size.x + i]? := by
  have hlt : index * size.x * size.y + j * size.x + i < vol.length := by
    rw [hvol]; exact linearIndex_lt _ _ _ i j index hi hj hindex
  rw [extractAxialSlice_sample size vol index i j hi hj, ← readVoxel_getElem? vol _ hlt]
  push_cast
  rfl

theorem extractCoronalSlice_getElem? (size : VolumeSize) (vol : List JSNum) (index i k : Nat)
    (hvol : vol.length = size.x * size.y * size.z)
    (hindex : index < size.y) (hi : i < size.x) (hk : k < size.z) :
    (extractCoronalSlice size vol index)[k * size.x + i]?
      = vol[k * size.x * size.y + index * size.x + i]? := by
  have hlt : k * size.x * size.y + index * size.x + i < vol.length := by
    rw [hvol]; exact linearIndex_lt _ _ _ i index k hi hindex hk
  rw [extractCoronalSlice_sample size vol index i k hi hk, ← readVoxel_getElem? vol _ hlt]
  push_cast
  rfl

theorem extractSagittalSlice_getElem? (size : VolumeSize) (vol : List JSNum) (index j k : Nat)
    (hvol : vol.length = size.x * size.y * size.z)
    (hindex : index < size.x) (hj : j < size.y) (hk : k < size.z) :
    (extractSagittalSlice size vol index)[k * size.y + j]?
      = vol[k * size.x * size.y + j * size.x + index]? := by
  have hlt : k * size.x * size.y + j * size.x + index < vol.length := by
    rw [hvol]; exact linearIndex_lt _ _ _ index j k hindex hj hk
  rw [extractSagittalSlice_sample size vol index j k hj hk, ← readVoxel_getElem? vol _ hlt]
  push_cast
  rfl

/-- C21 (as stated, refuted): the 4x4x4 volume with voxel (i, j, k) = i + j + k
is not constant, yet at index 2 the axial, the coronal and the sagittal
extraction return the same sample sequence. -/
theorem orientations_identical_counterexample :
    volume444[0]? = some (JSNum.fin 0) ∧ volume444[1]? = some (JSNum.fin 1) ∧
    extractAxialSlice ⟨4, 4, 4⟩ volume444 2 = extractCoronalSlice ⟨4, 4, 4⟩ volume444 2 ∧
    extractAxialSlice ⟨4, 4, 4⟩ volume444 2 = extractSagittalSlice ⟨4, 4, 4⟩ volume444 2 ∧
    extractCoronalSlice ⟨4, 4, 4⟩ volume444 2 = extractSagittalSlice ⟨4, 4, 4⟩ volume444 2 := by
  refine ⟨by decide, by decide, by decide, by decide, by decide⟩

/-- C21 (amended): for every volume of dimensions at least 2 in each direction
whose x*y*z voxels are pairwise distinct, and every index valid for two
different orientations, the sample sequences extracted at that index in the two
orientations (axial and coronal, axial and sagittal, coronal and sagittal)
differ. -/
theorem orientations_differ (size : VolumeSize) (vol : List JSNum) (index : Nat)
    (hvol : vol.length = size.x * size.y * size.z)
    (hx : 2 ≤ size.x) (hy : 2 ≤ size.y) (hz : 2 ≤ size.z)
    (hinj : ∀ m n, m < vol.length → n < vol.length → vol[m]? = vol[n]? → m = n) :
    (index < size.z → index < size.y →
      extractAxialSlice size vol index ≠ extractCoronalSlice size vol index) ∧
    (index < size.z → index < size.x →
      extractAxialSlice size vol index ≠ extractSagittalSlice size vol index) ∧
    (index < size.y → index < size.x →
      extractCoronalSlice size vol index ≠ extractSagittalSlice size vol index) := by
  have key : ∀ m n, m < size.x * size.y * size.z → n < size.x * size.y * size.z → m ≠ n → vol[m]? ≠ vol[n]? :=
    fun m n hm hn hne h => hne (hinj m n (by rw [hvol]; exact hm) (by rw [hvol]; exact hn) h)
  refine ⟨?_, ?_, ?_⟩
  · intro hiz hiy heq
    by_cases h0 : index = 0
    · subst h0
      have ha := extractAxialSlice_getElem? size vol 0 0 1 hvol (by omega) (by omega)
        (by omega)
      have hc := extractCoronalSlice_getElem? size vol 0 0 1 hvol (by omega) (by omega)
        (by omega)
      simp only at ha hc
      rw [heq, hc] at ha
      have h1 : 1 * size.x * size.y + 0 * size.x + 0 < size.x * size.y * size.z :=
        linearIndex_lt size.x size.y size.z 0 0 1 (by omega) (by omega) (by omega)
      have h2 : 0 * size.x * size.y + 1 * size.x + 0 < size.x * size.y * size.z :=
        linearIndex_lt size.x size.y size.z 0 1 0 (by omega) (by omega) (by omega)
      have hne : 1 * size.x * size.y + 0 * size.x + 0 ≠ 0 * size.x * size.y + 1 * size.x + 0 := by
        have : size.x * 2 ≤ size.x * size.y := Nat.mul_le_mul_left size.x hy
        simp only [Nat.one_mul, Nat.zero_mul, Nat.add_zero, Nat.zero_add]
        omega
      exact key _ _ h1 h2 hne ha
    · have ha := extractAxialSlice_getElem? size vol index 0 0 hvol hiz (by omega)
        (by omega)
      have hc := extractCoronalSlice_getElem? size vol index 0 0 hvol hiy (by omega)
        (by omega)
      simp only at ha hc
      rw [heq, hc] at ha
      have h1 : 0 * size.x * size.y + index * size.x + 0 < size.x * size.y * size.z :=
        linearIndex_lt size.x size.y size.z 0 index 0 (by omega) hiy (by omega)
      have h2 : index * size.x * size.y + 0 * size.x + 0 < size.x * size.y * size.z :=
        linearIndex_lt size.x size.y size.z 0 0 index (by omega) (by omega) hiz
      have hne : 0 * size.x * size.y + index * size.x + 0 ≠ index * size.x * size.y + 0 * size.x + 0 := by
        have h3 : index * size.x * 2 ≤ index * size.x * size.y := Nat.mul_le_mul_left (index * size.x) hy
        have h4 : 1 * 1 ≤ index * size.x := Nat.mul_le_mul (by omega) (by omega)
        simp only [Nat.zero_mul, Nat.add_zero, Nat.zero_add]
        omega
      exact key _ _ h1 h2 hne ha
  · intro hiz hix heq
    by_cases h0 : index = 0
    · subst h0
      have ha := extractAxialSlice_getElem? size vol 0 1 0 hvol (by omega) (by omega)
        (by omega)
      have hs := extractSagittalSlice_getElem? size vol 0 1 0 hvol (by omega) (by omega)
        (by omega)
      simp only [Nat.zero_mul, Nat.zero_add] at ha hs
      rw [heq, hs] at ha
      have h1 : 0 * size.x * size.y + 1 * size.x + 0 < size.x * size.y * size.z :=
        linearIndex_lt size.x size.y size.z 0 1 0 (by omega) (by omega) (by omega)
      have h2 : 0 * size.x * size.y + 0 * size.x + 1 < size.x * size.y * size.z :=
        linearIndex_lt size.x size.y size.z 1 0 0 (by omega) (by omega) (by omega)
      simp only [Nat.zero_mul, Nat.zero_add, Nat.one_mul, Nat.add_zero] at h1 h2 ha
      exact key _ _ h1 h2 (by omega) ha
    · have ha := extractAxialSlice_getElem? size vol index 0 0 hvol hiz (by omega)
        (by omega)
      have hs := extractSagittalSlice_getElem? size vol index 0 0 hvol hix (by omega)
        (by omega)
      simp only [Nat.zero_mul, Nat.zero_add, Nat.add_zero] at ha hs
      rw [heq, hs] at ha
      have h1 : 0 * size.x * size.y + 0 * size.x + index < size.x * size.y * size.z :=
        linearIndex_lt size.x size.y size.z index 0 0 hix (by omega) (by omega)
      have h2 : index * size.x * size.y + 0 * size.x + 0 < size.x * size.y * size.z :=
        linearIndex_lt size.x size.y size.z 0 0 index (by omega) (by omega) hiz
      simp only [Nat.zero_mul, Nat.zero_add, Nat.add_zero] at h1 h2
      have hne : index ≠ index * size.x * size.y := by
        have h3 : index * size.x * 2 ≤ index * size.x * size.y :=
          Nat.mul_le_mul_left (index * size.x) hy
        have h4 : index * 2 ≤ index * size.x := Nat.mul_le_mul_left index hx
        omega
      exact key _ _ h1 h2 hne ha
  · intro hiy hix heq
    by_cases h0 : index = 0
    · subst h0
      have hc := extractCoronalSlice_getElem? size vol 0 1 0 hvol (by omega) (by omega)
        (by omega)
      have hs := extractSagittalSlice_getElem? size vol 0 1 0 hvol (by omega) (by omega)
        (by omega)
      simp only [Nat.zero_mul, Nat.zero_add] at hc hs
      rw [heq, hs] at hc
      have h1 : 0 * size.x * size.y + 1 * size.x + 0 < size.x * size.y * size.z :=
        linearIndex_lt size.x size.y size.z 0 1 0 (by omega) (by omega) (by omega)
      have h2 : 0 * size.x * size.y + 0 * size.x + 1 < size.x * size.y * size.z :=
        linearIndex_lt size.x size.y size.z 1 0 0 (by omega) (by omega) (by omega)
      simp only [Nat.zero_mul, Nat.zero_add, Nat.one_mul, Nat.add_zero] at h1 h2 hc
      exact key _ _ h1 h2 (by omega) hc
    · have hc := extractCoronalSlice_getElem? size vol index 0 0 hvol hiy (by omega)
        (by omega)
      have hs := extractSagittalSlice_getElem? size vol index 0 0 hvol hix (by omega)
        (by omega)
      simp only [Nat.zero_mul, Nat.zero_add, Nat.add_zero] at hc hs
      rw [heq, hs] at hc
      have h1 : 0 * size.x * size.y + 0 * size.x + index < size.x * size.y * size.z :=
        linearIndex_lt size.x size.y size.z index 0 0 hix (by omega) (by omega)
      have h2 : 0 * size.x * size.y + index * size.x + 0 < size.x * size.y * size.z :=
        linearIndex_lt size.x size.y size.z 0 index 0 (by omega) hiy (by omega)
      simp only [Nat.zero_mul, Nat.zero_add, Nat.add_zero] at h1 h2
      have hne : index ≠ index * size.x := by
        have h4 : index * 2 ≤ index * size.x := Nat.mul_le_mul_left index hx
        omega
      exact key _ _ h1 h2 hne hc

theorem volume223_injective :
    ∀ m n, m < volume223.length → n < volume223.length → volume223[m]? = volume223[n]? →
      m = n := by
  have h : ∀ m, m < 12 → ∀ n, n < 12 → volume223[m]? = volume223[n]? → m = n := by decide
  intro m n hm hn
  exact h m hm n hn

/-- Witness of C21 (amended): the 2x2x3 volume with voxels 0..11 at index 0. -/
theorem orientations_differ_witness :
    extractAxialSlice ⟨2, 2, 3⟩ volume223 ((0 : Nat) : Int)
      ≠ extractCoronalSlice ⟨2, 2, 3⟩ volume223 ((0 : Nat) : Int) :=
  (orientations_differ ⟨2, 2, 3⟩ volume223 0 rfl (by decide) (by decide) (by decide)
    volume223_injective).1 (by decide) (by decide)

/-! ## Index safety -/

theorem extractAxialSlice_eq_run (size : VolumeSize) (vol : List JSNum) (index : Int) :
    extractAxialSlice size vol index
      = runAccesses vol (axialAccesses size index) (newFloat32Array (size.x * size.y)) := by
  simp only [runAccesses, axialAccesses, List.flatMap_def, List.foldl_flatten, List.foldl_map]
  rfl

theorem extractCoronalSlice_eq_run (size : VolumeSize) (vol : List JSNum) (index : Int) :
    extractCoronalSlice size vol index
      = runAccesses vol (coronalAccesses size index) (newFloat32Array (size.x * size.z)) := by
  simp only [runAccesses, coronalAccesses, List.flatMap_def, List.foldl_flatten, List.foldl_map]
  rfl

theorem extractSagittalSlice_eq_run (size : VolumeSize) (vol : List JSNum) (index : Int) :
    extractSagittalSlice size vol index
      = runAccesses vol (sagittalAccesses size index) (newFloat32Array (size.y * size.z)) := by
  simp only [runAccesses, sagittalAccesses, List.flatMap_def, List.foldl_flatten,
    List.foldl_map]
  rfl

theorem linearIndex_injective (x y : Nat) (i j k i' j' k' : Nat)
    (hi : i < x) (hj : j < y) (hi' : i' < x) (hj' : j' < y)
    (h : k * x * y + j * x + i = k' * x * y + j' * x + i') :
    i = i' ∧ j = j' ∧ k = k' := by
  have hx : 0 < x := by omega
  have hy : 0 < y := by omega
  have e : k * x * y + j * x + i = i + (j + k * y) * x := by ring
  have e' : k' * x * y + j' * x + i' = i' + (j' + k' * y) * x := by ring
  rw [e, e'] at h
  have hmod := congrArg (· % x) h
  simp only [Nat.add_mul_mod_self_right, Nat.mod_eq_of_lt hi, Nat.mod_eq_of_lt hi'] at hmod
  have hdiv := congrArg (· / x) h
  simp only [Nat.add_mul_div_right _ _ hx, Nat.div_eq_of_lt hi, Nat.div_eq_of_lt hi',
    Nat.zero_add] at hdiv
  have hmod2 := congrArg (· % y) hdiv
  simp only [Nat.add_mul_mod_self_right, Nat.mod_eq_of_lt hj, Nat.mod_eq_of_lt hj'] at hmod2
  have hdiv2 := congrArg (· / y) hdiv
  simp only [Nat.add_mul_div_right _ _ hy, Nat.div_eq_of_lt hj, Nat.div_eq_of_lt hj',
    Nat.zero_add] at hdiv2
  exact ⟨hmod, hmod2, hdiv2⟩

/-- C22: for a volume of dimensions (x, y, z) whose buffer has x*y*z voxels and
a slice index in the valid range of its orientation, each of the three
extraction functions is the run of its access list, every voxel index it reads
is at least 0 and below the buffer length, every slice position it writes is
inside the allocated slice, and distinct in-bounds coordinates (i, j, k) have
distinct linear indices `k*x*y + j*x + i`. -/
theorem extractSlice_accesses_inBounds (size : VolumeSize) (vol : List JSNum)
    (hvol : vol.length = size.x * size.y * size.z) :
    (∀ index : Int,
      extractAxialSlice size vol index
        = runAccesses vol (axialAccesses size index) (newFloat32Array (size.x * size.y)) ∧
      extractCoronalSlice size vol index
        = runAccesses vol (coronalAccesses size index) (newFloat32Array (size.x * size.z)) ∧
      extractSagittalSlice size vol index
        = runAccesses vol (sagittalAccesses size index) (newFloat32Array (size.y * size.z))) ∧
    (∀ index : Nat, index < size.z → ∀ a ∈ axialAccesses size index,
      0 ≤ a.2 ∧ a.2 < vol.length ∧ a.1 < (newFloat32Array (size.x * size.y)).length) ∧
    (∀ index : Nat, index < size.y → ∀ a ∈ coronalAccesses size index,
      0 ≤ a.2 ∧ a.2 < vol.length ∧ a.1 < (newFloat32Array (size.x * size.z)).length) ∧
    (∀ index : Nat, index < size.x → ∀ a ∈ sagittalAccesses size index,
      0 ≤ a.2 ∧ a.2 < vol.length ∧ a.1 < (newFloat32Array (size.y * size.z)).length) ∧
    (∀ i j k i' j' k', i < size.x → j < size.y → k < size.z →
      i' < size.x → j' < size.y → k' < size.z →
      k * size.x * size.y + j * size.x + i = k' * size.x * size.y + j' * size.x + i' →
      i = i' ∧ j = j' ∧ k = k') := by
  refine ⟨fun index => ⟨extractAxialSlice_eq_run size vol index,
    extractCoronalSlice_eq_run size vol index, extractSagittalSlice_eq_run size vol index⟩,
    ?_, ?_, ?_, ?_⟩
  · intro index hindex a ha
    simp only [axialAccesses, List.mem_flatMap, List.mem_map, List.mem_range] at ha
    obtain ⟨j, hj, i, hi, rfl⟩ := ha
    have h1 := linearIndex_lt size.x size.y size.z i j index hi hj hindex
    have h2 := gridIndex_lt size.x size.y j i hj hi
    have hcast : ((index : Int) * size.x * size.y + j * size.x + i)
        = ((index * size.x * size.y + j * size.x + i : Nat) : Int) := by push_cast; rfl
    simp only [newFloat32Array, List.length_replicate]
    rw [hcast, hvol]
    exact ⟨Int.natCast_nonneg _, by exact_mod_cast h1, h2⟩
  · intro index hindex a ha
    simp only [coronalAccesses, List.mem_flatMap, List.mem_map, List.mem_range] at ha
    obtain ⟨k, hk, i, hi, rfl⟩ := ha
    have h1 := linearIndex_lt size.x size.y size.z i index k hi hindex hk
    have h2 := gridIndex_lt size.x size.z k i hk hi
    have hcast : ((k : Int) * size.x * size.y + (index : Int) * size.x + i)
        = ((k * size.x * size.y + index * size.x + i : Nat) : Int) := by push_cast; rfl
    simp only [newFloat32Array, List.length_replicate]
    rw [hcast, hvol]
    exact ⟨Int.natCast_nonneg _, by exact_mod_cast h1, h2⟩
  · intro index hindex a ha
    simp only [sagittalAccesses, List.mem_flatMap, List.mem_map, List.mem_range] at ha
    obtain ⟨k, hk, j, hj, rfl⟩ := ha
    have h1 := linearIndex_lt size.x size.y size.z index j k hindex hj hk
    have h2 := gridIndex_lt size.y size.z k j hk hj
    have hcast : ((k : Int) * size.x * size.y + (j : Int) * size.x + (index : Int))
        = ((k * size.x * size.y + j * size.x + index : Nat) : Int) := by push_cast; rfl
    simp only [newFloat32Array, List.length_replicate]
    rw [hcast, hvol]
    exact ⟨Int.natCast_nonneg _, by exact_mod_cast h1, h2⟩
  · intro i j k i' j' k' hi hj _ hi' hj' _ h
    exact linearIndex_injective size.x size.y i j k i' j' k' hi hj hi' hj' h

/-- Witness of C22 on the 2x2x3 volume: the accesses of the axial slice at
index 2. -/
theorem extractSlice_accesses_inBounds_witness :
    volume223.length = 2 * 2 * 3 ∧
    ∀ a ∈ axialAccesses ⟨2, 2, 3⟩ ((2 : Nat) : Int),
      0 ≤ a.2 ∧ a.2 < volume223.length ∧ a.1 < (newFloat32Array (2 * 2)).length :=
  ⟨rfl, (extractSlice_accesses_inBounds ⟨2, 2, 3⟩ volume223 rfl).2.1 2 (by decide)⟩

/-! ## End-to-end scenario -/

theorem volume888_voxel (i j k : Nat) (hi : i < 8) (hj : j < 8) (hk : k < 8) :
    volume888[k * 8 * 8 + j * 8 + i]?
      = some (if (i = 4 ∨ i = 5) ∧ (j = 4 ∨ j = 5) ∧ (k = 4 ∨ k = 5)
          then JSNum.fin 1000 else JSNum.fin (-1000)) := by
  have h1 : (k * 8 * 8 + j * 8 + i) % 8 = i := by omega
  have h2 : (k * 8 * 8 + j * 8 + i) / 8 % 8 = j := by omega
  have h3 : (k * 8 * 8 + j * 8 + i) / 64 = k := by omega
  have h4 : k * 8 * 8 + j * 8 + i < 512 := by omega
  simp only [volume888, List.getElem?_map, List.getElem?_range h4, Option.map_some', h1, h2, h3]

theorem volume888_length : volume888.length = 8 * 8 * 8 := by
  rw [volume888, List.length_map, List.length_range]

theorem toUint8Clamp_gray_pm1000 (b : Prop) [Decidable b] :
    toUint8Clamp (gray (if b then JSNum.fin 1000 else JSNum.fin (-1000)))
      = if b then 255 else 0 := by
  by_cases h : b
  · rw [if_pos h, if_pos h, gray_fin_1000, toUint8Clamp_fin_255]
  · rw [if_neg h, if_neg h, gray_fin_neg1000, toUint8Clamp_fin_zero]

/-- C24: for the 8x8x8 volume that is -1000 except on the cube of voxels
(i, j, k) with i, j, k in {4, 5}, which is 1000, `getSlice('axial', 5)` returns
an 8x8 image whose pixel (i, j) has the three colour channels 255 when i and j
are in {4, 5} and 0 otherwise, and alpha 255. -/
theorem getSlice_endToEnd :
    ∃ img, getSlice ⟨some volume888, ⟨8, 8, 8⟩⟩ "axial" 5 = Except.ok (some img) ∧
      img.width = 8 ∧ img.height = 8 ∧ img.data.length = 8 * 8 * 4 ∧
      ∀ i j, i < 8 → j < 8 →
        img.data[4 * (j * 8 + i)]? = some (if (i = 4 ∨ i = 5) ∧ (j = 4 ∨ j = 5) then 255 else 0) ∧
        img.data[4 * (j * 8 + i) + 1]?
          = some (if (i = 4 ∨ i = 5) ∧ (j = 4 ∨ j = 5) then 255 else 0) ∧
        img.data[4 * (j * 8 + i) + 2]?
          = some (if (i = 4 ∨ i = 5) ∧ (j = 4 ∨ j = 5) then 255 else 0) ∧
        img.data[4 * (j * 8 + i) + 3]? = some 255 := by
  obtain ⟨slice, hget, hslice⟩ := getSlice_some volume888 ⟨8, 8, 8⟩ "axial" 5 (by decide)
    (by decide)
  rw [if_pos rfl] at hslice
  have hlen : slice.length = 64 := by
    rw [hslice, extractAxialSlice_length]
    rfl
  have hsample : ∀ i j, i < 8 → j < 8 →
      slice.getD (j * 8 + i) JSNum.nan
        = if (i = 4 ∨ i = 5) ∧ (j = 4 ∨ j = 5) then JSNum.fin 1000 else JSNum.fin (-1000) := by
    intro i j hi hj
    have h := extractAxialSlice_getElem? ⟨8, 8, 8⟩ volume888 5 i j volume888_length
      (by decide) hi hj
    rw [volume888_voxel i j 5 hi hj (by decide)] at h
    have h5 : ((5 : Nat) : Int) = 5 := rfl
    rw [h5, ← hslice] at h
    have h' : slice[j * 8 + i]? = some (if (i = 4 ∨ i = 5) ∧ (j = 4 ∨ j = 5)
        then JSNum.fin 1000 else JSNum.fin (-1000)) := by
      rw [h]
      refine congrArg some ?_
      by_cases hc : (i = 4 ∨ i = 5) ∧ (j = 4 ∨ j = 5)
      · rw [if_pos hc, if_pos ⟨hc.1, hc.2, Or.inr rfl⟩]
      · rw [if_neg hc, if_neg (fun h => hc ⟨h.1, h.2.1⟩)]
    rw [List.getD_eq_getElem?_getD, h']
    rfl
  have hpix : ∀ i j c, i < 8 → j < 8 → c < 4 →
      (pixelLoop slice slice.length (List.replicate (8 * 8 * 4) 0))[(j * 8 + i) * 4 + c]?
        = some (if c = 3 then 255
            else if (i = 4 ∨ i = 5) ∧ (j = 4 ∨ j = 5) then 255 else 0) := by
    intro i j c hi hj hc
    rw [pixelLoop_getElem? slice slice.length _ (j * 8 + i) c (by omega) hc
      (by rw [List.length_replicate]; omega), hsample i j hi hj, toUint8Clamp_gray_pm1000]
  refine ⟨_, hget, rfl, rfl, ?_, ?_⟩
  · show (pixelLoop slice slice.length (List.replicate (8 * 8 * 4) 0)).length = 8 * 8 * 4
    rw [pixelLoop_length, List.length_replicate]
  · intro i j hi hj
    have h0 := hpix i j 0 hi hj (by omega)
    have h1 := hpix i j 1 hi hj (by omega)
    have h2 := hpix i j 2 hi hj (by omega)
    have h3 := hpix i j 3 hi hj (by omega)
    rw [show (j * 8 + i) * 4 + 0 = 4 * (j * 8 + i) by omega,
      if_neg (by decide : ¬ (0 = 3))] at h0
    rw [show (j * 8 + i) * 4 + 1 = 4 * (j * 8 + i) + 1 by omega,
      if_neg (by decide : ¬ (1 = 3))] at h1
    rw [show (j * 8 + i) * 4 + 2 = 4 * (j * 8 + i) + 2 by omega,
      if_neg (by decide : ¬ (2 = 3))] at h2
    rw [show (j * 8 + i) * 4 + 3 = 4 * (j * 8 + i) + 3 by omega, if_pos rfl] at h3
    exact ⟨h0, h1, h2, h3⟩

/-! ## Uniform background -/

theorem calculateROIMean_const (vol : List JSNum) (a : ℚ) (x y width height : Nat)
    (hw : 0 < width) (hh : 0 < height)
    (hv : ∀ j i, y ≤ j → j < y + height → x ≤ i → i < x + width →
      vol[j * 256 + i]? = some (JSNum.fin a)) :
    calculateROIMean vol x y width height = JSNum.fin a := by
  rw [calculateROIMean_Ico vol (fun _ _ => a) x y width height hw hh hv]
  refine congrArg JSNum.fin ?_
  have hne : ((height * width : Nat) : ℚ) ≠ 0 :=
    Nat.cast_ne_zero.mpr (Nat.mul_ne_zero (by omega) (by omega))
  simp only [Finset.sum_const, Nat.card_Ico, Nat.add_sub_cancel_left, nsmul_eq_mul]
  rw [← mul_assoc, ← Nat.cast_mul, mul_div_cancel_left₀ _ hne]

theorem uniformBackground_metrics (sqrt : JSNum → JSNum) (vol : List JSNum)
    (hsqrt : sqrt (JSNum.fin 0) = JSNum.fin 0)
    (hB : ∀ j i, 10 ≤ j → j < 60 → 10 ≤ i → i < 60 → vol[j * 256 + i]? = some (JSNum.fin 100))
    (hS : ∀ j i, 100 ≤ j → j < 150 → 100 ≤ i → i < 150 →
      vol[j * 256 + i]? = some (JSNum.fin 200)) :
    calculateBackgroundStd sqrt vol = JSNum.fin 0 ∧
    calculateSNR sqrt vol = JSNum.posInf ∧
    calculateCNR sqrt vol = JSNum.nan := by
  have hstd : calculateBackgroundStd sqrt vol = JSNum.fin 0 := by
    rw [calculateBackgroundStd_Ico sqrt vol (fun _ _ => 100) hB]
    have hvar : (∑ _j in Finset.Ico 10 60, ∑ _i in Finset.Ico 10 60,
        ((100 : ℚ) - (∑ _j in Finset.Ico 10 60, ∑ _i in Finset.Ico 10 60, (100 : ℚ)) / 2500) ^ 2)
        / 2500 = 0 := by
      simp only [Finset.sum_const, Nat.card_Ico, nsmul_eq_mul]
      norm_num
    rw [hvar, hsqrt]
  have hsig : calculateROIMean vol 100 100 50 50 = JSNum.fin 200 :=
    calculateROIMean_const vol 200 100 100 50 50 (by decide) (by decide) hS
  have htis : calculateROIMean vol 120 120 30 30 = JSNum.fin 200 :=
    calculateROIMean_const vol 200 120 120 30 30 (by decide) (by decide)
      (fun j i h1 h2 h3 h4 => hS j i (by omega) (by omega) (by omega) (by omega))
  have href : calculateROIMean vol 100 100 30 30 = JSNum.fin 200 :=
    calculateROIMean_const vol 200 100 100 30 30 (by decide) (by decide)
      (fun j i h1 h2 h3 h4 => hS j i (by omega) (by omega) (by omega) (by omega))
  refine ⟨hstd, ?_, ?_⟩
  · show (calculateROIMean vol 100 100 50 50).div (calculateBackgroundStd sqrt vol) = _
    rw [hsig, hstd]
    simp [JSNum.div, JSNum.signedInf]
  · show ((calculateROIMean vol 120 120 30 30).sub (calculateROIMean vol 100 100 30 30)).abs.div
      (calculateBackgroundStd sqrt vol) = _
    rw [htis, href, hstd]
    simp [JSNum.sub, JSNum.abs, JSNum.div]

theorem sqrtModel_zero : sqrtModel (JSNum.fin 0) = JSNum.fin 0 :=
  (sqrtModel_fin_eq_zero_iff 0 (le_refl 0)).mpr rfl

/-- C25 (as stated, refuted): on the phantom volume, whose background region is
the constant 100 and whose signal region is the constant 200, the background
deviation is 0 and `calculateSNR` is `+Infinity`, but `calculateCNR` is `NaN`:
the two rectangles it compares both lie in the signal region, so it divides 0
by 0. -/
theorem uniformBackground_counterexample :
    calculateBackgroundStd sqrtModel phantomVolume = JSNum.fin 0 ∧
    calculateSNR sqrtModel phantomVolume = JSNum.posInf ∧
    calculateCNR sqrtModel phantomVolume = JSNum.nan :=
  uniformBackground_metrics sqrtModel phantomVolume sqrtModel_zero
    (fun j i _ hj _ hi => by
      rw [phantomVolume_voxel j i (by omega) (by omega), phantomValue_lt j (by omega)])
    (fun j i hj hj' _ hi => by
      rw [phantomVolume_voxel j i (by omega) (by omega), phantomValue_ge j hj])

/-- C25 (amended): for every volume whose background region (10, 10, 50, 50)
is the constant 100 and whose signal region (100, 100, 50, 50) is the constant
200, and every square-root function with `sqrt(0) = 0`, the background
deviation is exactly 0, `calculateSNR` divides 200 by 0 and returns
`+Infinity`, and `calculateCNR` divides 0 by 0 and returns `NaN`. -/
theorem uniformBackground_spec (sqrt : JSNum → JSNum) (vol : List JSNum)
    (hsqrt : sqrt (JSNum.fin 0) = JSNum.fin 0)
    (hB : ∀ j i, 10 ≤ j → j < 60 → 10 ≤ i → i < 60 → vol[j * 256 + i]? = some (JSNum.fin 100))
    (hS : ∀ j i, 100 ≤ j → j < 150 → 100 ≤ i → i < 150 →
      vol[j * 256 + i]? = some (JSNum.fin 200)) :
    calculateBackgroundStd sqrt vol = JSNum.fin 0 ∧
    calculateSNR sqrt vol = (JSNum.fin 200).div (JSNum.fin 0) ∧
    calculateSNR sqrt vol = JSNum.posInf ∧
    calculateCNR sqrt vol = (JSNum.fin 0).div (JSNum.fin 0) ∧
    calculateCNR sqrt vol = JSNum.nan := by
  obtain ⟨h1, h2, h3⟩ := uniformBackground_metrics sqrt vol hsqrt hB hS
  refine ⟨h1, ?_, h2, ?_, h3⟩
  · rw [h2]; simp [JSNum.div, JSNum.signedInf]
  · rw [h3]; simp [JSNum.div]

/-- Witness of C25 (amended) on the phantom volume. -/
theorem uniformBackground_spec_witness :
    sqrtModel (JSNum.fin 0) = JSNum.fin 0 ∧
    calculateBackgroundStd sqrtModel phantomVolume = JSNum.fin 0 ∧
    calculateSNR sqrtModel phantomVolume = JSNum.posInf ∧
    calculateCNR sqrtModel phantomVolume = JSNum.nan :=
  have h := uniformBackground_spec sqrtModel phantomVolume sqrtModel_zero
    (fun j i _ hj _ hi => by
      rw [phantomVolume_voxel j i (by omega) (by omega), phantomValue_lt j (by omega)])
    (fun j i hj hj' _ hi => by
      rw [phantomVolume_voxel j i (by omega) (by omega), phantomValue_ge j hj])
  ⟨sqrtModel_zero, h.1, h.2.2.1, h.2.2.2.2⟩

/-! ## The fixed row stride -/

theorem regionSamples_eq_grid (vol : List JSNum) (u : Nat → Nat → JSNum)
    (x y width height : Nat)
    (hu : ∀ r c, r < height → c < width →
      readVoxel vol ((((y + r) * 256 + (x + c) : Nat)) : Int) = u r c) :
    regionSamples vol x y width height
      = (List.range height).flatMap (fun r => (List.range width).map (fun c => u r c)) := by
  simp only [regionSamples, loopRange_natCast, List.flatMap_def, List.map_map]
  congr 1
  apply List.map_congr_left
  intro r hr
  rw [List.mem_range] at hr
  simp only [Function.comp_apply, List.map_map]
  apply List.map_congr_left
  intro c hc
  rw [List.mem_range] at hc
  simp only [Function.comp_apply]
  rw [← hu r c hr hc]
  push_cast
  rfl

theorem calculateROIMean_eq_sliceRegionMean (size : VolumeSize) (vol : List JSNum)
    (x y width height : Nat) (hx : size.x = 256)
    (hvol : vol.length = size.x * size.y * size.z) (hz : 0 < size.z)
    (hxw : x + width ≤ 256) (hyh : y + height ≤ size.y) :
    calculateROIMean vol x y width height
      = sliceRegionMean (extractAxialSlice size vol ((0 : Nat) : Int)) 256 x y width height := by
  rw [calculateROIMean_eq, sliceRegionMean]
  simp only [Int.toNat_ofNat, Nat.mul_comm height width]
  congr 2
  apply regionSamples_eq_grid
  intro r c hr hc
  have h := extractAxialSlice_getElem? size vol 0 (x + c) (y + r) hvol hz (by omega) (by omega)
  rw [hx] at h
  simp only [Nat.zero_mul, Nat.zero_add] at h
  rw [readVoxel_natCast, List.getD_eq_getElem?_getD, List.getD_eq_getElem?_getD, h]

theorem rampVolume_voxel (n : Nat) (hn : n < 512) :
    rampVolume[n]? = some (JSNum.fin (n : ℚ)) := by
  simp only [rampVolume, List.getElem?_map, List.getElem?_range hn, Option.map_some']

theorem rampVolume_length : rampVolume.length = 16 * 16 * 2 := by
  rw [rampVolume, List.length_map, List.length_range]

theorem rampVolume_regionMean : calculateROIMean rampVolume 0 0 1 2 = JSNum.fin 128 := by
  have h := calculateROIMean_Ico rampVolume (fun j i => ((j * 256 + i : Nat) : ℚ)) 0 0 1 2
    (by decide) (by decide) (fun j i _ hj _ hi => rampVolume_voxel (j * 256 + i) (by omega))
  simp only [Nat.cast_ofNat, Nat.cast_zero, Nat.cast_one] at h
  rw [h]
  refine congrArg JSNum.fin ?_
  simp only [Finset.sum_Ico_eq_sum_range, Finset.sum_range_succ, Finset.sum_range_zero]
  norm_num

theorem rampVolume_sliceMean :
    sliceRegionMean (extractAxialSlice ⟨16, 16, 2⟩ rampVolume 0) 16 0 0 1 2 = JSNum.fin 8 := by
  have h0 := extractAxialSlice_getElem? ⟨16, 16, 2⟩ rampVolume 0 0 0 rampVolume_length
    (by decide) (by decide) (by decide)
  have h1 := extractAxialSlice_getElem? ⟨16, 16, 2⟩ rampVolume 0 0 1 rampVolume_length
    (by decide) (by decide) (by decide)
  simp only [Nat.zero_mul, Nat.zero_add, Nat.one_mul, Nat.add_zero] at h0 h1
  rw [rampVolume_voxel 0 (by decide)] at h0
  rw [rampVolume_voxel 16 (by decide)] at h1
  have hc : ((0 : Nat) : Int) = 0 := rfl
  rw [hc] at h0 h1
  simp only [sliceRegionMean, List.range_succ, List.range_zero, List.nil_append,
    List.flatMap_cons, List.flatMap_nil, List.map_cons, List.map_nil, List.append_nil,
    List.singleton_append, Nat.zero_add, Nat.add_zero, Nat.zero_mul, Nat.one_mul,
    List.getD_eq_getElem?_getD, h0, h1, Option.getD_some, jsSum, List.foldl_cons,
    List.foldl_nil, JSNum.add]
  rw [div_fin_natCast _ _ (by decide)]
  refine congrArg JSNum.fin ?_
  norm_num

/-- C26: for every volume of width 256 that contains the rectangle,
`calculateROIMean(x, y, width, height)` equals the mean of the same rectangle
of the axial slice at index 0; and for the 16x16x2 volume with voxel n at
linear index n and the rectangle (0, 0, 1, 2), which lies inside its plane,
`calculateROIMean` returns 128 while the mean over the slice is 8. -/
theorem calculateROIMean_stride (size : VolumeSize) (vol : List JSNum)
    (x y width height : Nat) (hx : size.x = 256)
    (hvol : vol.length = size.x * size.y * size.z) (hz : 0 < size.z)
    (hxw : x + width ≤ 256) (hyh : y + height ≤ size.y)
    (_hw : 0 < width) (_hh : 0 < height) :
    calculateROIMean vol x y width height
      = sliceRegionMean (extractAxialSlice size vol ((0 : Nat) : Int)) size.x x y width height ∧
    (rampVolume.length = 16 * 16 * 2 ∧ 0 + 1 ≤ 16 ∧ 0 + 2 ≤ 16 ∧
      calculateROIMean rampVolume 0 0 1 2 = JSNum.fin 128 ∧
      sliceRegionMean (extractAxialSlice ⟨16, 16, 2⟩ rampVolume 0) 16 0 0 1 2 = JSNum.fin 8 ∧
      JSNum.fin 128 ≠ JSNum.fin 8) := by
  refine ⟨?_, rampVolume_length, by decide, by decide, rampVolume_regionMean,
    rampVolume_sliceMean, ?_⟩
  · rw [hx]
    exact calculateROIMean_eq_sliceRegionMean size vol x y width height hx hvol hz hxw hyh
  · intro h
    have := JSNum.fin.inj h
    norm_num at this

/-- Witness of C26: the background rectangle of the row volume, taken as a
256x256x1 volume. -/
theorem calculateROIMean_stride_witness :
    calculateROIMean rowVolume ((10 : Nat) : Int) ((10 : Nat) : Int) ((50 : Nat) : Int)
        ((50 : Nat) : Int)
      = sliceRegionMean (extractAxialSlice ⟨256, 256, 1⟩ rowVolume ((0 : Nat) : Int)) 256
          10 10 50 50 :=
  (calculateROIMean_stride ⟨256, 256, 1⟩ rowVolume 10 10 50 50 rfl
    (by rw [rowVolume, List.length_map, List.length_range]; rfl) (by decide) (by decide)
    (by decide) (by decide) (by decide)).1

/-! ## The reads of the quality metrics -/

theorem regionSamples_eq_map (vol : List JSNum) (x y width height : Int) :
    regionSamples vol x y width height = (regionIndices x y width height).map (readVoxel vol) := by
  simp only [regionSamples, regionIndices, List.map_flatMap, List.map_map]
  rfl

theorem mem_regionIndices (x y width height n : Int) :
    n ∈ regionIndices x y width height ↔
      ∃ r c : Nat, r < height.toNat ∧ c < width.toNat ∧ n = (y + r) * 256 + (x + c) := by
  simp only [regionIndices, loopRange, List.mem_flatMap, List.mem_map, List.mem_range,
    add_sub_cancel_left]
  constructor
  · rintro ⟨j, ⟨r, hr, rfl⟩, i, ⟨c, hc, rfl⟩, rfl⟩
    exact ⟨r, c, hr, hc, rfl⟩
  · rintro ⟨r, c, hr, hc, rfl⟩
    exact ⟨y + r, ⟨r, hr, rfl⟩, x + c, ⟨c, hc, rfl⟩, rfl⟩

theorem mem_qualityMetricsReads (n : Int) :
    n ∈ qualityMetricsReads ↔
      (∃ r c : Nat, r < 50 ∧ c < 50 ∧ n = (100 + r) * 256 + (100 + c)) ∨
      (∃ r c : Nat, r < 50 ∧ c < 50 ∧ n = (10 + r) * 256 + (10 + c)) ∨
      (∃ r c : Nat, r < 30 ∧ c < 30 ∧ n = (120 + r) * 256 + (120 + c)) ∨
      (∃ r c : Nat, r < 30 ∧ c < 30 ∧ n = (100 + r) * 256 + (100 + c)) := by
  have h50 : (50 : Int).toNat = 50 := rfl
  have h30 : (30 : Int).toNat = 30 := rfl
  have hbx : getBackgroundRegion.x = 10 := rfl
  have hby : getBackgroundRegion.y = 10 := rfl
  have hbw : getBackgroundRegion.width = 50 := rfl
  have hbh : getBackgroundRegion.height = 50 := rfl
  unfold qualityMetricsReads snrReads cnrReads backgroundStdReads
  simp only [hbx, hby, hbw, hbh, List.mem_append, mem_regionIndices, h50, h30]
  constructor
  · rintro ((h | h | h) | ((h | h) | h | h))
    exacts [Or.inl h, Or.inr (Or.inl h), Or.inr (Or.inl h), Or.inr (Or.inr (Or.inl h)),
      Or.inr (Or.inr (Or.inr h)), Or.inr (Or.inl h), Or.inr (Or.inl h)]
  · rintro (h | h | h | h)
    exacts [Or.inl (Or.inl h), Or.inl (Or.inr (Or.inl h)), Or.inr (Or.inl (Or.inl h)),
      Or.inr (Or.inl (Or.inr h))]

theorem qualityMetricsReads_bounds (n : Int) (hn : n ∈ qualityMetricsReads) :
    2570 ≤ n ∧ n ≤ 38293 := by
  rw [mem_qualityMetricsReads] at hn
  rcases hn with ⟨r, c, hr, hc, rfl⟩ | ⟨r, c, hr, hc, rfl⟩ | ⟨r, c, hr, hc, rfl⟩ |
    ⟨r, c, hr, hc, rfl⟩ <;> omega

theorem regionSamples_congr (vol1 vol2 : List JSNum) (x y width height : Int)
    (h : ∀ n ∈ regionIndices x y width height, readVoxel vol1 n = readVoxel vol2 n) :
    regionSamples vol1 x y width height = regionSamples vol2 x y width height := by
  rw [regionSamples_eq_map, regionSamples_eq_map]
  exact List.map_congr_left h

theorem calculateROIMean_congr (vol1 vol2 : List JSNum) (x y width height : Int)
    (h : ∀ n ∈ regionIndices x y width height, readVoxel vol1 n = readVoxel vol2 n) :
    calculateROIMean vol1 x y width height = calculateROIMean vol2 x y width height := by
  rw [calculateROIMean_eq, calculateROIMean_eq, regionSamples_congr vol1 vol2 x y width height h]

theorem calculateBackgroundStd_congr (sqrt : JSNum → JSNum) (vol1 vol2 : List JSNum)
    (h : ∀ n ∈ regionIndices 10 10 50 50, readVoxel vol1 n = readVoxel vol2 n) :
    calculateBackgroundStd sqrt vol1 = calculateBackgroundStd sqrt vol2 := by
  rw [calculateBackgroundStd_eq, calculateBackgroundStd_eq,
    regionSamples_congr vol1 vol2 10 10 50 50 h, calculateROIMean_congr vol1 vol2 10 10 50 50 h]

theorem calculateQualityMetrics_congr (sqrt : JSNum → JSNum) (vol1 vol2 : List JSNum)
    (size1 size2 : VolumeSize)
    (h : ∀ n ∈ qualityMetricsReads, readVoxel vol1 n = readVoxel vol2 n) :
    calculateQualityMetrics sqrt ⟨some vol1, size1⟩
      = calculateQualityMetrics sqrt ⟨some vol2, size2⟩ := by
  have h50 : (50 : Int).toNat = 50 := rfl
  have h30 : (30 : Int).toNat = 30 := rfl
  have hS : ∀ n ∈ regionIndices 100 100 50 50, readVoxel vol1 n = readVoxel vol2 n := by
    intro n hn
    apply h n
    rw [mem_qualityMetricsReads]
    rw [mem_regionIndices] at hn
    exact Or.inl hn
  have hB : ∀ n ∈ regionIndices 10 10 50 50, readVoxel vol1 n = readVoxel vol2 n := by
    intro n hn
    apply h n
    rw [mem_qualityMetricsReads]
    rw [mem_regionIndices] at hn
    exact Or.inr (Or.inl hn)
  have hT : ∀ n ∈ regionIndices 120 120 30 30, readVoxel vol1 n = readVoxel vol2 n := by
    intro n hn
    apply h n
    rw [mem_qualityMetricsReads]
    rw [mem_regionIndices] at hn
    exact Or.inr (Or.inr (Or.inl hn))
  have hR : ∀ n ∈ regionIndices 100 100 30 30, readVoxel vol1 n = readVoxel vol2 n := by
    intro n hn
    apply h n
    rw [mem_qualityMetricsReads]
    rw [mem_regionIndices] at hn
    exact Or.inr (Or.inr (Or.inr hn))
  simp only [calculateQualityMetrics, calculateSNR, calculateCNR]
  rw [calculateROIMean_congr vol1 vol2 100 100 50 50 hS,
    calculateROIMean_congr vol1 vol2 120 120 30 30 hT,
    calculateROIMean_congr vol1 vol2 100 100 30 30 hR,
    calculateBackgroundStd_congr sqrt vol1 vol2 hB]

theorem loggedRow_eq (g : Int → JSNum) (f : Int → Int) (L : List Int) (a : JSNum × Nat)
    (log : List Int) :
    L.foldl (fun (acc : (JSNum × Nat) × List Int) (i : Int) =>
        ((acc.1.1.add (g i), acc.1.2 + 1), acc.2 ++ [f i])) (a, log)
      = (L.foldl (fun (acc : JSNum × Nat) (i : Int) => (acc.1.add (g i), acc.2 + 1)) a,
         log ++ L.map f) := by
  induction L generalizing a log with
  | nil => simp
  | cons i L ih =>
    simp only [List.foldl_cons, List.map_cons]
    rw [ih]
    simp

theorem loggedGrid_eq (g : Int → Int → JSNum) (f : Int → Int → Int) (L1 L2 : List Int)
    (a : JSNum × Nat) (log : List Int) :
    L1.foldl (fun (acc : (JSNum × Nat) × List Int) (j : Int) =>
        L2.foldl (fun (acc : (JSNum × Nat) × List Int) (i : Int) =>
          ((acc.1.1.add (g j i), acc.1.2 + 1), acc.2 ++ [f j i])) acc) (a, log)
      = (L1.foldl (fun (acc : JSNum × Nat) (j : Int) =>
          L2.foldl (fun (acc : JSNum × Nat) (i : Int) => (acc.1.add (g j i), acc.2 + 1)) acc) a,
         log ++ L1.flatMap (fun j => L2.map (f j))) := by
  induction L1 generalizing a log with
  | nil => simp
  | cons j L1 ih =>
    simp only [List.foldl_cons, List.flatMap_cons]
    rw [loggedRow_eq (g j) (f j) L2 a log, ih]
    simp

theorem calculateROIMeanLogged_eq (vol : List JSNum) (x y width height : Int)
    (log : List Int) :
    calculateROIMeanLogged vol x y width height log
      = (calculateROIMean vol x y width height, log ++ regionIndices x y width height) := by
  unfold calculateROIMeanLogged
  simp only []
  rw [loggedGrid_eq (fun j i => readVoxel vol (j * 256 + i)) (fun j i => j * 256 + i)]
  rfl

theorem calculateBackgroundStdLogged_eq (sqrt : JSNum → JSNum) (vol : List JSNum)
    (log : List Int) :
    calculateBackgroundStdLogged sqrt vol log
      = (calculateBackgroundStd sqrt vol, log ++ backgroundStdReads) := by
  unfold calculateBackgroundStdLogged
  simp only []
  rw [calculateROIMeanLogged_eq]
  simp only []
  rw [loggedGrid_eq (fun j i => ((readVoxel vol (j * 256 + i)).sub
        (calculateROIMean vol getBackgroundRegion.x getBackgroundRegion.y
          getBackgroundRegion.width getBackgroundRegion.height)).mul
      ((readVoxel vol (j * 256 + i)).sub
        (calculateROIMean vol getBackgroundRegion.x getBackgroundRegion.y
          getBackgroundRegion.width getBackgroundRegion.height)))
    (fun j i => j * 256 + i)]
  rw [backgroundStdReads, ← List.append_assoc]
  rfl

theorem calculateSNRLogged_eq (sqrt : JSNum → JSNum) (vol : List JSNum) (log : List Int) :
    calculateSNRLogged sqrt vol log = (calculateSNR sqrt vol, log ++ snrReads) := by
  unfold calculateSNRLogged calculateSNR snrReads
  simp only [calculateROIMeanLogged_eq, calculateBackgroundStdLogged_eq, List.append_assoc]

theorem calculateCNRLogged_eq (sqrt : JSNum → JSNum) (vol : List JSNum) (log : List Int) :
    calculateCNRLogged sqrt vol log = (calculateCNR sqrt vol, log ++ cnrReads) := by
  unfold calculateCNRLogged calculateCNR cnrReads
  simp only [calculateROIMeanLogged_eq, calculateBackgroundStdLogged_eq, List.append_assoc]

theorem calculateQualityMetricsLogged_eq (sqrt : JSNum → JSNum) (vol : List JSNum)
    (size : VolumeSize) :
    calculateQualityMetricsLogged sqrt ⟨some vol, size⟩
      = (calculateQualityMetrics sqrt ⟨some vol, size⟩, qualityMetricsReads) := by
  unfold calculateQualityMetricsLogged calculateQualityMetrics qualityMetricsReads
  simp only [calculateSNRLogged_eq, calculateCNRLogged_eq, List.nil_append]

theorem foldl_add_nan (l : List JSNum) : l.foldl JSNum.add JSNum.nan = JSNum.nan := by
  induction l with
  | nil => rfl
  | cons a l ih =>
    have ha : JSNum.nan.add a = JSNum.nan := by cases a <;> rfl
    rw [List.foldl_cons, ha]
    exact ih

theorem foldl_add_of_nan_mem (l : List JSNum) (h : JSNum.nan ∈ l) (s : JSNum) :
    l.foldl JSNum.add s = JSNum.nan := by
  induction l generalizing s with
  | nil => exact absurd h (List.not_mem_nil _)
  | cons a l ih =>
    rw [List.foldl_cons]
    rcases List.mem_cons.mp h with ha | ha
    · rw [← ha]
      have hs : s.add JSNum.nan = JSNum.nan := by cases s <;> rfl
      rw [hs]
      exact foldl_add_nan l
    · exact ih ha _

theorem nan_div (b : JSNum) : JSNum.nan.div b = JSNum.nan := by
  cases b <;> rfl

theorem nan_sub (b : JSNum) : JSNum.nan.sub b = JSNum.nan := by
  cases b <;> rfl

theorem nan_abs : JSNum.nan.abs = JSNum.nan := rfl

theorem calculateQualityMetrics_some (sqrt : JSNum → JSNum) (vol : List JSNum)
    (size : VolumeSize) :
    calculateQualityMetrics sqrt ⟨some vol, size⟩
      = some { snr := calculateSNR sqrt vol,
               cnr := calculateCNR sqrt vol,
               spatialResolution := calculateSpatialResolution,
               contrastResolution := calculateContrastResolution,
               artifactScore := calculateArtifactScore } := rfl

/-- A region whose last read, at `(y + height - 1) * 256 + (x + width - 1)`, is
past the end of the buffer has the mean `NaN`. -/
theorem calculateROIMean_pastEnd (vol : List JSNum) (x y width height : Nat)
    (hw : 0 < width) (hh : 0 < height)
    (hlen : vol.length ≤ (y + height - 1) * 256 + (x + width - 1)) :
    calculateROIMean vol x y width height = JSNum.nan := by
  have hmem : JSNum.nan ∈ regionSamples vol x y width height := by
    rw [mem_regionSamples]
    refine ⟨height - 1, width - 1, ?_, ?_, ?_⟩
    · rw [Int.toNat_ofNat]; omega
    · rw [Int.toNat_ofNat]; omega
    · have hidx : ((y : Int) + ((height - 1 : Nat) : Int)) * 256 + ((x : Int) + ((width - 1 : Nat) : Int))
          = (((y + height - 1) * 256 + (x + width - 1) : Nat) : Int) := by
        push_cast
        omega
      rw [hidx, readVoxel_natCast, List.getD_eq_getElem?_getD, List.getElem?_eq_none hlen]
      rfl
  rw [calculateROIMean_eq, jsSum, foldl_add_of_nan_mem _ hmem, nan_div]

/-- C27: recorded read by read, the voxel indices `calculateQualityMetrics`
reads are the list `qualityMetricsReads` (the four rectangles, the background
one twice per call of `calculateBackgroundStd`), and the report is that of the
function itself. These indices all lie in [2570, 38293], both ends being read,
and the report depends on the volume through the reads at these indices only.
With at least 38294 voxels every read is inside the buffer; with fewer voxels
(the 8x8x8 volume has 512) the read at 38293 falls past its end, yields
`undefined`, and makes both `snr` and `cnr` of the report `NaN`. -/
theorem qualityMetricsReads_spec :
    (∀ (sqrt : JSNum → JSNum) (vol : List JSNum) (size : VolumeSize),
      calculateQualityMetricsLogged sqrt ⟨some vol, size⟩
        = (calculateQualityMetrics sqrt ⟨some vol, size⟩, qualityMetricsReads)) ∧
    (∀ n ∈ qualityMetricsReads, 2570 ≤ n ∧ n ≤ 38293) ∧
    (10 * 256 + 10 : Int) = 2570 ∧ (149 * 256 + 149 : Int) = 38293 ∧
    (2570 : Int) ∈ qualityMetricsReads ∧ (38293 : Int) ∈ qualityMetricsReads ∧
    (∀ (sqrt : JSNum → JSNum) (vol1 vol2 : List JSNum) (size1 size2 : VolumeSize),
      (∀ n ∈ qualityMetricsReads, readVoxel vol1 n = readVoxel vol2 n) →
      calculateQualityMetrics sqrt ⟨some vol1, size1⟩
        = calculateQualityMetrics sqrt ⟨some vol2, size2⟩) ∧
    (∀ vol : List JSNum, 38294 ≤ vol.length →
      ∀ n ∈ qualityMetricsReads, 0 ≤ n ∧ n < (vol.length : Int)) ∧
    (∀ vol : List JSNum, vol.length < 38294 →
      ∃ n ∈ qualityMetricsReads, (vol.length : Int) ≤ n ∧ readVoxel vol n = JSNum.nan) ∧
    (∀ (sqrt : JSNum → JSNum) (vol : List JSNum) (size : VolumeSize), vol.length < 38294 →
      ∃ m, calculateQualityMetrics sqrt ⟨some vol, size⟩ = some m ∧
        m.snr = JSNum.nan ∧ m.cnr = JSNum.nan) ∧
    volume888.length = 512 := by
  have hmax : (38293 : Int) ∈ qualityMetricsReads := by
    rw [mem_qualityMetricsReads]
    exact Or.inl ⟨49, 49, by decide, by decide, by norm_num⟩
  refine ⟨calculateQualityMetricsLogged_eq, qualityMetricsReads_bounds, by norm_num,
    by norm_num, ?_, hmax, calculateQualityMetrics_congr, ?_, ?_, ?_, ?_⟩
  · rw [mem_qualityMetricsReads]
    exact Or.inr (Or.inl ⟨0, 0, by decide, by decide, by norm_num⟩)
  · intro vol hlen n hn
    have hb := qualityMetricsReads_bounds n hn
    omega
  · intro vol hlen
    refine ⟨38293, hmax, by omega, ?_⟩
    unfold readVoxel
    rw [if_neg (by decide), List.getD_eq_getElem?_getD, List.getElem?_eq_none]
    · rfl
    · have h : (38293 : Int).toNat = 38293 := rfl
      rw [h]
      omega
  · intro sqrt vol size hlen
    have hroi : calculateROIMean vol 100 100 50 50 = JSNum.nan :=
      calculateROIMean_pastEnd vol 100 100 50 50 (by decide) (by decide) (by omega)
    have hsoft : calculateROIMean vol 120 120 30 30 = JSNum.nan :=
      calculateROIMean_pastEnd vol 120 120 30 30 (by decide) (by decide) (by omega)
    have hsnr : calculateSNR sqrt vol = JSNum.nan := by
      unfold calculateSNR
      simp only []
      rw [hroi, nan_div]
    have hcnr : calculateCNR sqrt vol = JSNum.nan := by
      unfold calculateCNR
      simp only []
      rw [hsoft, nan_sub, nan_abs, nan_div]
    refine ⟨_, calculateQualityMetrics_some sqrt vol size, ?_, ?_⟩
    · dsimp only
      exact hsnr
    · dsimp only
      exact hcnr
  · rw [volume888_length]

/-- Witness of C27: on the 8x8x8 volume some read falls past the end. -/
theorem qualityMetricsReads_spec_witness :
    volume888.length < 38294 ∧
    ∃ n ∈ qualityMetricsReads, (volume888.length : Int) ≤ n ∧ readVoxel volume888 n = JSNum.nan :=
  ⟨by rw [volume888_length]; decide,
    qualityMetricsReads_spec.2.2.2.2.2.2.2.2.1 volume888 (by rw [volume888_length]; decide)⟩

/-! ## The dicom export keeps every voxel -/

theorem extractAxialSlice_eq_take_drop (size : VolumeSize) (vol : List JSNum) (k : Nat)
    (hvol : vol.length = size.x * size.y * size.z) (hk : k < size.z) :
    extractAxialSlice size vol (k : Int)
      = (vol.drop (k * (size.x * size.y))).take (size.x * size.y) := by
  apply List.ext_getElem?
  intro p
  rw [List.getElem?_take, List.getElem?_drop]
  by_cases hp : p < size.x * size.y
  · rw [if_pos hp]
    have hx : 0 < size.x := by
      rcases Nat.eq_zero_or_pos size.x with h | h
      · rw [h, Nat.zero_mul] at hp; omega
      · exact h
    have hi : p % size.x < size.x := Nat.mod_lt _ hx
    have hj : p / size.x < size.y := by
      rw [Nat.div_lt_iff_lt_mul hx, Nat.mul_comm]; exact hp
    have hsplit : p / size.x * size.x + p % size.x = p := by
      rw [Nat.mul_comm]; exact Nat.div_add_mod p size.x
    have h := extractAxialSlice_getElem? size vol k (p % size.x) (p / size.x) hvol hk hi hj
    rw [hsplit] at h
    rw [h]
    congr 1
    rw [Nat.mul_assoc, Nat.add_assoc, hsplit]
  · rw [if_neg hp]
    apply List.getElem?_eq_none
    rw [extractAxialSlice_length]
    omega

theorem chunks_flatten (vol : List JSNum) (m n : Nat) :
    ((List.range n).map (fun k => (vol.drop (k * m)).take m)).flatten = vol.take (n * m) := by
  induction n with
  | zero => simp
  | succ n ih =>
    rw [List.range_succ, List.map_append, List.flatten_append, ih, List.map_singleton,
      List.flatten_singleton, Nat.succ_mul, List.take_add]

/-- C28: for a volume of dimensions (x, y, z) with x*y*z voxels, the bundle of
`exportAsDICOM` carries z slices, slice k being the voxels at positions
`k*x*y` to `(k+1)*x*y - 1` of the buffer, and the concatenation of the slices
in order is the voxel buffer. -/
theorem exportAsDICOM_roundtrip (sqrt : JSNum → JSNum) (size : VolumeSize) (vol : List JSNum)
    (hvol : vol.length = size.x * size.y * size.z) :
    ∃ b slices, exportAsDICOM sqrt ⟨some vol, size⟩ = Except.ok b ∧
      b.slices = some slices ∧ slices.length = size.z ∧
      (∀ k, k < size.z →
        slices[k]? = some ((vol.drop (k * (size.x * size.y))).take (size.x * size.y))) ∧
      slices.flatten = vol := by
  have hmap : (List.range size.z).map (fun (k : Nat) => extractAxialSlice size vol (k : Int))
      = (List.range size.z).map
          (fun k => (vol.drop (k * (size.x * size.y))).take (size.x * size.y)) := by
    apply List.map_congr_left
    intro k hk
    exact extractAxialSlice_eq_take_drop size vol k hvol (List.mem_range.mp hk)
  refine ⟨_, _, exportAsDICOM_some sqrt vol size, rfl, ?_, ?_, ?_⟩
  · rw [List.length_map, List.length_range]
  · intro k hk
    rw [hmap, List.getElem?_map, List.getElem?_range hk]
    rfl
  · rw [hmap, chunks_flatten]
    apply List.take_of_length_le
    rw [hvol, Nat.mul_comm size.z]

/-- Witness of C28 on the 2x2x3 volume. -/
theorem exportAsDICOM_roundtrip_witness :
    volume223.length = 2 * 2 * 3 ∧
    ∃ b slices, exportAsDICOM sqrtModel ⟨some volume223, ⟨2, 2, 3⟩⟩ = Except.ok b ∧
      b.slices = some slices ∧ slices.length = 3 ∧
      (∀ k, k < 3 → slices[k]? = some ((volume223.drop (k * (2 * 2))).take (2 * 2))) ∧
      slices.flatten = volume223 :=
  ⟨rfl, exportAsDICOM_roundtrip sqrtModel ⟨2, 2, 3⟩ volume223 rfl⟩

/-! ## Dose tracking -/

theorem getElem?_findIdx_of_find? {α : Type} (p : α → Bool) (l : List α) (a : α)
    (h : l.find? p = some a) : l[l.findIdx p]? = some a := by
  induction l with
  | nil => simp at h
  | cons b l ih =>
    rw [List.find?_cons] at h
    rw [List.findIdx_cons]
    cases hb : p b with
    | true =>
      rw [hb] at h
      simp only [cond_true, List.getElem?_cons_zero]
      simpa using h
    | false =>
      rw [hb] at h
      simp only [cond_false, List.getElem?_cons_succ]
      exact ih h

theorem updateDose_unknown (self : MedicalSystem) (studyId : String) (additionalDose : JSNum)
    (h : getStudy self studyId = none) : updateDose self studyId additionalDose = self := by
  simp [updateDose, h]

theorem updateDose_known (self : MedicalSystem) (studyId : String) (additionalDose : JSNum)
    (study : Study) (h : getStudy self studyId = some study) :
    (updateDose self studyId additionalDose).studies
      = self.studies.set (self.studies.findIdx (fun s => decide (s.id = studyId)))
          { study with dose := study.dose.add additionalDose } ∧
    (updateDose self studyId additionalDose).doseWarnings
      = if JSNum.lt (JSNum.fin 10) study.dose = true
        then self.doseWarnings ++ [(studyId, study.dose)] else self.doseWarnings := by
  have hidx := getElem?_findIdx_of_find? _ _ _ h
  simp only [updateDose, h, updateStudy, hidx, Option.getD_some]
  by_cases hw : JSNum.lt (JSNum.fin 10) study.dose = true
  · simp [hw, showDoseWarning]
  · simp [hw]

/-- C29 (evaluation at the failing inputs): for the single study 'ST1' with
dose 9, `updateDose('ST1', 5)` stores the dose 14, which exceeds 10, and raises
no warning; for the study with dose 11, `updateDose('ST1', -5)` stores the dose
6, which does not exceed 10, and raises the warning with the old dose 11. For
an unknown identifier nothing changes. -/
theorem updateDose_staleDose :
    (updateDose ⟨[⟨"ST1", JSNum.fin 9⟩], []⟩ "ST1" (JSNum.fin 5)).studies
      = [⟨"ST1", JSNum.fin 14⟩] ∧
    (updateDose ⟨[⟨"ST1", JSNum.fin 9⟩], []⟩ "ST1" (JSNum.fin 5)).doseWarnings = [] ∧
    JSNum.lt (JSNum.fin 10) (JSNum.fin 14) = true ∧
    (updateDose ⟨[⟨"ST1", JSNum.fin 11⟩], []⟩ "ST1" (JSNum.fin (-5))).studies
      = [⟨"ST1", JSNum.fin 6⟩] ∧
    (updateDose ⟨[⟨"ST1", JSNum.fin 11⟩], []⟩ "ST1" (JSNum.fin (-5))).doseWarnings
      = [("ST1", JSNum.fin 11)] ∧
    JSNum.lt (JSNum.fin 10) (JSNum.fin 6) = false ∧
    (updateDose ⟨[⟨"ST1", JSNum.fin 9⟩], []⟩ "ST2" (JSNum.fin 5)).studies
      = [⟨"ST1", JSNum.fin 9⟩] ∧
    (updateDose ⟨[⟨"ST1", JSNum.fin 9⟩], []⟩ "ST2" (JSNum.fin 5)).doseWarnings = [] := by
  have h9 : getStudy ⟨[⟨"ST1", JSNum.fin 9⟩], []⟩ "ST1" = some ⟨"ST1", JSNum.fin 9⟩ := by
    decide
  have h11 : getStudy ⟨[⟨"ST1", JSNum.fin 11⟩], []⟩ "ST1" = some ⟨"ST1", JSNum.fin 11⟩ := by
    decide
  have hnone : getStudy ⟨[⟨"ST1", JSNum.fin 9⟩], []⟩ "ST2" = none := by decide
  have hi : ([⟨"ST1", JSNum.fin 9⟩] : List Study).findIdx (fun s => decide (s.id = "ST1")) = 0 := by
    decide
  have hi' : ([⟨"ST1", JSNum.fin 11⟩] : List Study).findIdx (fun s => decide (s.id = "ST1")) = 0 := by
    decide
  obtain ⟨a1, a2⟩ := updateDose_known _ "ST1" (JSNum.fin 5) _ h9
  obtain ⟨b1, b2⟩ := updateDose_known _ "ST1" (JSNum.fin (-5)) _ h11
  have c := updateDose_unknown _ "ST2" (JSNum.fin 5) hnone
  refine ⟨?_, ?_, ?_, ?_, ?_, ?_, ?_, ?_⟩
  · rw [a1, hi]
    simp only [List.set_cons_zero, JSNum.add]
    norm_num
  · rw [a2]
    norm_num [JSNum.lt]
  · norm_num [JSNum.lt]
  · rw [b1, hi']
    simp only [List.set_cons_zero, JSNum.add]
    norm_num
  · rw [b2]
    norm_num [JSNum.lt]
  · norm_num [JSNum.lt]
  · rw [c]
  · rw [c]

/-! ## The event log -/

theorem logEvent_array {ε : Type} (old : List ε) (storage : LogStorage ε) (event : ε)
    (hold : (storage = LogStorage.absent ∧ old = []) ∨ storage = LogStorage.array old) :
    logEvent true storage event
      = LogStorage.array (old.drop (old.length + 1 - 1000) ++ [event]) := by
  have hdrop : (if (old ++ [event]).length > 1000
      then (old ++ [event]).drop ((old ++ [event]).length - 1000) else old ++ [event])
      = old.drop (old.length + 1 - 1000) ++ [event] := by
    rw [List.length_append, List.length_singleton]
    by_cases h : old.length + 1 > 1000
    · rw [if_pos h, List.drop_append_of_le_length (by omega)]
    · rw [if_neg h]
      have h0 : old.length + 1 - 1000 = 0 := by omega
      rw [h0, List.drop_zero]
  rcases hold with ⟨rfl, rfl⟩ | rfl
  · simp only [logEvent]
    rw [hdrop]
    rfl
  · simp only [logEvent]
    rw [hdrop]
    rfl

/-- C30: after a `logEvent` call that writes the storage, the stored log is
the previous log without its first `length + 1 - 1000` entries, followed by the
new event: it has at most 1000 entries, its last entry is the event just logged
and the kept entries are the most recent ones in their original order. A call
that cannot parse the stored value or cannot write leaves the storage
unchanged. -/
theorem logEvent_spec {ε : Type} (old : List ε) (storage : LogStorage ε) (event : ε)
    (hold : (storage = LogStorage.absent ∧ old = []) ∨ storage = LogStorage.array old) :
    logEvent true storage event
      = LogStorage.array (old.drop (old.length + 1 - 1000) ++ [event]) ∧
    (old.drop (old.length + 1 - 1000) ++ [event]).length ≤ 1000 ∧
    (old.drop (old.length + 1 - 1000) ++ [event]).getLast? = some event ∧
    (old.length < 1000 → old.drop (old.length + 1 - 1000) ++ [event] = old ++ [event]) ∧
    (1000 ≤ old.length →
      (old.drop (old.length + 1 - 1000) ++ [event]).length = 1000 ∧
      old = old.take (old.length + 1 - 1000) ++ old.drop (old.length + 1 - 1000)) ∧
    logEvent false storage event = storage ∧
    logEvent true (LogStorage.other : LogStorage ε) event = LogStorage.other := by
  refine ⟨logEvent_array old storage event hold, ?_, ?_, ?_, ?_, ?_, rfl⟩
  · rw [List.length_append, List.length_drop, List.length_singleton]
    omega
  · simp
  · intro h
    have h0 : old.length + 1 - 1000 = 0 := by omega
    rw [h0, List.drop_zero]
  · intro h
    refine ⟨?_, (List.take_append_drop _ _).symm⟩
    rw [List.length_append, List.length_drop, List.length_singleton]
    omega
  · rcases hold with ⟨rfl, rfl⟩ | rfl <;> simp [logEvent]

/-- Witness of C30: logging into an absent log and into a log of two events. -/
theorem logEvent_spec_witness :
    logEvent true (LogStorage.absent : LogStorage Nat) 7 = LogStorage.array [7] ∧
    logEvent true (LogStorage.array [1, 2]) 7 = LogStorage.array [1, 2, 7] :=
  ⟨(logEvent_spec [] LogStorage.absent 7 (Or.inl ⟨rfl, rfl⟩)).1,
   (logEvent_spec [1, 2] (LogStorage.array [1, 2]) 7 (Or.inr rfl)).1⟩

/-! ## Effects on the typed arrays -/

theorem set_eq_self_of_getElem? {α : Type} (l : List α) (n : Nat) (b : α)
    (h : l[n]? = some b) : l.set n b = l := by
  apply List.ext_getElem?
  intro m
  rw [List.getElem?_set']
  split_ifs with hm
  · subst hm
    rw [h]
    rfl
  · rfl

theorem storeFloat_other (heap : Heap) (a : Nat) (index : Nat) (value : JSNum) (b : Nat)
    (hb : b ≠ a) : (storeFloat heap a index value)[b]? = heap[b]? := by
  unfold storeFloat
  split
  · exact List.getElem?_set_ne (Ne.symm hb)
  · rfl

theorem storeFloat_length (heap : Heap) (a : Nat) (index : Nat) (value : JSNum) :
    (storeFloat heap a index value).length = heap.length := by
  unfold storeFloat
  split
  · exact List.length_set _ _ _
  · rfl

theorem storeFloat_eq (heap : Heap) (a : Nat) (index : Nat) (value : JSNum)
    (s : List JSNum) (hs : heap[a]? = some (Buffer.float32 s)) :
    storeFloat heap a index value = heap.set a (Buffer.float32 (s.set index value)) := by
  unfold storeFloat
  rw [hs]

theorem storeByte_eq (heap : Heap) (a : Nat) (index : Nat) (byte : Nat)
    (d : List Nat) (hd : heap[a]? = some (Buffer.uint8Clamped d)) :
    storeByte heap a index byte = heap.set a (Buffer.uint8Clamped (d.set index byte)) := by
  unfold storeByte
  rw [hd]

theorem loadFloat_eq (heap : Heap) (a : Nat) (index : Int)
    (s : List JSNum) (hs : heap[a]? = some (Buffer.float32 s)) :
    loadFloat heap a index = readVoxel s index := by
  unfold loadFloat
  rw [hs]

theorem getElem?_set_same {α : Type} (l : List α) (n : Nat) (b c : α)
    (h : l[n]? = some b) : (l.set n c)[n]? = some c := by
  have hn : n < l.length := by
    by_contra hge
    rw [List.getElem?_eq_none (by omega)] at h
    exact Option.noConfusion h
  exact List.getElem?_set_self hn

/-- The copy loop of an extraction, run on the heap, changes the slice array
only, and in the way `runAccesses` says. -/
theorem runOnHeap_eq (volume : Nat) (slice : Nat) (vol : List JSNum) (hne : volume ≠ slice)
    (accesses : List (Nat × Int)) :
    ∀ (heap : Heap) (s : List JSNum), heap[volume]? = some (Buffer.float32 vol) →
      heap[slice]? = some (Buffer.float32 s) →
      accesses.foldl (fun heap a => storeFloat heap slice a.1 (loadFloat heap volume a.2)) heap
        = heap.set slice (Buffer.float32 (runAccesses vol accesses s)) := by
  induction accesses with
  | nil =>
    intro heap s _ hs
    exact (set_eq_self_of_getElem? heap slice _ hs).symm
  | cons a rest ih =>
    intro heap s hv hs
    rw [List.foldl_cons, storeFloat_eq heap slice a.1 _ s hs, loadFloat_eq heap volume a.2 vol hv,
      ih _ (s.set a.1 (readVoxel vol a.2))
        (by rw [List.getElem?_set_ne (Ne.symm hne)]; exact hv)
        (getElem?_set_same heap slice _ _ hs),
      List.set_set]
    rfl

theorem alloc_run_eq (heap : Heap) (volume : Nat) (vol : List JSNum)
    (hv : heap[volume]? = some (Buffer.float32 vol)) (s : List JSNum)
    (accesses : List (Nat × Int)) :
    accesses.foldl (fun h a => storeFloat h heap.length a.1 (loadFloat h volume a.2))
        (heap ++ [Buffer.float32 s])
      = heap ++ [Buffer.float32 (runAccesses vol accesses s)] := by
  have hlt : volume < heap.length := by
    by_contra hge
    rw [List.getElem?_eq_none (by omega)] at hv
    exact Option.noConfusion hv
  rw [runOnHeap_eq volume heap.length vol (by omega) accesses (heap ++ [Buffer.float32 s]) s
      (by rw [List.getElem?_append_left hlt]; exact hv)
      (List.getElem?_concat_length heap _),
    List.set_append_right _ _ (le_refl _)]
  simp

theorem extractAxialSlice_onHeap (self : ProcessorOnHeap) (vol : List JSNum)
    (hv : self.heap[self.reconstructionVolume]? = some (Buffer.float32 vol)) (index : Int) :
    self.extractAxialSlice index
      = ({ self with heap := self.heap ++
            [Buffer.float32 (extractAxialSlice self.volumeSize vol index)] },
         self.heap.length) := by
  rw [extractAxialSlice_eq_run,
    ← alloc_run_eq self.heap self.reconstructionVolume vol hv]
  simp only [axialAccesses, List.flatMap_def, List.foldl_flatten, List.foldl_map]
  rfl

theorem extractCoronalSlice_onHeap (self : ProcessorOnHeap) (vol : List JSNum)
    (hv : self.heap[self.reconstructionVolume]? = some (Buffer.float32 vol)) (index : Int) :
    self.extractCoronalSlice index
      = ({ self with heap := self.heap ++
            [Buffer.float32 (extractCoronalSlice self.volumeSize vol index)] },
         self.heap.length) := by
  rw [extractCoronalSlice_eq_run,
    ← alloc_run_eq self.heap self.reconstructionVolume vol hv]
  simp only [coronalAccesses, List.flatMap_def, List.foldl_flatten, List.foldl_map]
  rfl

theorem extractSagittalSlice_onHeap (self : ProcessorOnHeap) (vol : List JSNum)
    (hv : self.heap[self.reconstructionVolume]? = some (Buffer.float32 vol)) (index : Int) :
    self.extractSagittalSlice index
      = ({ self with heap := self.heap ++
            [Buffer.float32 (extractSagittalSlice self.volumeSize vol index)] },
         self.heap.length) := by
  rw [extractSagittalSlice_eq_run,
    ← alloc_run_eq self.heap self.reconstructionVolume vol hv]
  simp only [sagittalAccesses, List.flatMap_def, List.foldl_flatten, List.foldl_map]
  rfl

/-- The pixel loop of `convertToImageData`, run on the heap, changes the byte
array of the image only, and in the way `pixelLoop` says. -/
theorem pixelLoopOnHeap_eq (sliceData data : Nat) (samples : List JSNum)
    (hne : sliceData ≠ data) (n : Nat) :
    ∀ (heap : Heap) (d : List Nat), heap[sliceData]? = some (Buffer.float32 samples) →
      heap[data]? = some (Buffer.uint8Clamped d) →
      (List.range n).foldl (fun heap (i : Nat) =>
        storeByte (storeByte (storeByte (storeByte heap data (i * 4)
          (toUint8Clamp (gray (loadFloat heap sliceData i))))
          data (i * 4 + 1) (toUint8Clamp (gray (loadFloat heap sliceData i))))
          data (i * 4 + 2) (toUint8Clamp (gray (loadFloat heap sliceData i))))
          data (i * 4 + 3) 255) heap
        = heap.set data (Buffer.uint8Clamped (pixelLoop samples n d)) := by
  induction n with
  | zero =>
    intro heap d _ hd
    exact (set_eq_self_of_getElem? heap data _ hd).symm
  | succ n ih =>
    intro heap d hs hd
    rw [List.range_succ, List.foldl_append, ih heap d hs hd, List.foldl_cons, List.foldl_nil]
    have hs1 : (heap.set data (Buffer.uint8Clamped (pixelLoop samples n d)))[sliceData]?
        = some (Buffer.float32 samples) := by
      rw [List.getElem?_set_ne (Ne.symm hne)]; exact hs
    have hd1 := getElem?_set_same heap data _ (Buffer.uint8Clamped (pixelLoop samples n d)) hd
    rw [loadFloat_eq _ sliceData _ samples hs1, storeByte_eq _ data _ _ _ hd1, List.set_set]
    have hd2 := getElem?_set_same heap data _
      (Buffer.uint8Clamped ((pixelLoop samples n d).set (n * 4)
        (toUint8Clamp (gray (readVoxel samples n))))) hd
    rw [storeByte_eq _ data _ _ _ hd2, List.set_set]
    have hd3 := getElem?_set_same heap data _
      (Buffer.uint8Clamped (((pixelLoop samples n d).set (n * 4)
        (toUint8Clamp (gray (readVoxel samples n)))).set (n * 4 + 1)
        (toUint8Clamp (gray (readVoxel samples n))))) hd
    rw [storeByte_eq _ data _ _ _ hd3, List.set_set]
    have hd4 := getElem?_set_same heap data _
      (Buffer.uint8Clamped ((((pixelLoop samples n d).set (n * 4)
        (toUint8Clamp (gray (readVoxel samples n)))).set (n * 4 + 1)
        (toUint8Clamp (gray (readVoxel samples n)))).set (n * 4 + 2)
        (toUint8Clamp (gray (readVoxel samples n))))) hd
    rw [storeByte_eq _ data _ _ _ hd4, List.set_set]
    rw [readVoxel_natCast]
    simp only [pixelLoop, List.range_succ, List.foldl_append, List.foldl_cons, List.foldl_nil]

theorem convertToImageData_onHeap (self : ProcessorOnHeap) (sliceData : Nat)
    (samples : List JSNum) (hs : self.heap[sliceData]? = some (Buffer.float32 samples))
    (width height : Nat) (hw : width ≠ 0) (hh : height ≠ 0) :
    self.convertToImageData sliceData width height
      = Except.ok
          ({ self with heap := self.heap ++ [Buffer.uint8Clamped
              (pixelLoop samples samples.length (List.replicate (width * height * 4) 0))] },
           { width := width, height := height, data := self.heap.length }) := by
  have hlt : sliceData < self.heap.length := by
    by_contra hge
    rw [List.getElem?_eq_none (by omega)] at hs
    exact Option.noConfusion hs
  have hs1 : (self.heap ++ [Buffer.uint8Clamped (List.replicate (width * height * 4) 0)])[sliceData]?
      = some (Buffer.float32 samples) := by
    rw [List.getElem?_append_left hlt]; exact hs
  have hlen : bufferLength
      (self.heap ++ [Buffer.uint8Clamped (List.replicate (width * height * 4) 0)]) sliceData
      = samples.length := by
    unfold bufferLength
    rw [hs1]
  unfold ProcessorOnHeap.convertToImageData
  rw [if_neg (by tauto)]
  simp only []
  rw [hlen, pixelLoopOnHeap_eq sliceData self.heap.length samples (by omega) samples.length _ _
    hs1 (List.getElem?_concat_length self.heap _),
    List.set_append_right _ _ (le_refl _)]
  simp

theorem calculateQualityMetrics_onHeap (sqrt : JSNum → JSNum) (self : ProcessorOnHeap) :
    (self.calculateQualityMetrics sqrt).1 = self := by
  unfold ProcessorOnHeap.calculateQualityMetrics
  split <;> rfl

theorem getElem?_concat_of_lt {α : Type} (l : List α) (b : α) (a : Nat) (h : a < l.length) :
    (l ++ [b])[a]? = l[a]? :=
  List.getElem?_append_left h

/-- C23: slice extraction in each of the three orientations, `convertToImageData`
and `calculateQualityMetrics` leave every typed array that existed before the
call as it was, the voxel buffer among them, and leave the reference to the
voxel buffer and the volume dimensions as they were. The array an extraction
returns is a new object: its reference is none of those that existed, it holds
the samples of the slice, and a later store into it changes no other array,
neither the volume nor a slice extracted before. -/
theorem sliceExtraction_frame (sqrt : JSNum → JSNum) (self : ProcessorOnHeap)
    (vol : List JSNum)
    (hv : self.heap[self.reconstructionVolume]? = some (Buffer.float32 vol))
    (sliceIndex : Int) :
    (∀ r ∈ [(self.extractAxialSlice sliceIndex,
              extractAxialSlice self.volumeSize vol sliceIndex),
            (self.extractCoronalSlice sliceIndex,
              extractCoronalSlice self.volumeSize vol sliceIndex),
            (self.extractSagittalSlice sliceIndex,
              extractSagittalSlice self.volumeSize vol sliceIndex)],
      r.1.1.volumeSize = self.volumeSize ∧
      r.1.1.reconstructionVolume = self.reconstructionVolume ∧
      (∀ a, a < self.heap.length → r.1.1.heap[a]? = self.heap[a]?) ∧
      r.1.1.heap[self.reconstructionVolume]? = some (Buffer.float32 vol) ∧
      ¬ r.1.2 < self.heap.length ∧
      r.1.1.heap[r.1.2]? = some (Buffer.float32 r.2) ∧
      ∀ (index : Nat) (value : JSNum) (a : Nat), a ≠ r.1.2 →
        (storeFloat r.1.1.heap r.1.2 index value)[a]? = r.1.1.heap[a]?) ∧
    (∀ (sliceData : Nat) (samples : List JSNum) (width height : Nat)
        (r : ProcessorOnHeap × ImageDataRef),
      self.heap[sliceData]? = some (Buffer.float32 samples) →
      self.convertToImageData sliceData width height = Except.ok r →
      r.1.volumeSize = self.volumeSize ∧
      r.1.reconstructionVolume = self.reconstructionVolume ∧
      (∀ a, a < self.heap.length → r.1.heap[a]? = self.heap[a]?) ∧
      ¬ r.2.data < self.heap.length) ∧
    (self.calculateQualityMetrics sqrt).1 = self := by
  have hframe : ∀ (b : Buffer),
      (∀ a, a < self.heap.length → (self.heap ++ [b])[a]? = self.heap[a]?) ∧
      (self.heap ++ [b])[self.reconstructionVolume]? = some (Buffer.float32 vol) ∧
      ¬ self.heap.length < self.heap.length ∧
      (self.heap ++ [b])[self.heap.length]? = some b ∧
      ∀ (index : Nat) (value : JSNum) (a : Nat), a ≠ self.heap.length →
        (storeFloat (self.heap ++ [b]) self.heap.length index value)[a]?
          = (self.heap ++ [b])[a]? := by
    intro b
    have hlt : self.reconstructionVolume < self.heap.length := by
      by_contra hge
      rw [List.getElem?_eq_none (by omega)] at hv
      exact Option.noConfusion hv
    refine ⟨fun a ha => getElem?_concat_of_lt _ _ a ha, ?_, lt_irrefl _,
      List.getElem?_concat_length _ _, fun index value a ha => storeFloat_other _ _ _ _ a ha⟩
    rw [getElem?_concat_of_lt _ _ _ hlt]
    exact hv
  refine ⟨?_, ?_, calculateQualityMetrics_onHeap sqrt self⟩
  · intro r hr
    simp only [List.mem_cons, List.mem_singleton, List.not_mem_nil, or_false] at hr
    rcases hr with rfl | rfl | rfl
    · rw [extractAxialSlice_onHeap self vol hv]
      exact ⟨rfl, rfl, hframe _⟩
    · rw [extractCoronalSlice_onHeap self vol hv]
      exact ⟨rfl, rfl, hframe _⟩
    · rw [extractSagittalSlice_onHeap self vol hv]
      exact ⟨rfl, rfl, hframe _⟩
  · intro sliceData samples width height r hs hr
    by_cases hz : width = 0 ∨ height = 0
    · unfold ProcessorOnHeap.convertToImageData at hr
      rw [if_pos hz] at hr
      exact Except.noConfusion hr
    · rw [convertToImageData_onHeap self sliceData samples hs width height
        (fun h => hz (Or.inl h)) (fun h => hz (Or.inr h))] at hr
      cases hr
      exact ⟨rfl, rfl, fun a ha => getElem?_concat_of_lt _ _ a ha, lt_irrefl _⟩

/-- Witness of C23 on the 2x2x3 volume: the sagittal slice at index 1 is the
second typed array, and the voxel buffer is still the first one after a store
into that slice. -/
theorem sliceExtraction_frame_witness :
    processor223.heap[processor223.reconstructionVolume]? = some (Buffer.float32 volume223) ∧
    (processor223.extractSagittalSlice 1).2 = 1 ∧
    (processor223.extractSagittalSlice 1).1.heap[1]?
      = some (Buffer.float32
          [JSNum.fin 1, JSNum.fin 3, JSNum.fin 5, JSNum.fin 7, JSNum.fin 9, JSNum.fin 11]) ∧
    (storeFloat (processor223.extractSagittalSlice 1).1.heap 1 0 (JSNum.fin 42))[0]?
      = some (Buffer.float32 volume223) := by
  have h := (sliceExtraction_frame sqrtModel processor223 volume223 rfl 1).1
    (processor223.extractSagittalSlice 1, extractSagittalSlice processor223.volumeSize volume223 1)
    (by simp)
  have h2 : (processor223.extractSagittalSlice 1).2 = 1 := by decide
  refine ⟨rfl, h2, ?_, ?_⟩
  · have h6 := h.2.2.2.2.2.1
    rw [h2] at h6
    exact h6
  · have h7 := h.2.2.2.2.2.2 0 (JSNum.fin 42) 0 (by rw [h2]; decide)
    rw [h2] at h7
    rw [h7]
    exact h.2.2.2.1

end CBCT
